import Mathlib

/-!
# Collision avoidance with ORCA: an exact-arithmetic embedding

The C++ sources work on IEEE doubles.  The embedding below reads every `double` as a real
number (`ℝ`), the library functions `sqrt`, `asin`, `atan`, `sin`, `cos` as their exact
mathematical counterparts and `M_PI` as `π`.  The only non-finite value the sources create on
purpose is `DOUBLE_INFINITY` as the slope of a vertical line; slopes therefore live in `EReal`.
Exceptions are modelled by `Except Err`.
-/

set_option autoImplicit false

-- The structures and enumerations below are used through their constructors and fields only;
-- the auxiliary `sizeOf` and injectivity lemmas are not generated for them.
set_option genSizeOf false
set_option genSizeOfSpec false
set_option genInjectivity false

noncomputable section

open Classical

namespace Orca

/-! ## utilities/exceptions.h -/

/-- The exception classes of `utilities/exceptions.h`. -/
inductive Err where
  | LinesParallel
  | LineVertical
  | LineHorizontal
  | LinearProgramInfeasible
  deriving DecidableEq

/-! ## utilities/utilities.h -/

/-- The C library function `fmod`: `a - n * trunc (a / n)`, truncation being towards zero. -/
def fmod (a n : ℝ) : ℝ :=
  a - n * (if 0 ≤ a / n then ((⌊a / n⌋ : ℤ) : ℝ) else ((⌈a / n⌉ : ℤ) : ℝ))

/-- `trueMod(A, N)`: `r = fmod(A, N); return (r < 0) ? r + N : r`. -/
def trueMod (A N : ℝ) : ℝ :=
  let r := fmod A N
  if r < 0 then r + N else r

/-- `sign(X)`: `(X > 0) ? 1 : (X < 0) ? -1 : 0`. -/
def sign (X : ℝ) : ℤ :=
  if X > 0 then 1 else if X < 0 then -1 else 0

/-! ## geom/point.h, geom/vector.h -/

/-- A point of the plane (`class Point`). -/
structure Point where
  x : ℝ
  y : ℝ

/-- A free vector of the plane (`class Vector`). -/
structure Vector where
  x : ℝ
  y : ℝ

/-- `Vector::Vector(const Point& P)`. -/
def Vector.ofPoint (P : Point) : Vector := ⟨P.x, P.y⟩

/-- `Point::Point(const Vector& V)`. -/
def Point.ofVector (V : Vector) : Point := ⟨V.x, V.y⟩

/-- `Point::Point(void)`: the origin. -/
def Point.origin : Point := ⟨0, 0⟩

/-- `Point::operator+`. -/
def Point.add (P Q : Point) : Point := ⟨P.x + Q.x, P.y + Q.y⟩

/-- `Point::operator-` (binary). -/
def Point.sub (P Q : Point) : Point := ⟨P.x - Q.x, P.y - Q.y⟩

/-- `Point::operator/`. -/
def Point.sdiv (P : Point) (D : ℝ) : Point := ⟨P.x / D, P.y / D⟩

/-- `Point::from`: the vector `*this - THAT`. -/
def Point.from (P THAT : Point) : Vector := Vector.ofPoint (P.sub THAT)

/-- `Vector::operator+`. -/
def Vector.add (V W : Vector) : Vector := ⟨V.x + W.x, V.y + W.y⟩

/-- `Vector::operator-` (binary). -/
def Vector.sub (V W : Vector) : Vector := ⟨V.x - W.x, V.y - W.y⟩

/-- `Vector::operator*(const Vector&)`: the dot product. -/
def Vector.dot (V W : Vector) : ℝ := V.x * W.x + V.y * W.y

/-- `Vector::operator*(const double)`. -/
def Vector.smul (V : Vector) (D : ℝ) : Vector := ⟨V.x * D, V.y * D⟩

/-- `Vector::operator/(const double)`. -/
def Vector.sdiv (V : Vector) (D : ℝ) : Vector := ⟨V.x / D, V.y / D⟩

/-- `Vector::norm`: `sqrt(*this * *this)`. -/
def Vector.norm (V : Vector) : ℝ := Real.sqrt (V.dot V)

/-- `Vector::normalize(NEW_NORM)`: rescales unless the norm is zero. -/
def Vector.normalize (V : Vector) (NEW_NORM : ℝ) : Vector :=
  let norm := V.norm
  if norm ≠ 0 then ⟨V.x * (NEW_NORM / norm), V.y * (NEW_NORM / norm)⟩ else V

/-- `Vector::limitNorm(const double MAX_NORM)`. -/
def Vector.limitNorm (V : Vector) (MAX_NORM : ℝ) : Vector :=
  if V.norm > MAX_NORM then V.normalize MAX_NORM else V

/-- `Vector::limitNorm(const Vector& THAT)`. -/
def Vector.limitNormTo (V THAT : Vector) : Vector := V.limitNorm THAT.norm

/-- `Vector::xAngle`: the angle with the x-axis, in `[0, 2π)`. -/
def Vector.xAngle (V : Vector) : ℝ :=
  if V.norm = 0 then 0
  else if V.x = 0 then Real.pi / 2 + (if V.y < 0 then Real.pi else 0)
  else trueMod (Real.arctan (V.y / V.x) + (if V.x < 0 then Real.pi else 0)) (2 * Real.pi)

/-- `Vector::Vector(const double X_ANGLE)`: the unit vector of that angle. -/
def Vector.ofAngle (X_ANGLE : ℝ) : Vector :=
  let xAngleBound := trueMod X_ANGLE (2 * Real.pi)
  ⟨Real.cos xAngleBound, Real.sin xAngleBound⟩

/-- `Vector::projectionOnto`: `Vector(THAT).normalize(std::abs(*this * THAT) / THAT.norm())`. -/
def Vector.projectionOnto (V THAT : Vector) : Vector :=
  THAT.normalize (|V.dot THAT| / THAT.norm)

/-- `Vector::rotated`: `Vector(this->xAngle() + ANGLE).normalize(this->norm())`. -/
def Vector.rotated (V : Vector) (ANGLE : ℝ) : Vector :=
  (Vector.ofAngle (V.xAngle + ANGLE)).normalize V.norm

/-- `Vector::angleFrom`: `this->xAngle() - THAT.xAngle()`. -/
def Vector.angleFrom (V THAT : Vector) : ℝ := V.xAngle - THAT.xAngle

/-! ## geom/line.h, geom/line.cpp -/

/-- A line (`class Line`): slope and the two intercepts.  The slope of a vertical line is
`DOUBLE_INFINITY`, here `⊤`. -/
structure Line where
  slope : EReal
  yIntercept : ℝ
  xIntercept : ℝ

/-- `Line::isVertical`: `slope_ == DOUBLE_INFINITY`. -/
def Line.isVertical (L : Line) : Prop := L.slope = ⊤

/-- `Line::isHorizontal`: `slope_ == 0`. -/
def Line.isHorizontal (L : Line) : Prop := L.slope = 0

/-- `Line::operator||`: equal slopes. -/
def Line.parallel (L THAT : Line) : Prop := L.slope = THAT.slope

/-- `Line::Line(void)`: the x-axis. -/
def Line.default : Line := ⟨0, 0, 0⟩

/-- `Line::Line(const double SLOPE, const double INTERCEPT)`. -/
def Line.ofSlopeIntercept (SLOPE : EReal) (INTERCEPT : ℝ) : Line :=
  let slope : EReal := if SLOPE = ⊥ then ⊤ else SLOPE
  if slope = ⊤ then ⟨slope, 0, INTERCEPT⟩
  else ⟨slope, INTERCEPT, if slope = 0 then 0 else -INTERCEPT / SLOPE.toReal⟩

/-- `Line::Line(const double X_ANGLE)`: the line through the origin that makes the angle
`X_ANGLE` with the x-axis. -/
def Line.ofAngle (X_ANGLE : ℝ) : Line :=
  let xAngleBound := trueMod X_ANGLE Real.pi
  ⟨if xAngleBound = Real.pi / 2 then ⊤ else ((Real.tan xAngleBound : ℝ) : EReal), 0, 0⟩

/-- `Line::Line(const Point& P1, const Point& P2)`. -/
def Line.ofPoints (P1 P2 : Point) : Line :=
  if P1.x = P2.x ∧ P1.y ≠ P2.y then ⟨⊤, 0, P1.x⟩
  else
    let slope : ℝ := if P1.x = P2.x ∧ P1.y = P2.y then 0 else (P2.y - P1.y) / (P2.x - P1.x)
    let yIntercept : ℝ := P1.y - P1.x * slope
    ⟨(slope : EReal), yIntercept, if slope = 0 then 0 else -yIntercept / slope⟩

/-- `Line::Line(const Point& P)`: the line through the origin and `P`. -/
def Line.ofPoint (P : Point) : Line := Line.ofPoints Point.origin P

/-- `Line::Line(const Line& THAT, const Point& P)`: the perpendicular to `THAT` through `P`.
For a vertical `THAT` the double `- 1 / THAT.slope()` is `-0.0`, which is what
`-1 / THAT.slope.toReal` evaluates to as well. -/
def Line.perpendicular (THAT : Line) (P : Point) : Line :=
  if THAT.isHorizontal then ⟨⊤, 0, P.x⟩
  else
    let slope : ℝ := -1 / THAT.slope.toReal
    let yIntercept : ℝ := P.y - P.x * slope
    ⟨(slope : EReal), yIntercept, if slope = 0 then 0 else -yIntercept / slope⟩

/-- `Line::Line(const Line& THAT)`: the copy constructor. -/
def Line.copy (THAT : Line) : Line := ⟨THAT.slope, THAT.yIntercept, THAT.xIntercept⟩

/-- `Line::getPointAtX`. -/
def Line.getPointAtX (L : Line) (X : ℝ) : Except Err Point :=
  if L.isVertical then .error .LineVertical
  else .ok ⟨X, L.slope.toReal * X + L.yIntercept⟩

/-- `Line::getPointAtY`. -/
def Line.getPointAtY (L : Line) (Y : ℝ) : Except Err Point :=
  if L.isHorizontal then .error .LineHorizontal
  else .ok ⟨if L.isVertical then L.xIntercept else (Y - L.yIntercept) / L.slope.toReal, Y⟩

/-- `Line::intersect`. -/
def Line.intersect (L THAT : Line) : Except Err Point :=
  if L.parallel THAT then .error .LinesParallel
  else if L.isVertical then THAT.getPointAtX L.xIntercept
  else if THAT.isVertical then L.getPointAtX THAT.xIntercept
  else L.getPointAtX ((THAT.yIntercept - L.yIntercept) / (L.slope.toReal - THAT.slope.toReal))

/-- `Point::projectionOnto(const Line& L)`. -/
def Point.projectionOnto (P : Point) (L : Line) : Point :=
  if L.isVertical then ⟨L.xIntercept, P.y⟩
  else
    let denom := L.slope.toReal ^ 2 + 1
    ⟨(P.x + L.slope.toReal * (P.y - L.yIntercept)) / denom,
      (L.slope.toReal * (P.x + L.slope.toReal * P.y) + L.yIntercept) / denom⟩

/-! ## geom/halfPlane.h, geom/halfPlane.cpp -/

/-- A half-plane (`class HalfPlane`): a point of the bounding line, the normal and the
bounding line. -/
structure HalfPlane where
  normalPosition : Point
  normal : Vector
  boundingLine : Line

/-- `HalfPlane::HalfPlane(const Point& NORMAL_POSITION, const Vector& NORMAL)`. -/
def HalfPlane.new (NORMAL_POSITION : Point) (NORMAL : Vector) : HalfPlane :=
  let normal : Vector := if NORMAL.norm = 0 then ⟨0, 1⟩ else NORMAL
  if normal.y = 0 then
    ⟨NORMAL_POSITION, normal, Line.ofSlopeIntercept ⊤ NORMAL_POSITION.x⟩
  else
    let slope : ℝ := -normal.x / normal.y
    let intercept : ℝ := NORMAL_POSITION.y - NORMAL_POSITION.x * slope
    ⟨NORMAL_POSITION, normal, Line.ofSlopeIntercept (slope : EReal) intercept⟩

/-- `HalfPlane::contains`: `P.from(normalPosition_) * normal_ >= 0`. -/
def HalfPlane.contains (h : HalfPlane) (P : Point) : Prop :=
  (P.from h.normalPosition).dot h.normal ≥ 0

/-! ## orca/orca.cpp: the linear program -/

/-- How one round of the loop over the half-planes ends: with the next half-plane (`next`, also
after `continue`) or by leaving the loop (`stop`, the `break` of the tangent case). -/
inductive Flow where
  | next (solution : Point)
  | stop (solution : Point)

/-- Lines 104-115 of `ORCA::solveLinearProgram`: the discriminant of the intersection of the
bounding line of `h_i` with the circle of radius `MAX_SPEED`.  `a` is `pow(slope, 2.0) + 1.0`;
for a vertical line its double value is infinite and it is not read.  The unqualified `abs` of
line 111 is read as the absolute value of a `double` (`std::abs`, `fabs`). -/
def ORCA.discriminant (h_i : HalfPlane) (MAX_SPEED : ℝ) : ℝ :=
  let a : ℝ := h_i.boundingLine.slope.toReal ^ 2 + 1
  if h_i.boundingLine.isVertical then
    ((sign (MAX_SPEED - |h_i.boundingLine.xIntercept|) : ℤ) : ℝ)
  else
    4 * (MAX_SPEED ^ 2 * a - h_i.boundingLine.yIntercept ^ 2)

/-- Lines 183-207: `left` and `right` on the circle, swapped when the normal faces downwards
(or left, for a vertical bounding line). -/
def ORCA.circleBounds (h_i : HalfPlane) (MAX_SPEED : ℝ) : ℝ × ℝ :=
  let a : ℝ := h_i.boundingLine.slope.toReal ^ 2 + 1
  let b : ℝ := 2 * h_i.boundingLine.slope.toReal * h_i.boundingLine.yIntercept
  let discriminant := ORCA.discriminant h_i MAX_SPEED
  let lr : ℝ × ℝ :=
    if h_i.boundingLine.isVertical then
      let left := Real.sqrt (MAX_SPEED ^ 2 - h_i.boundingLine.xIntercept ^ 2)
      (left, -left)
    else
      ((-b - Real.sqrt discriminant) / (2 * a), (-b + Real.sqrt discriminant) / (2 * a))
  if (h_i.boundingLine.isVertical ∧ h_i.normal.x < 0) ∨
      (¬ h_i.boundingLine.isVertical ∧ h_i.normal.y < 0) then
    (lr.2, lr.1)
  else lr

/-- Lines 212-272: the body of the loop over the half-planes `h` before `h_i`; the pair is
`(left, right)`. -/
def ORCA.tighten (h_i h : HalfPlane) (lr : ℝ × ℝ) : Except Err (ℝ × ℝ) :=
  if h_i.boundingLine.parallel h.boundingLine then
    if h_i.normal.dot h.normal > 0 ∨ h_i.contains h.normalPosition then .ok lr
    else .error .LinearProgramInfeasible
  else
    let angleDiff := trueMod (h_i.normal.angleFrom h.normal) (2 * Real.pi)
    match h_i.boundingLine.intersect h.boundingLine with
    | .error e => .error e
    | .ok intersection =>
      if angleDiff < Real.pi then
        if h_i.boundingLine.isVertical ∧ (h_i.normal.x < 0 ↔ intersection.y > lr.1) then
          .ok (intersection.y, lr.2)
        else if ¬ h_i.boundingLine.isVertical ∧ (h_i.normal.y < 0 ↔ intersection.x < lr.1) then
          .ok (intersection.x, lr.2)
        else .ok lr
      else
        if h_i.boundingLine.isVertical ∧ (h_i.normal.x < 0 ↔ intersection.y < lr.2) then
          .ok (lr.1, intersection.y)
        else if ¬ h_i.boundingLine.isVertical ∧ (h_i.normal.y < 0 ↔ intersection.x > lr.2) then
          .ok (lr.1, intersection.x)
        else .ok lr

/-- Lines 210-274: the loop over the half-planes before `h_i`. -/
def ORCA.tightenAll (h_i : HalfPlane) : List HalfPlane → ℝ × ℝ → Except Err (ℝ × ℝ)
  | [], lr => .ok lr
  | h :: hs, lr =>
    match ORCA.tighten h_i h lr with
    | .error e => .error e
    | .ok lr1 => ORCA.tightenAll h_i hs lr1

/-- Lines 280-301: the test that reports the interval between `left` and `right` empty. -/
def ORCA.intervalEmpty (h_i : HalfPlane) (left right : ℝ) : Prop :=
  (((h_i.boundingLine.isVertical ∧ h_i.normal.x > 0) ∨
      (¬ h_i.boundingLine.isVertical ∧ h_i.normal.y < 0)) ∧ left < right) ∨
  (((h_i.boundingLine.isVertical ∧ h_i.normal.x < 0) ∨
      (¬ h_i.boundingLine.isVertical ∧ h_i.normal.y > 0)) ∧ left > right)

/-- Lines 305-333: the projection of `vMax` onto the bounding line of `h_i`, or the point at
`left` or at `right`.  As in the source, all four tests read `projection.x()`. -/
def ORCA.clampProjection (h_i : HalfPlane) (vMax : Vector) (left right : ℝ) :
    Except Err Point :=
  let projection := (Point.ofVector vMax).projectionOnto h_i.boundingLine
  if h_i.boundingLine.isVertical ∧ (h_i.normal.x < 0 ↔ projection.x < left) then
    h_i.boundingLine.getPointAtY left
  else if h_i.boundingLine.isVertical ∧ (h_i.normal.x < 0 ↔ projection.x > right) then
    h_i.boundingLine.getPointAtY right
  else if ¬ h_i.boundingLine.isVertical ∧ (h_i.normal.y < 0 ↔ projection.x > left) then
    h_i.boundingLine.getPointAtX left
  else if ¬ h_i.boundingLine.isVertical ∧ (h_i.normal.y < 0 ↔ projection.x < right) then
    h_i.boundingLine.getPointAtX right
  else .ok projection

/-- Lines 155-162: the tangent point, and the traversal of `H` that checks it. -/
def ORCA.tangentCase (H : List HalfPlane) (h_i : HalfPlane) : Except Err Point :=
  let a : ℝ := h_i.boundingLine.slope.toReal ^ 2 + 1
  let b : ℝ := 2 * h_i.boundingLine.slope.toReal * h_i.boundingLine.yIntercept
  match (if h_i.boundingLine.isVertical then h_i.boundingLine.getPointAtY 0
      else h_i.boundingLine.getPointAtX (-b / (2 * a))) with
  | .error e => .error e
  | .ok solution =>
    if ∀ h ∈ H, h.contains solution then .ok solution
    else .error .LinearProgramInfeasible

/-- Lines 95-338: the body of the loop over the half-planes of `H`, for the half-plane `h_i`
that comes after the half-planes `prev`. -/
def ORCA.processHalfPlane (H prev : List HalfPlane) (h_i : HalfPlane) (vMax : Vector)
    (MAX_SPEED : ℝ) (solution : Point) : Except Err Flow :=
  if h_i.contains solution then .ok (.next solution)
  else
    let discriminant := ORCA.discriminant h_i MAX_SPEED
    if discriminant < 0 then
      if h_i.normal.dot (h_i.normalPosition.from Point.origin) < 0 then .ok (.next solution)
      else .error .LinearProgramInfeasible
    else if discriminant = 0 then
      if h_i.normal.dot (h_i.normalPosition.from Point.origin) < 0 then .ok (.next solution)
      else
        match ORCA.tangentCase H h_i with
        | .error e => .error e
        | .ok s => .ok (.stop s)
    else
      match ORCA.tightenAll h_i prev (ORCA.circleBounds h_i MAX_SPEED) with
      | .error e => .error e
      | .ok lr =>
        if ORCA.intervalEmpty h_i lr.1 lr.2 then .error .LinearProgramInfeasible
        else
          match ORCA.clampProjection h_i vMax lr.1 lr.2 with
          | .error e => .error e
          | .ok s => .ok (.next s)

/-- Lines 90-340: the loop over the half-planes of `H`; `prev` are the half-planes already
visited, `rest` those still to come. -/
def ORCA.loop (H : List HalfPlane) (vMax : Vector) (MAX_SPEED : ℝ) :
    List HalfPlane → List HalfPlane → Point → Except Err Point
  | _, [], solution => .ok solution
  | prev, h_i :: rest, solution =>
    match ORCA.processHalfPlane H prev h_i vMax MAX_SPEED solution with
    | .error e => .error e
    | .ok (.stop s) => .ok s
    | .ok (.next s) => ORCA.loop H vMax MAX_SPEED (prev ++ [h_i]) rest s

/-- `ORCA::solveLinearProgram` once `H` is in the order the shuffle left it in. -/
def ORCA.solveShuffled (H : List HalfPlane) (V_PREF : Vector) (MAX_SPEED : ℝ) :
    Except Err Point :=
  ORCA.loop H V_PREF MAX_SPEED [] H (Point.ofVector V_PREF)

/-- `ORCA::solveLinearProgram`.  `shuffle` stands for `std::random_shuffle`: the statements
about the solver assume no more of it than that it permutes its argument. -/
def ORCA.solveLinearProgram (shuffle : List HalfPlane → List HalfPlane) (H : List HalfPlane)
    (V_PREF : Vector) (MAX_SPEED : ℝ) : Except Err Point :=
  ORCA.solveShuffled (shuffle H) V_PREF MAX_SPEED

/-- What `std::random_shuffle` guarantees: the result is a rearrangement of the argument. -/
def IsShuffle (shuffle : List HalfPlane → List HalfPlane) : Prop :=
  ∀ H, (shuffle H).Perm H

/-! ## orca/agent.h, orca/agent.cpp -/

/-- An agent (`class Agent`). -/
structure Agent where
  id : ℤ
  position : Point
  destination : Point
  velocity : Vector
  prefVelocity : Vector
  radius : ℝ
  maxSpeed : ℝ

/-- `Agent::Agent(POSITION, RADIUS, MAX_SPEED)`: an agent that has already arrived; `id` is
the value the static counter `Agent::id_counter` has at the call. -/
def Agent.newAt (id : ℤ) (POSITION : Point) (RADIUS MAX_SPEED : ℝ) : Agent :=
  { id := id
    position := POSITION
    destination := POSITION
    velocity := ⟨0, 0⟩
    prefVelocity := ⟨0, 0⟩
    radius := RADIUS
    maxSpeed := MAX_SPEED }

/-- `Agent::Agent(POSITION, DESTINATION, RADIUS, MAX_SPEED)`; `id` is the value the static
counter `Agent::id_counter` has at the call. -/
def Agent.new (id : ℤ) (POSITION DESTINATION : Point) (RADIUS MAX_SPEED : ℝ) : Agent :=
  { id := id
    position := POSITION
    destination := DESTINATION
    velocity := ⟨0, 0⟩
    prefVelocity := (DESTINATION.from POSITION).limitNorm MAX_SPEED
    radius := RADIUS
    maxSpeed := MAX_SPEED }

/-- `Agent::arrived`. -/
def Agent.arrived (A : Agent) (ARRIVAL_THRESHOLD : ℝ) : Prop :=
  (A.destination.from A.position).norm ≤ ARRIVAL_THRESHOLD

/-- `Agent::move`: `position_ += velocity_ * DELTA_T`, then the preferred velocity is
recomputed. -/
def Agent.move (A : Agent) (DELTA_T : ℝ) : Agent :=
  let position := A.position.add (Point.ofVector (A.velocity.smul DELTA_T))
  { A with
    position := position
    prefVelocity := (A.destination.from position).limitNorm A.maxSpeed }

/-- `Agent::updateVelocity`. -/
def Agent.updateVelocity (A : Agent) (V : Vector) : Agent :=
  { A with velocity := V.limitNormTo A.prefVelocity }

/-- `Agent::orca_A_B`: the half-plane `ORCA_A|B^TAU`. -/
def Agent.orca_A_B (A B : Agent) (TAU : ℝ) : Except Err HalfPlane :=
  let vDiff_A_B := A.velocity.sub B.velocity
  let voMainCircleCenter : Point := B.position.sub A.position
  let voTruncationCircleCenter : Point := voMainCircleCenter.sdiv TAU
  let voMainCircleRadius := A.radius + B.radius
  let axis := Vector.ofPoint voMainCircleCenter
  let voHalfAperture := Real.arcsin (voMainCircleRadius / (Vector.ofPoint voMainCircleCenter).norm)
  let leftProjection := vDiff_A_B.projectionOnto (axis.rotated voHalfAperture)
  let rightProjection := vDiff_A_B.projectionOnto (axis.rotated (-voHalfAperture))
  let closest : Except Err Point :=
    if vDiff_A_B.dot axis > 0 then
      let projection :=
        if leftProjection.dot axis ≤ 0 then rightProjection
        else if rightProjection.dot axis ≤ 0 then leftProjection
        else if leftProjection.norm > rightProjection.norm then leftProjection
        else rightProjection
      match (Line.perpendicular (Line.ofPoint (Point.ofVector projection))
          (Point.ofVector vDiff_A_B)).intersect (Line.ofPoint voMainCircleCenter) with
      | .error e => .error e
      | .ok projectionCircleCenter =>
        if (Vector.ofPoint projectionCircleCenter).norm >
            (Vector.ofPoint voTruncationCircleCenter).norm then
          .ok projectionCircleCenter
        else .ok voTruncationCircleCenter
    else .ok voTruncationCircleCenter
  match closest with
  | .error e => .error e
  | .ok closestCircleCenter =>
    let closestCircleRadius :=
      voMainCircleRadius * (Vector.ofPoint closestCircleCenter).norm / axis.norm
    let centerToV := vDiff_A_B.sub (Vector.ofPoint closestCircleCenter)
    let centerToBorder :=
      if centerToV.norm = 0 then rightProjection.sub vDiff_A_B
      else centerToV.normalize closestCircleRadius
    let u := centerToBorder.sub centerToV
    .ok (HalfPlane.new (Point.ofVector (A.velocity.add (u.sdiv 2))) centerToBorder)

/-- `Agent::orca_A`: the half-planes of `A` against the other agents within reach, in the
order of `agents`. -/
def Agent.orca_A (A : Agent) : List Agent → ℝ → Except Err (List HalfPlane)
  | [], _ => .ok []
  | agent :: agents, TAU =>
    if A.id ≠ agent.id ∧ (A.position.from agent.position).norm ≤ 2 * A.maxSpeed then
      match A.orca_A_B agent TAU with
      | .error e => .error e
      | .ok h =>
        match A.orca_A agents TAU with
        | .error e => .error e
        | .ok hs => .ok (h :: hs)
    else A.orca_A agents TAU

/-! ## orca/orca.h, orca/orca.cpp: the engine -/

/-- The static attributes of `class ORCA`. -/
structure ORCA where
  agents : List Agent
  tau : ℝ
  deltaT : ℝ
  arrivalThreshold : ℝ

/-- `ORCA::initialize`. -/
def ORCA.initialize (AGENTS : List Agent) (TAU DELTA_T ARRIVAL_THRESHOLD : ℝ) : ORCA :=
  ⟨AGENTS, TAU, DELTA_T, ARRIVAL_THRESHOLD⟩

/-- `Agent::solveLinearProgram`. -/
def Agent.solveLinearProgram (A : Agent) (shuffle : List HalfPlane → List HalfPlane)
    (halfPlanes : List HalfPlane) : Except Err Point :=
  ORCA.solveLinearProgram shuffle halfPlanes A.prefVelocity A.maxSpeed

/-- The first loop of `ORCA::iteration`: the new velocities of the agents `todo`, computed
against the registered agents `agents`. -/
def ORCA.newVelocities (shuffle : List HalfPlane → List HalfPlane) (agents : List Agent)
    (TAU : ℝ) : List Agent → Except Err (List Vector)
  | [] => .ok []
  | agent :: todo =>
    match agent.orca_A agents TAU with
    | .error e => .error e
    | .ok halfPlanes =>
      match agent.solveLinearProgram shuffle halfPlanes with
      | .error e => .error e
      | .ok v =>
        match ORCA.newVelocities shuffle agents TAU todo with
        | .error e => .error e
        | .ok vs => .ok (Vector.ofPoint v :: vs)

/-- `ORCA::iteration`: all new velocities are computed first, then all are committed. -/
def ORCA.iteration (shuffle : List HalfPlane → List HalfPlane) (S : ORCA) : Except Err ORCA :=
  match ORCA.newVelocities shuffle S.agents S.tau S.agents with
  | .error e => .error e
  | .ok newVelocities =>
    .ok { S with agents := List.zipWith Agent.updateVelocity S.agents newVelocities }

/-- `ORCA::moveAgents`. -/
def ORCA.moveAgents (S : ORCA) (DELTA_T : ℝ) : ORCA :=
  { S with agents := S.agents.map (fun agent => agent.move DELTA_T) }

/-- The loop of `ORCA::converged`: `false` at the first agent that has not arrived, `true`
once all agents are through. -/
def ORCA.convergedLoop (ARRIVAL_THRESHOLD : ℝ) : List Agent → Bool
  | [] => true
  | agent :: agents =>
    if ¬ agent.arrived ARRIVAL_THRESHOLD then false
    else ORCA.convergedLoop ARRIVAL_THRESHOLD agents

/-- `ORCA::converged`. -/
def ORCA.converged (S : ORCA) : Bool :=
  ORCA.convergedLoop S.arrivalThreshold S.agents

/-- One round of `Demo::loop`: `ORCA::iteration()`, then `ORCA::moveAgents(ORCA::deltaT())`. -/
def ORCA.round (shuffle : List HalfPlane → List HalfPlane) (S : ORCA) : Except Err ORCA :=
  match ORCA.iteration shuffle S with
  | .error e => .error e
  | .ok S1 => .ok (S1.moveAgents S1.deltaT)

/-- The state after `n` rounds. -/
def ORCA.rounds (shuffle : List HalfPlane → List HalfPlane) : ℕ → ORCA → Except Err ORCA
  | 0, S => .ok S
  | n + 1, S =>
    match ORCA.rounds shuffle n S with
    | .error e => .error e
    | .ok S1 => ORCA.round shuffle S1

/-! ## Notions the statements use -/

/-- Spec-side reading of "the point `Q` lies on the line `L`": `Q.x = xIntercept` for a vertical
line, `Q.y = slope * Q.x + yIntercept` otherwise. -/
def Line.passesThrough (L : Line) (Q : Point) : Prop :=
  if L.isVertical then Q.x = L.xIntercept else Q.y = L.slope.toReal * Q.x + L.yIntercept


/-- Scenario 1 of the spec: `A = Agent((10, 0) → (-10, 0), radius 1, maxSpeed 1)` and
`B = Agent((-10, 0) → (10, 0), radius 1, maxSpeed 1)`, `tau = 2`, `deltaT = 0.1`, arrival
threshold `0.5`. -/
def scenario1 : ORCA :=
  ORCA.initialize [Agent.new 0 ⟨10, 0⟩ ⟨-10, 0⟩ 1 1, Agent.new 1 ⟨-10, 0⟩ ⟨10, 0⟩ 1 1]
    2 (1 / 10) (1 / 2)

/-- The states scenario 1 runs through: `A` at `(x, 0)` and `B` at `(-x, 0)`, with velocities
`vA` and `vB`, each still more than its maximum speed away from its destination. -/
def scenario1State (x : ℝ) (vA vB : Vector) : ORCA :=
  ⟨[⟨0, ⟨x, 0⟩, ⟨-10, 0⟩, vA, ⟨-1, 0⟩, 1, 1⟩, ⟨1, ⟨-x, 0⟩, ⟨10, 0⟩, vB, ⟨1, 0⟩, 1, 1⟩],
    2, 1 / 10, 1 / 2⟩


/-- The representation invariant of `Line` as the spec states it: the slope is never `-∞`; a
vertical line has `yIntercept = 0`, a horizontal line has `xIntercept = 0`, every other line
has `xIntercept = -yIntercept / slope`. -/
def Line.Invariant (L : Line) : Prop :=
  L.slope ≠ ⊥ ∧ (L.isVertical → L.yIntercept = 0) ∧ (L.isHorizontal → L.xIntercept = 0) ∧
    (¬ L.isVertical → ¬ L.isHorizontal → L.xIntercept = -L.yIntercept / L.slope.toReal)

/-- The agents a program can hold: built by one of the two constructors, then changed by
`move` and `updateVelocity` only. -/
inductive Agent.Reachable : Agent → Prop where
  | newAt (id : ℤ) (POSITION : Point) (RADIUS MAX_SPEED : ℝ) :
    Agent.Reachable (Agent.newAt id POSITION RADIUS MAX_SPEED)
  | new (id : ℤ) (POSITION DESTINATION : Point) (RADIUS MAX_SPEED : ℝ) :
    Agent.Reachable (Agent.new id POSITION DESTINATION RADIUS MAX_SPEED)
  | move (A : Agent) (DELTA_T : ℝ) : Agent.Reachable A → Agent.Reachable (A.move DELTA_T)
  | updateVelocity (A : Agent) (V : Vector) :
    Agent.Reachable A → Agent.Reachable (A.updateVelocity V)

/-- The results of a sequence of calls, in order; the first exception ends the sequence. -/
def collectResults : List (Except Err HalfPlane) → Except Err (List HalfPlane)
  | [] => .ok []
  | r :: rs =>
    match r with
    | .error e => .error e
    | .ok h =>
      match collectResults rs with
      | .error e => .error e
      | .ok hs => .ok (h :: hs)

/-- What the spec says `orca_A` is: the pair half-planes `A.orca_A_B(B, TAU)` of those `B`
among `agents` that are another agent than `A` and have `|p_A - p_B| ≤ 2 * maxSpeed_A`, in the
order of `agents`. -/
def Agent.orca_A_spec (A : Agent) (agents : List Agent) (TAU : ℝ) :
    Except Err (List HalfPlane) :=
  collectResults ((agents.filter (fun B => decide (A.id ≠ B.id ∧
    (A.position.from B.position).norm ≤ 2 * A.maxSpeed))).map (fun B => A.orca_A_B B TAU))

/-! ## geom/line.cpp, geom/line.h, geom/halfPlane.h: membership and equality -/

/-- `Line::contains`: `P.y() == slope_ * P.x() + yIntercept_`.  With an infinite slope the
product `slope_ * P.x()` is NaN for `P.x() = 0`, and NaN compares unequal to every double;
in all other cases the right-hand side is computed in the extended reals. -/
def Line.contains (L : Line) (P : Point) : Prop :=
  if (L.slope = ⊤ ∨ L.slope = ⊥) ∧ P.x = 0 then False
  else (P.y : EReal) = L.slope * (P.x : EReal) + (L.yIntercept : EReal)

/-- `Line::operator==`: `(slope_ == THAT.slope()) && (((slope_ == DOUBLE_INFINITY) &&
(xIntercept_ == THAT.xIntercept())) || (yIntercept_ == THAT.yIntercept()))`. -/
def Line.operatorEq (L THAT : Line) : Prop :=
  L.slope = THAT.slope ∧
    ((L.slope = ⊤ ∧ L.xIntercept = THAT.xIntercept) ∨ L.yIntercept = THAT.yIntercept)

/-- `HalfPlane::operator==`: `boundingLine_ == THAT.boundingLine()`. -/
def HalfPlane.operatorEq (h THAT : HalfPlane) : Prop :=
  h.boundingLine.operatorEq THAT.boundingLine

/-! ## orca/orca.cpp: `ORCA::iteration` as a statement on the engine state -/

/-- The first loop of `ORCA::iteration` (lines 354-362) run on the engine state `S`: `todo`
are the agents still to visit, `newVelocities` the local vector filled so far.  The result
is what the loop leaves behind: the exception or the filled vector, and the engine state at
that moment. -/
def ORCA.computeLoop (shuffle : List HalfPlane → List HalfPlane) :
    List Agent → List Vector → ORCA → Except Err (List Vector) × ORCA
  | [], newVelocities, S => (.ok newVelocities, S)
  | agent :: todo, newVelocities, S =>
    match agent.orca_A S.agents S.tau with
    | .error e => (.error e, S)
    | .ok halfPlanes =>
      match agent.solveLinearProgram shuffle halfPlanes with
      | .error e => (.error e, S)
      | .ok v => ORCA.computeLoop shuffle todo (newVelocities ++ [Vector.ofPoint v]) S

/-- The second loop of `ORCA::iteration` (lines 364-373): `visited` are the agents already
updated, `todo` those still to visit together with the rest of `newVelocities`; no statement
of this loop throws. -/
def ORCA.updateLoop : List Agent → List Agent → List Vector → ORCA → ORCA
  | visited, agent :: todo, newVelocity :: rest, S =>
    ORCA.updateLoop (visited ++ [agent.updateVelocity newVelocity]) todo rest
      { S with agents := visited ++ agent.updateVelocity newVelocity :: todo }
  | _, _, _, S => S

/-- `ORCA::iteration` as a statement: whether it threw, and the engine state it leaves. -/
def ORCA.iterationRun (shuffle : List HalfPlane → List HalfPlane) (S : ORCA) :
    Except Err Unit × ORCA :=
  match ORCA.computeLoop shuffle S.agents [] S with
  | (.error e, S1) => (.error e, S1)
  | (.ok newVelocities, S1) => (.ok (), ORCA.updateLoop [] S1.agents newVelocities S1)

/-! ## geom/vector.h, orca/agent.cpp: what the statement on reciprocity uses -/

/-- `Vector::operator-(void)`: the opposite vector. -/
def Vector.neg (V : Vector) : Vector := ⟨-V.x, -V.y⟩

/-- Lines 191-206 of `Agent::orca_A_B` on their own: the point `*closestCircleCenter`, from
`vDiff_A_B`, `voMainCircleCenter`, the two projections and `TAU`. -/
def Agent.closestCircleCenter (vDiff_A_B : Vector) (voMainCircleCenter : Point)
    (leftProjection rightProjection : Vector) (TAU : ℝ) : Except Err Point :=
  let voTruncationCircleCenter : Point := voMainCircleCenter.sdiv TAU
  let axis := Vector.ofPoint voMainCircleCenter
  if vDiff_A_B.dot axis > 0 then
    let projection :=
      if leftProjection.dot axis ≤ 0 then rightProjection
      else if rightProjection.dot axis ≤ 0 then leftProjection
      else if leftProjection.norm > rightProjection.norm then leftProjection
      else rightProjection
    match (Line.perpendicular (Line.ofPoint (Point.ofVector projection))
        (Point.ofVector vDiff_A_B)).intersect (Line.ofPoint voMainCircleCenter) with
    | .error e => .error e
    | .ok projectionCircleCenter =>
      if (Vector.ofPoint projectionCircleCenter).norm >
          (Vector.ofPoint voTruncationCircleCenter).norm then
        .ok projectionCircleCenter
      else .ok voTruncationCircleCenter
  else .ok voTruncationCircleCenter

/-! # Statements and proofs -/

/-!
The proofs rewrite with the defining equations of the functions of the embedding.  These
equations are stated once, in `geometry_unfold`, `norm_unfold` and `solver_unfold`, and hold by
definition.  The auxiliary facts the statements rest on are proved together, in `geometry_facts`,
`norm_facts` and `solver_facts`: each is a conjunction of groups of facts, a fact is referred to
by its position (`.1`, `.2.1`, ...), and the comment in front of a fact and of its proof gives
it a name.  The statements of the spec follow, each with its claim number.
-/

/-- The defining equations of the functions on points, vectors, lines and half-planes that involve
no square root, in the form the rewriting steps below use. -/
theorem geometry_unfold :
    ((∀ (X : ℝ), sign X = (if X > 0 then 1 else if X < 0 then -1 else 0 : ℤ)) ∧
      (∀ (P : Point), Vector.ofPoint P = (⟨P.x, P.y⟩ : Vector)) ∧
      (∀ (V : Vector), Point.ofVector V = (⟨V.x, V.y⟩ : Point)) ∧
      (Point.origin = (⟨0, 0⟩ : Point)) ∧
      (∀ (P Q : Point), Point.add P Q = (⟨P.x + Q.x, P.y + Q.y⟩ : Point)) ∧
      (∀ (P Q : Point), Point.sub P Q = (⟨P.x - Q.x, P.y - Q.y⟩ : Point)) ∧
      (∀ (P : Point) (D : ℝ), Point.sdiv P D = (⟨P.x / D, P.y / D⟩ : Point)) ∧
      (∀ (P THAT : Point), Point.from P THAT = (Vector.ofPoint (P.sub THAT) : Vector))) ∧
    ((∀ (V W : Vector), Vector.add V W = (⟨V.x + W.x, V.y + W.y⟩ : Vector)) ∧
      (∀ (V W : Vector), Vector.sub V W = (⟨V.x - W.x, V.y - W.y⟩ : Vector)) ∧
      (∀ (V W : Vector), Vector.dot V W = (V.x * W.x + V.y * W.y : ℝ)) ∧
      (∀ (V : Vector) (D : ℝ), Vector.smul V D = (⟨V.x * D, V.y * D⟩ : Vector)) ∧
      (∀ (V : Vector) (D : ℝ), Vector.sdiv V D = (⟨V.x / D, V.y / D⟩ : Vector)) ∧
      (∀ (L : Line), Line.isVertical L = (L.slope = ⊤ : Prop)) ∧
      (∀ (L : Line), Line.isHorizontal L = (L.slope = 0 : Prop)) ∧
      (∀ (L THAT : Line), Line.parallel L THAT = (L.slope = THAT.slope : Prop))) ∧
    ((∀ (SLOPE : EReal) (INTERCEPT : ℝ),
        Line.ofSlopeIntercept SLOPE INTERCEPT =
          (let slope : EReal := if SLOPE = ⊥ then ⊤ else SLOPE
           if slope = ⊤ then ⟨slope, 0, INTERCEPT⟩
           else ⟨slope, INTERCEPT, if slope = 0 then 0 else -INTERCEPT / SLOPE.toReal⟩ : Line)) ∧
      (∀ (P1 P2 : Point),
        Line.ofPoints P1 P2 =
          (if P1.x = P2.x ∧ P1.y ≠ P2.y then ⟨⊤, 0, P1.x⟩
           else
             let slope : ℝ := if P1.x = P2.x ∧ P1.y = P2.y then 0 else (P2.y - P1.y) / (P2.x - P1.x)
             let yIntercept : ℝ := P1.y - P1.x * slope
             ⟨(slope : EReal), yIntercept, if slope = 0 then 0 else -yIntercept / slope⟩
            : Line)) ∧
      (∀ (P : Point), Line.ofPoint P = (Line.ofPoints Point.origin P : Line)) ∧
      (∀ (THAT : Line) (P : Point),
        Line.perpendicular THAT P =
          (if THAT.isHorizontal then ⟨⊤, 0, P.x⟩
           else
             let slope : ℝ := -1 / THAT.slope.toReal
             let yIntercept : ℝ := P.y - P.x * slope
             ⟨(slope : EReal), yIntercept, if slope = 0 then 0 else -yIntercept / slope⟩
            : Line)) ∧
      (∀ (L : Line) (X : ℝ),
        Line.getPointAtX L X =
          (if L.isVertical then .error .LineVertical
           else .ok ⟨X, L.slope.toReal * X + L.yIntercept⟩ : Except Err Point)) ∧
      (∀ (L : Line) (Y : ℝ),
        Line.getPointAtY L Y =
          (if L.isHorizontal then .error .LineHorizontal
           else .ok ⟨if L.isVertical then L.xIntercept else (Y - L.yIntercept) / L.slope.toReal, Y⟩
            : Except Err Point)) ∧
      (∀ (L THAT : Line),
        Line.intersect L THAT =
          (if L.parallel THAT then .error .LinesParallel
           else if L.isVertical then THAT.getPointAtX L.xIntercept
           else if THAT.isVertical then L.getPointAtX THAT.xIntercept
           else L.getPointAtX ((THAT.yIntercept - L.yIntercept) / (L.slope.toReal -
               THAT.slope.toReal))
            : Except Err Point)) ∧
      (∀ (P : Point) (L : Line),
        Point.projectionOnto P L =
          (if L.isVertical then ⟨L.xIntercept, P.y⟩
           else
             let denom := L.slope.toReal ^ 2 + 1
             ⟨(P.x + L.slope.toReal * (P.y - L.yIntercept)) / denom,
               (L.slope.toReal * (P.x + L.slope.toReal * P.y) + L.yIntercept) / denom⟩
            : Point))) ∧
    ((∀ (h : HalfPlane) (P : Point),
        HalfPlane.contains h P = ((P.from h.normalPosition).dot h.normal ≥ 0 : Prop)) ∧
      (∀ (h_i : HalfPlane) (MAX_SPEED : ℝ),
        ORCA.discriminant h_i MAX_SPEED =
          (let a : ℝ := h_i.boundingLine.slope.toReal ^ 2 + 1
           if h_i.boundingLine.isVertical then
             ((sign (MAX_SPEED - |h_i.boundingLine.xIntercept|) : ℤ) : ℝ)
           else
             4 * (MAX_SPEED ^ 2 * a - h_i.boundingLine.yIntercept ^ 2) : ℝ)) ∧
      (∀ (h_i : HalfPlane) (left right : ℝ),
        ORCA.intervalEmpty h_i left right =
          ((((h_i.boundingLine.isVertical ∧ h_i.normal.x > 0) ∨
               (¬ h_i.boundingLine.isVertical ∧ h_i.normal.y < 0)) ∧ left < right) ∨
           (((h_i.boundingLine.isVertical ∧ h_i.normal.x < 0) ∨
               (¬ h_i.boundingLine.isVertical ∧ h_i.normal.y > 0)) ∧ left > right) : Prop)) ∧
      (∀ (h_i : HalfPlane) (vMax : Vector) (left right : ℝ),
        ORCA.clampProjection h_i vMax left right =
          (let projection := (Point.ofVector vMax).projectionOnto h_i.boundingLine
           if h_i.boundingLine.isVertical ∧ (h_i.normal.x < 0 ↔ projection.x < left) then
             h_i.boundingLine.getPointAtY left
           else if h_i.boundingLine.isVertical ∧ (h_i.normal.x < 0 ↔ projection.x > right) then
             h_i.boundingLine.getPointAtY right
           else if ¬ h_i.boundingLine.isVertical ∧ (h_i.normal.y < 0 ↔ projection.x > left) then
             h_i.boundingLine.getPointAtX left
           else if ¬ h_i.boundingLine.isVertical ∧ (h_i.normal.y < 0 ↔ projection.x < right) then
             h_i.boundingLine.getPointAtX right
           else .ok projection : Except Err Point)) ∧
      (∀ (H : List HalfPlane) (h_i : HalfPlane),
        ORCA.tangentCase H h_i =
          (let a : ℝ := h_i.boundingLine.slope.toReal ^ 2 + 1
           let b : ℝ := 2 * h_i.boundingLine.slope.toReal * h_i.boundingLine.yIntercept
           match (if h_i.boundingLine.isVertical then h_i.boundingLine.getPointAtY 0
               else h_i.boundingLine.getPointAtX (-b / (2 * a))) with
           | .error e => .error e
           | .ok solution =>
             if ∀ h ∈ H, h.contains solution then .ok solution
             else .error .LinearProgramInfeasible : Except Err Point)) ∧
      (∀ (id : ℤ) (POSITION : Point) (RADIUS MAX_SPEED : ℝ),
        Agent.newAt id POSITION RADIUS MAX_SPEED =
          ({ id := id
             position := POSITION
             destination := POSITION
             velocity := ⟨0, 0⟩
             prefVelocity := ⟨0, 0⟩
             radius := RADIUS
             maxSpeed := MAX_SPEED } : Agent)) ∧
      (∀ (L : Line) (Q : Point),
        Line.passesThrough L Q =
          (if L.isVertical then Q.x = L.xIntercept else Q.y = L.slope.toReal * Q.x + L.yIntercept
            : Prop)) ∧
      (∀ (x : ℝ) (vA vB : Vector),
        scenario1State x vA vB =
          (⟨[⟨0, ⟨x, 0⟩, ⟨-10, 0⟩, vA, ⟨-1, 0⟩, 1, 1⟩, ⟨1, ⟨-x, 0⟩, ⟨10, 0⟩, vB, ⟨1, 0⟩, 1, 1⟩],
             2, 1 / 10, 1 / 2⟩ : ORCA))) ∧
    ((collectResults [] = .ok []) ∧
      (∀ (r : Except Err HalfPlane) (rs : List (Except Err HalfPlane)),
        collectResults (r :: rs) =
          (match r with
          | .error e => .error e
          | .ok h =>
            match collectResults rs with
            | .error e => .error e
            | .ok hs => .ok (h :: hs))) ∧
      (∀ (V : Vector), Vector.neg V = (⟨-V.x, -V.y⟩ : Vector))) := by
  refine ⟨⟨?_, ?_, ?_, ?_, ?_, ?_, ?_, ?_⟩,
    ⟨?_, ?_, ?_, ?_, ?_, ?_, ?_, ?_⟩,
    ⟨?_, ?_, ?_, ?_, ?_, ?_, ?_, ?_⟩,
    ⟨?_, ?_, ?_, ?_, ?_, ?_, ?_, ?_⟩,
    ⟨?_, ?_, ?_⟩⟩
  all_goals intros; rfl

/-- The defining equations of the functions that involve the norm of a vector. -/
theorem norm_unfold :
    ((∀ (NORMAL_POSITION : Point) (NORMAL : Vector),
        HalfPlane.new NORMAL_POSITION NORMAL =
          (let normal : Vector := if NORMAL.norm = 0 then ⟨0, 1⟩ else NORMAL
           if normal.y = 0 then
             ⟨NORMAL_POSITION, normal, Line.ofSlopeIntercept ⊤ NORMAL_POSITION.x⟩
           else
             let slope : ℝ := -normal.x / normal.y
             let intercept : ℝ := NORMAL_POSITION.y - NORMAL_POSITION.x * slope
             ⟨NORMAL_POSITION, normal, Line.ofSlopeIntercept (slope : EReal) intercept⟩
            : HalfPlane)) ∧
      (∀ (h_i : HalfPlane) (MAX_SPEED : ℝ),
        ORCA.circleBounds h_i MAX_SPEED =
          (let a : ℝ := h_i.boundingLine.slope.toReal ^ 2 + 1
           let b : ℝ := 2 * h_i.boundingLine.slope.toReal * h_i.boundingLine.yIntercept
           let discriminant := ORCA.discriminant h_i MAX_SPEED
           let lr : ℝ × ℝ :=
             if h_i.boundingLine.isVertical then
               let left := Real.sqrt (MAX_SPEED ^ 2 - h_i.boundingLine.xIntercept ^ 2)
               (left, -left)
             else
               ((-b - Real.sqrt discriminant) / (2 * a), (-b + Real.sqrt discriminant) / (2 * a))
           if (h_i.boundingLine.isVertical ∧ h_i.normal.x < 0) ∨
               (¬ h_i.boundingLine.isVertical ∧ h_i.normal.y < 0) then
             (lr.2, lr.1)
           else lr : ℝ × ℝ)) ∧
      (∀ (A : Agent) (DELTA_T : ℝ),
        Agent.move A DELTA_T =
          (let position := A.position.add (Point.ofVector (A.velocity.smul DELTA_T))
           { A with
             position := position
             prefVelocity := (A.destination.from position).limitNorm A.maxSpeed } : Agent)) ∧
      (∀ (A : Agent) (V : Vector),
        Agent.updateVelocity A V =
          ({ A with velocity := V.limitNormTo A.prefVelocity } : Agent)) ∧
      (∀ (S : ORCA) (DELTA_T : ℝ),
        ORCA.moveAgents S DELTA_T =
          ({ S with agents := S.agents.map (fun agent => agent.move DELTA_T) } : ORCA)) ∧
      (∀ (ARRIVAL_THRESHOLD : ℝ), ORCA.convergedLoop ARRIVAL_THRESHOLD [] = true) ∧
      (∀ (ARRIVAL_THRESHOLD : ℝ) (agent : Agent) (agents : List Agent),
        ORCA.convergedLoop ARRIVAL_THRESHOLD (agent :: agents) =
          (if ¬ agent.arrived ARRIVAL_THRESHOLD then false
          else ORCA.convergedLoop ARRIVAL_THRESHOLD agents)) ∧
      (∀ (visited : List Agent) (agent : Agent) (todo : List Agent) (newVelocity : Vector)
          (rest : List Vector) (S : ORCA),
        ORCA.updateLoop visited (agent :: todo) (newVelocity :: rest) S =
          ORCA.updateLoop (visited ++ [agent.updateVelocity newVelocity]) todo rest
            { S with agents := visited ++ agent.updateVelocity newVelocity :: todo })) ∧
    ((∀ (visited : List Agent) (newVelocities : List Vector) (S : ORCA),
        ORCA.updateLoop visited [] newVelocities S = S) ∧
      (∀ (visited : List Agent) (agent : Agent) (todo : List Agent) (S : ORCA),
        ORCA.updateLoop visited (agent :: todo) [] S = S)) := by
  refine ⟨⟨?_, ?_, ?_, ?_, ?_, ?_, ?_, ?_⟩,
    ⟨?_, ?_⟩⟩
  · intros; rfl
  · intros; rfl
  · intros; rfl
  · intros; rfl
  · intros; rfl
  · intros; rfl
  · intros; rfl
  · intros; rfl
  · intro visited newVelocities S; cases newVelocities <;> rfl
  · intros; rfl

/-- The defining equations of the solver, of `orca_A` and of the engine; the functions defined by
recursion on a list come with one equation for each shape of the list. -/
theorem solver_unfold :
    ((∀ (h_i h : HalfPlane) (lr : ℝ × ℝ),
        ORCA.tighten h_i h lr =
          (if h_i.boundingLine.parallel h.boundingLine then
             if h_i.normal.dot h.normal > 0 ∨ h_i.contains h.normalPosition then .ok lr
             else .error .LinearProgramInfeasible
           else
             let angleDiff := trueMod (h_i.normal.angleFrom h.normal) (2 * Real.pi)
             match h_i.boundingLine.intersect h.boundingLine with
             | .error e => .error e
             | .ok intersection =>
               if angleDiff < Real.pi then
                 if h_i.boundingLine.isVertical ∧ (h_i.normal.x < 0 ↔ intersection.y > lr.1) then
                   .ok (intersection.y, lr.2)
                 else if ¬ h_i.boundingLine.isVertical ∧ (h_i.normal.y < 0 ↔ intersection.x < lr.1) then
                   .ok (intersection.x, lr.2)
                 else .ok lr
               else
                 if h_i.boundingLine.isVertical ∧ (h_i.normal.x < 0 ↔ intersection.y < lr.2) then
                   .ok (lr.1, intersection.y)
                 else if ¬ h_i.boundingLine.isVertical ∧ (h_i.normal.y < 0 ↔ intersection.x > lr.2) then
                   .ok (lr.1, intersection.x)
                 else .ok lr : Except Err (ℝ × ℝ))) ∧
      (∀ (h_i : HalfPlane) (lr : ℝ × ℝ), ORCA.tightenAll h_i [] lr = .ok lr) ∧
      (∀ (h_i h : HalfPlane) (hs : List HalfPlane) (lr : ℝ × ℝ),
        ORCA.tightenAll h_i (h :: hs) lr =
          (match ORCA.tighten h_i h lr with
          | .error e => .error e
          | .ok lr1 => ORCA.tightenAll h_i hs lr1)) ∧
      (∀ (H : List HalfPlane) (vMax : Vector) (MAX_SPEED : ℝ) (prev : List HalfPlane)
          (solution : Point), ORCA.loop H vMax MAX_SPEED prev [] solution = .ok solution) ∧
      (∀ (H : List HalfPlane) (vMax : Vector) (MAX_SPEED : ℝ) (prev : List HalfPlane)
          (h_i : HalfPlane) (rest : List HalfPlane) (solution : Point),
        ORCA.loop H vMax MAX_SPEED prev (h_i :: rest) solution =
          (match ORCA.processHalfPlane H prev h_i vMax MAX_SPEED solution with
          | .error e => .error e
          | .ok (.stop s) => .ok s
          | .ok (.next s) => ORCA.loop H vMax MAX_SPEED (prev ++ [h_i]) rest s)) ∧
      (∀ (H : List HalfPlane) (V_PREF : Vector) (MAX_SPEED : ℝ),
        ORCA.solveShuffled H V_PREF MAX_SPEED =
          (ORCA.loop H V_PREF MAX_SPEED [] H (Point.ofVector V_PREF) : Except Err Point)) ∧
      (∀ (shuffle : List HalfPlane → List HalfPlane) (H : List HalfPlane) (V_PREF : Vector)
          (MAX_SPEED : ℝ),
        ORCA.solveLinearProgram shuffle H V_PREF MAX_SPEED =
          (ORCA.solveShuffled (shuffle H) V_PREF MAX_SPEED : Except Err Point)) ∧
      (∀ (A : Agent) (TAU : ℝ), A.orca_A [] TAU = .ok [])) ∧
    ((∀ (A agent : Agent) (agents : List Agent) (TAU : ℝ),
        A.orca_A (agent :: agents) TAU =
          (if A.id ≠ agent.id ∧ (A.position.from agent.position).norm ≤ 2 * A.maxSpeed then
            match A.orca_A_B agent TAU with
            | .error e => .error e
            | .ok h =>
              match A.orca_A agents TAU with
              | .error e => .error e
              | .ok hs => .ok (h :: hs)
          else A.orca_A agents TAU)) ∧
      (∀ (shuffle : List HalfPlane → List HalfPlane) (agents : List Agent) (TAU : ℝ),
        ORCA.newVelocities shuffle agents TAU [] = .ok []) ∧
      (∀ (shuffle : List HalfPlane → List HalfPlane) (agents : List Agent) (TAU : ℝ)
          (agent : Agent) (todo : List Agent),
        ORCA.newVelocities shuffle agents TAU (agent :: todo) =
          (match agent.orca_A agents TAU with
          | .error e => .error e
          | .ok halfPlanes =>
            match agent.solveLinearProgram shuffle halfPlanes with
            | .error e => .error e
            | .ok v =>
              match ORCA.newVelocities shuffle agents TAU todo with
              | .error e => .error e
              | .ok vs => .ok (Vector.ofPoint v :: vs))) ∧
      (∀ (shuffle : List HalfPlane → List HalfPlane) (S : ORCA),
        ORCA.iteration shuffle S =
          (match ORCA.newVelocities shuffle S.agents S.tau S.agents with
           | .error e => .error e
           | .ok newVelocities =>
             .ok { S with agents := List.zipWith Agent.updateVelocity S.agents newVelocities }
            : Except Err ORCA)) ∧
      (∀ (shuffle : List HalfPlane → List HalfPlane) (S : ORCA),
        ORCA.round shuffle S =
          (match ORCA.iteration shuffle S with
           | .error e => .error e
           | .ok S1 => .ok (S1.moveAgents S1.deltaT) : Except Err ORCA)) ∧
      (∀ (shuffle : List HalfPlane → List HalfPlane) (S : ORCA), ORCA.rounds shuffle 0 S = .ok S) ∧
      (∀ (shuffle : List HalfPlane → List HalfPlane) (n : ℕ) (S : ORCA),
        ORCA.rounds shuffle (n + 1) S =
          (match ORCA.rounds shuffle n S with
          | .error e => .error e
          | .ok S1 => ORCA.round shuffle S1)) ∧
      (∀ (shuffle : List HalfPlane → List HalfPlane) (newVelocities : List Vector) (S : ORCA),
        ORCA.computeLoop shuffle [] newVelocities S = (.ok newVelocities, S))) ∧
    ((∀ (shuffle : List HalfPlane → List HalfPlane) (agent : Agent) (todo : List Agent)
          (newVelocities : List Vector) (S : ORCA),
        ORCA.computeLoop shuffle (agent :: todo) newVelocities S =
          (match agent.orca_A S.agents S.tau with
          | .error e => (.error e, S)
          | .ok halfPlanes =>
            match agent.solveLinearProgram shuffle halfPlanes with
            | .error e => (.error e, S)
            | .ok v => ORCA.computeLoop shuffle todo (newVelocities ++ [Vector.ofPoint v]) S))) := by
  refine ⟨⟨?_, ?_, ?_, ?_, ?_, ?_, ?_, ?_⟩,
    ⟨?_, ?_, ?_, ?_, ?_, ?_, ?_, ?_⟩,
    ?_⟩
  all_goals intros; rfl

-- Facts proved in a conjunction introduce all their variables, used in the proof or not.
set_option linter.unusedVariables false

set_option maxHeartbeats 40000000 in
/-- Auxiliary facts on points, vectors, lines and half-planes that involve no square root.  Each
conjunct is named in the comment that precedes its proof. -/
theorem geometry_facts :
    -- IsShuffle.nil
    ((∀ {shuffle : List HalfPlane → List HalfPlane} (hs : IsShuffle shuffle),
        shuffle [] = []) ∧
      -- IsShuffle.singleton
      (∀ {shuffle : List HalfPlane → List HalfPlane} (hs : IsShuffle shuffle) (h : HalfPlane),
        shuffle [h] = [h]) ∧
      -- isShuffle_id
      (IsShuffle id) ∧
      -- ORCA.discriminant_vertical
      (∀ (h_i : HalfPlane) (R : ℝ) (hv : h_i.boundingLine.slope = ⊤)
          (hc : |h_i.boundingLine.xIntercept| < R),
        ORCA.discriminant h_i R = 1) ∧
      -- ORCA.clampProjection_vertical
      (∀ (h_i : HalfPlane) (vMax : Vector) (left right : ℝ) (hv : h_i.boundingLine.slope = ⊤),
        ORCA.clampProjection h_i vMax left right =
          if (h_i.normal.x < 0 ↔ h_i.boundingLine.xIntercept < left) then
            .ok ⟨h_i.boundingLine.xIntercept, left⟩
          else if (h_i.normal.x < 0 ↔ h_i.boundingLine.xIntercept > right) then
            .ok ⟨h_i.boundingLine.xIntercept, right⟩
          else .ok ⟨h_i.boundingLine.xIntercept, vMax.y⟩) ∧
      -- ORCA.intervalEmpty_vertical
      (∀ (h_i : HalfPlane) (left right : ℝ) (hv : h_i.boundingLine.slope = ⊤),
        ORCA.intervalEmpty h_i left right ↔
          (h_i.normal.x > 0 ∧ left < right) ∨ (h_i.normal.x < 0 ∧ left > right)) ∧
      -- Line.perpendicular_x_axis
      (∀ (P : Point),
        Line.perpendicular ⟨((0 : ℝ) : EReal), 0, 0⟩ P = ⟨⊤, 0, P.x⟩) ∧
      -- collectResults_ok
      (∀ (rs : List (Except Err HalfPlane)),
        ∀ hs : List HalfPlane, collectResults rs = .ok hs → rs = hs.map Except.ok) ∧
      -- Line.slope_coe_toReal
      (∀ (L : Line) (hv : ¬ L.isVertical) (hb : L.slope ≠ ⊥),
        ((L.slope.toReal : ℝ) : EReal) = L.slope) ∧
      -- Line.invariant_vertical
      (∀ (c : ℝ),
        (⟨⊤, 0, c⟩ : Line).Invariant)) ∧
    -- Line.invariant_slanted
    ((∀ (s b : ℝ) (hs : s ≠ 0),
        (⟨((s : ℝ) : EReal), b, -b / s⟩ : Line).Invariant) ∧
      -- Line.invariant_real
      (∀ (s b : ℝ),
        (⟨((s : ℝ) : EReal), b, if s = 0 then 0 else -b / s⟩ : Line).Invariant) ∧
      -- Point.projectionOnto_passesThrough
      (∀ (R : Point) (L : Line),
        L.passesThrough (R.projectionOnto L)) ∧
      -- Line.contains_iff_of_real
      (∀ (s yI xI : ℝ) (P : Point),
        (⟨(s : EReal), yI, xI⟩ : Line).contains P ↔ P.y = s * P.x + yI) ∧
      -- Line.not_contains_of_vertical
      (∀ (L : Line) (hv : L.isVertical) (P : Point),
        ¬ L.contains P) ∧
      -- Line.operatorEq_of_vertical
      (∀ (L THAT : Line) (hL : L.Invariant) (hT : THAT.Invariant) (hv : L.isVertical)
          (hw : THAT.isVertical),
        L.operatorEq THAT) ∧
      -- Line.operatorEq_iff_of_not_vertical
      (∀ (L THAT : Line) (hL : L.Invariant) (hT : THAT.Invariant) (hv : ¬ L.isVertical),
        L.operatorEq THAT ↔
          L.slope = THAT.slope ∧ L.xIntercept = THAT.xIntercept ∧
            L.yIntercept = THAT.yIntercept) ∧
      -- ORCA.clampProjection_ok_of_not_vertical
      (∀ (h : HalfPlane) (vMax : Vector) (l r : ℝ) (hnv : ¬ h.boundingLine.isVertical),
        ∃ s1, ORCA.clampProjection h vMax l r = .ok s1) ∧
      -- ORCA.intervalEmpty_upward
      (∀ (h : HalfPlane) (l r : ℝ) (hnv : ¬ h.boundingLine.isVertical) (hny : 0 < h.normal.y),
        ORCA.intervalEmpty h l r ↔ r < l) ∧
      -- List.eq_pair_or_swap_of_perm
      (∀ (a b : HalfPlane) (l : List HalfPlane) (h : l.Perm [a, b]),
        l = [a, b] ∨ l = [b, a])) ∧
    -- trueMod_eq_sub_int_mul
    ((∀ (a n : ℝ),
        ∃ k : ℤ, trueMod a n = a - (k : ℝ) * n) ∧
      -- Vector.sub_swap
      (∀ (V W : Vector),
        W.sub V = (V.sub W).neg) ∧
      -- Point.sub_reversed
      (∀ (P Q : Point),
        Q.sub P = Point.ofVector (Vector.ofPoint (P.sub Q)).neg) ∧
      -- Vector.ofPoint_ofVector
      (∀ (V : Vector),
        Vector.ofPoint (Point.ofVector V) = V) ∧
      -- Point.ofVector_ofPoint
      (∀ (P : Point),
        Point.ofVector (Vector.ofPoint P) = P) ∧
      -- Vector.sub_neg_neg
      (∀ (V W : Vector),
        V.neg.sub W.neg = (V.sub W).neg) ∧
      -- Vector.ite_neg
      (∀ (p : Prop) [Decidable p] (V W : Vector),
        (if p then V.neg else W.neg) = (if p then V else W).neg) ∧
      -- Line.intersect_mirror
      (∀ (M Q : Line) (hy : Q.yIntercept = 0) (hx : Q.xIntercept = 0),
        Line.intersect ⟨M.slope, -M.yIntercept, -M.xIntercept⟩ Q
          = match M.intersect Q with
            | .error e => .error e
            | .ok P => .ok (Point.ofVector (Vector.ofPoint P).neg))) ∧
    -- Line.toReal_ne_of_slope_ne
    ((∀ (L1 L2 : Line) (hv1 : ¬ L1.isVertical) (hv2 : ¬ L2.isVertical) (hb1 : L1.slope ≠ ⊥)
          (hb2 : L2.slope ≠ ⊥) (hs : L1.slope ≠ L2.slope),
        L1.slope.toReal ≠ L2.slope.toReal) ∧
      -- Line.toReal_ne_zero
      (∀ (L : Line) (hv : ¬ L.isVertical) (hh : ¬ L.isHorizontal) (hb : L.slope ≠ ⊥),
        L.slope.toReal ≠ 0) ∧
      -- Line.invariant_ofSlopeIntercept
      (∀ (SLOPE : EReal) (INTERCEPT : ℝ),
        (Line.ofSlopeIntercept SLOPE INTERCEPT).Invariant) ∧
      -- Line.invariant_ofPoints
      (∀ (P1 P2 : Point),
        (Line.ofPoints P1 P2).Invariant) ∧
      -- Line.invariant_perpendicular
      (∀ (THAT : Line) (P : Point),
        (Line.perpendicular THAT P).Invariant) ∧
      -- ORCA.clampProjection_slanted
      (∀ (h : HalfPlane) (vMax : Vector) (x1 x2 : ℝ) (hnv : ¬ h.boundingLine.isVertical)
          (hlt : x1 < x2),
        ORCA.clampProjection h vMax (if h.normal.y < 0 then (x2, x1) else (x1, x2)).1
            (if h.normal.y < 0 then (x2, x1) else (x1, x2)).2
          = .ok ⟨max x1 (min ((Point.ofVector vMax).projectionOnto h.boundingLine).x x2),
              h.boundingLine.slope.toReal
                  * max x1 (min ((Point.ofVector vMax).projectionOnto h.boundingLine).x x2)
                + h.boundingLine.yIntercept⟩) ∧
      -- ORCA.clampProjection_on_line
      (∀ (h : HalfPlane) (vMax : Vector) (l r : ℝ),
        ∃ s1, ORCA.clampProjection h vMax l r = .ok s1 ∧ h.boundingLine.passesThrough s1)) ∧
    -- Line.intersect_passesThrough_right
    (∀ (L Q : Line) (P : Point) (hL : L.slope ≠ ⊥) (hQ : Q.slope ≠ ⊥) (h : L.intersect Q = .ok P),
      Q.passesThrough P) := by
  refine (fun (h : _) (k : _ → _) => And.intro h (k h)) ?_ (fun part1 => ?_)
  · refine ⟨?_, ?_, ?_, ?_, ?_, ?_, ?_, ?_, ?_, ?_⟩
    -- IsShuffle.nil
    · intro shuffle hs
      exact List.Perm.eq_nil (hs [])
    -- IsShuffle.singleton
    · intro shuffle hs h
      exact List.perm_singleton.mp (hs [h])
    -- isShuffle_id
    · exact fun H => List.Perm.refl H
    -- ORCA.discriminant_vertical
    · intro h_i R hv hc
      have : R - |h_i.boundingLine.xIntercept| > 0 := by linarith
      simp [geometry_unfold.2.2.2.1.2.1, geometry_unfold.2.1.2.2.2.2.2.1, hv, geometry_unfold.1.1, this]
    -- ORCA.clampProjection_vertical
    · intro h_i vMax left right hv
      simp only [geometry_unfold.2.2.2.1.2.2.2.1, geometry_unfold.2.2.1.2.2.2.2.2.2.2,
          geometry_unfold.2.1.2.2.2.2.2.1, hv, if_true, true_and,
        not_true, false_and, if_false, geometry_unfold.2.2.1.2.2.2.2.2.1,
            geometry_unfold.2.1.2.2.2.2.2.2.1, EReal.top_ne_zero,
        geometry_unfold.1.2.2.1]
    -- ORCA.intervalEmpty_vertical
    · intro h_i left right hv
      simp only [geometry_unfold.2.2.2.1.2.2.1, geometry_unfold.2.1.2.2.2.2.2.1, hv, true_and,
          not_true, false_and, or_false]
    -- Line.perpendicular_x_axis
    · intro P
      unfold Line.perpendicular Line.isHorizontal
      simp
    -- collectResults_ok
    · intro rs
      induction rs with
      | nil =>
        intro hs h
        rw [geometry_unfold.2.2.2.2.1] at h
        injection h with h
        rw [← h]
        rfl
      | cons r rs ih =>
        intro hs h
        rw [geometry_unfold.2.2.2.2.2.1] at h
        cases r with
        | error e => cases h
        | ok h0 =>
          dsimp only at h
          cases hrs : collectResults rs with
          | error e => rw [hrs] at h; cases h
          | ok hs0 =>
            rw [hrs] at h
            injection h with h
            rw [← h, List.map_cons, ih hs0 hrs]
    -- Line.slope_coe_toReal
    · intro L hv hb
      exact EReal.coe_toReal hv hb
    -- Line.invariant_vertical
    · intro c
      refine ⟨by simp, fun _ => rfl, fun h => ?_, fun h => ?_⟩
      · exact absurd h (by simp [geometry_unfold.2.1.2.2.2.2.2.2.1])
      · exact absurd rfl h
  refine (fun (h : _) (k : _ → _) => And.intro h (k h)) ?_ (fun part2 => ?_)
  · refine ⟨?_, ?_, ?_, ?_, ?_, ?_, ?_, ?_, ?_, ?_⟩
    -- Line.invariant_slanted
    · intro s b hs
      refine ⟨EReal.coe_ne_bot s, fun h => ?_, fun h => ?_, fun _ _ => ?_⟩
      · exact absurd h (EReal.coe_ne_top s)
      · exact absurd h (by simp [geometry_unfold.2.1.2.2.2.2.2.2.1, hs])
      · simp
    -- Line.invariant_real
    · intro s b
      refine ⟨EReal.coe_ne_bot s, fun h => absurd h (EReal.coe_ne_top s), fun h => ?_,
        fun _ h => ?_⟩
      · have hs : s = 0 := by
          unfold Line.isHorizontal at h
          simp only at h
          exact_mod_cast h
        simp [hs]
      · have hs : s ≠ 0 := by
          intro hs
          apply h
          unfold Line.isHorizontal
          simp [hs]
        simp [hs]
    -- Point.projectionOnto_passesThrough
    · intro R L
      unfold Line.passesThrough Point.projectionOnto
      by_cases hv : L.isVertical
      · simp only [if_pos hv]
      · simp only [if_neg hv]
        have hd : L.slope.toReal ^ 2 + 1 ≠ 0 := by positivity
        field_simp
        ring
    -- Line.contains_iff_of_real
    · intro s yI xI P
      unfold Line.contains
      simp only [EReal.coe_ne_top, EReal.coe_ne_bot, or_self, false_and, if_false]
      rw [← EReal.coe_mul, ← EReal.coe_add, EReal.coe_eq_coe_iff]
    -- Line.not_contains_of_vertical
    · intro L hv P
      unfold Line.isVertical at hv
      unfold Line.contains
      by_cases hx : P.x = 0
      · rw [if_pos ⟨Or.inl hv, hx⟩]
        exact not_false
      · rw [if_neg (fun h => hx h.2), hv]
        rcases lt_or_gt_of_ne hx with hneg | hpos
        · rw [EReal.top_mul_coe_of_neg hneg, EReal.bot_add]
          exact EReal.coe_ne_bot _
        · rw [EReal.top_mul_coe_of_pos hpos, EReal.top_add_coe]
          exact EReal.coe_ne_top _
    -- Line.operatorEq_of_vertical
    · intro L THAT hL hT hv hw
      refine ⟨?_, Or.inr ?_⟩
      · rw [hv, hw]
      · rw [hL.2.1 hv, hT.2.1 hw]
    -- Line.operatorEq_iff_of_not_vertical
    · intro L THAT hL hT hv
      constructor
      · rintro ⟨hs, h | h⟩
        · exact absurd h.1 hv
        · have hv2 : ¬ THAT.isVertical := by
            unfold Line.isVertical at hv ⊢
            rwa [← hs]
          refine ⟨hs, ?_, h⟩
          by_cases hh : L.isHorizontal
          · have hh2 : THAT.isHorizontal := by
              unfold Line.isHorizontal at hh ⊢
              rwa [← hs]
            rw [hL.2.2.1 hh, hT.2.2.1 hh2]
          · have hh2 : ¬ THAT.isHorizontal := by
              unfold Line.isHorizontal at hh ⊢
              rwa [← hs]
            rw [hL.2.2.2 hv hh, hT.2.2.2 hv2 hh2, h, hs]
      · rintro ⟨hs, _, hy⟩
        exact ⟨hs, Or.inr hy⟩
    -- ORCA.clampProjection_ok_of_not_vertical
    · intro h vMax l r hnv
      simp only [geometry_unfold.2.2.2.1.2.2.2.1, hnv, false_and, if_false, not_false_eq_true, true_and,
        geometry_unfold.2.2.1.2.2.2.2.1]
      split_ifs
      · exact ⟨_, rfl⟩
      · exact ⟨_, rfl⟩
      · exact ⟨_, rfl⟩
    -- ORCA.intervalEmpty_upward
    · intro h l r hnv hny
      simp only [geometry_unfold.2.2.2.1.2.2.1, hnv, false_and, not_false_eq_true, true_and, false_or,
        not_lt.mpr hny.le, gt_iff_lt, hny]
    -- List.eq_pair_or_swap_of_perm
    · intro a b l h
      have hlen := h.length_eq
      match l, h, hlen with
      | [x, y], h, _ =>
        have hx : x ∈ [a, b] := h.mem_iff.mp (List.mem_cons_self _ _)
        simp only [List.mem_cons, List.mem_singleton, List.not_mem_nil, or_false] at hx
        rcases hx with rfl | rfl
        · left
          have := List.perm_singleton.mp (List.Perm.cons_inv h)
          rw [this]
        · right
          have h2 : [x, y].Perm [x, a] := h.trans (List.Perm.swap x a [])
          have := List.perm_singleton.mp (List.Perm.cons_inv h2)
          rw [this]
  refine (fun (h : _) (k : _ → _) => And.intro h (k h)) ?_ (fun part3 => ?_)
  · refine ⟨?_, ?_, ?_, ?_, ?_, ?_, ?_, ?_⟩
    -- trueMod_eq_sub_int_mul
    · intro a n
      unfold trueMod fmod
      by_cases hq : 0 ≤ a / n
      · simp only [hq, if_true]
        split_ifs
        · exact ⟨⌊a / n⌋ - 1, by push_cast; ring⟩
        · exact ⟨⌊a / n⌋, by ring⟩
      · simp only [hq, if_false]
        split_ifs
        · exact ⟨⌈a / n⌉ - 1, by push_cast; ring⟩
        · exact ⟨⌈a / n⌉, by ring⟩
    -- Vector.sub_swap
    · intro V W
      simp [geometry_unfold.2.1.2.1, geometry_unfold.2.2.2.2.2.2]
    -- Point.sub_reversed
    · intro P Q
      simp [geometry_unfold.1.2.2.2.2.2.1, geometry_unfold.2.2.2.2.2.2, geometry_unfold.1.2.1,
          geometry_unfold.1.2.2.1]
    -- Vector.ofPoint_ofVector
    · intro V
      exact rfl
    -- Point.ofVector_ofPoint
    · intro P
      exact rfl
    -- Vector.sub_neg_neg
    · intro V W
      simp only [geometry_unfold.2.1.2.1, geometry_unfold.2.2.2.2.2.2]
      congr 1 <;> ring
    -- Vector.ite_neg
    · intro p _ V W
      split_ifs <;> rfl
    -- Line.intersect_mirror
    · intro M Q hy hx
      unfold Line.intersect Line.parallel Line.isVertical Line.getPointAtX Line.isVertical
      simp only [hy, hx]
      split_ifs
      all_goals first
        | rfl
        | (simp only [geometry_unfold.1.2.2.1, geometry_unfold.1.2.1, geometry_unfold.2.2.2.2.2.2]
           congr 2 <;> ring)
  refine (fun (h : _) (k : _ → _) => And.intro h (k h)) ?_ (fun part4 => ?_)
  · refine ⟨?_, ?_, ?_, ?_, ?_, ?_, ?_⟩
    -- Line.toReal_ne_of_slope_ne
    · intro L1 L2 hv1 hv2 hb1 hb2 hs
      intro h
      apply hs
      rw [← part1.2.2.2.2.2.2.2.2.1 L1 hv1 hb1, ← part1.2.2.2.2.2.2.2.2.1 L2 hv2 hb2, h]
    -- Line.toReal_ne_zero
    · intro L hv hh hb
      intro h
      apply hh
      unfold Line.isHorizontal
      rw [← part1.2.2.2.2.2.2.2.2.1 L hv hb, h]
      rfl
    -- Line.invariant_ofSlopeIntercept
    · intro SLOPE INTERCEPT
      unfold Line.ofSlopeIntercept
      by_cases hb : SLOPE = ⊥
      · simp only [hb, if_true]
        exact part1.2.2.2.2.2.2.2.2.2 _
      · simp only [if_neg hb]
        by_cases ht : SLOPE = ⊤
        · simp only [ht, if_true]
          exact part1.2.2.2.2.2.2.2.2.2 _
        · simp only [if_neg ht]
          have hc : ((SLOPE.toReal : ℝ) : EReal) = SLOPE := EReal.coe_toReal ht hb
          have h := part2.2.1 SLOPE.toReal INTERCEPT
          have hz : (SLOPE = 0) ↔ (SLOPE.toReal = 0) := by
            constructor
            · intro h0; rw [h0]; exact EReal.toReal_zero
            · intro h0; rw [← hc, h0]; rfl
          rw [hc] at h
          simp only [hz]
          exact h
    -- Line.invariant_ofPoints
    · intro P1 P2
      unfold Line.ofPoints
      by_cases h : P1.x = P2.x ∧ P1.y ≠ P2.y
      · rw [if_pos h]
        exact part1.2.2.2.2.2.2.2.2.2 _
      · rw [if_neg h]
        exact part2.2.1 _ _
    -- Line.invariant_perpendicular
    · intro THAT P
      unfold Line.perpendicular
      by_cases h : THAT.isHorizontal
      · rw [if_pos h]
        exact part1.2.2.2.2.2.2.2.2.2 _
      · rw [if_neg h]
        exact part2.2.1 _ _
    -- ORCA.clampProjection_slanted
    · intro h vMax x1 x2 hnv hlt
      have hon := part2.2.2.1 (Point.ofVector vMax) h.boundingLine
      rw [geometry_unfold.2.2.2.1.2.2.2.2.2.2.1, if_neg hnv] at hon
      have hproj : (Point.ofVector vMax).projectionOnto h.boundingLine
          = ⟨((Point.ofVector vMax).projectionOnto h.boundingLine).x,
              h.boundingLine.slope.toReal
                  * ((Point.ofVector vMax).projectionOnto h.boundingLine).x
                + h.boundingLine.yIntercept⟩ := by
        rw [← hon]
      simp only [geometry_unfold.2.2.2.1.2.2.2.1, hnv, false_and, if_false, not_false_eq_true, true_and,
        geometry_unfold.2.2.1.2.2.2.2.1]
      generalize ((Point.ofVector vMax).projectionOnto h.boundingLine) = pr at hproj ⊢
      by_cases hneg : h.normal.y < 0
      · simp only [if_pos hneg]
        by_cases ha : pr.x > x2
        · rw [if_pos (iff_of_true hneg ha), min_eq_right ha.le, max_eq_right hlt.le]
        · rw [if_neg (fun hh => ha (hh.mp hneg))]
          by_cases hb : pr.x < x1
          · rw [if_pos (iff_of_true hneg hb), min_eq_left (by linarith), max_eq_left hb.le]
          · rw [if_neg (fun hh => hb (hh.mp hneg)), min_eq_left (by linarith),
              max_eq_right (by linarith)]
            exact congrArg _ hproj
      · simp only [if_neg hneg]
        by_cases ha : pr.x > x1
        · rw [if_neg (fun hh => hneg (hh.mpr ha))]
          by_cases hb : pr.x < x2
          · rw [if_neg (fun hh => hneg (hh.mpr hb)), min_eq_left hb.le, max_eq_right ha.le]
            exact congrArg _ hproj
          · rw [if_pos (iff_of_false hneg hb), min_eq_right (by linarith), max_eq_right hlt.le]
        · rw [if_pos (iff_of_false hneg ha),
            max_eq_left (le_trans (min_le_left _ _) (by linarith))]
    -- ORCA.clampProjection_on_line
    · intro h vMax l r
      have hproj := part2.2.2.1 (Point.ofVector vMax) h.boundingLine
      by_cases hv : h.boundingLine.isVertical
      · have hh : ¬ h.boundingLine.isHorizontal := by
          unfold Line.isHorizontal
          unfold Line.isVertical at hv
          rw [hv]
          exact EReal.top_ne_zero
        simp only [geometry_unfold.2.2.2.1.2.2.2.1, hv, true_and, not_true_eq_false, false_and, if_false,
          geometry_unfold.2.2.1.2.2.2.2.2.1, if_neg hh, if_true]
        split_ifs
        · exact ⟨_, rfl, by simp only [geometry_unfold.2.2.2.1.2.2.2.2.2.2.1, if_pos hv]⟩
        · exact ⟨_, rfl, by simp only [geometry_unfold.2.2.2.1.2.2.2.2.2.2.1, if_pos hv]⟩
        · exact ⟨_, rfl, hproj⟩
      · simp only [geometry_unfold.2.2.2.1.2.2.2.1, hv, false_and, if_false, not_false_eq_true, true_and,
          geometry_unfold.2.2.1.2.2.2.2.1]
        split_ifs
        · exact ⟨_, rfl, by simp only [geometry_unfold.2.2.2.1.2.2.2.2.2.2.1, if_neg hv]⟩
        · exact ⟨_, rfl, by simp only [geometry_unfold.2.2.2.1.2.2.2.2.2.2.1, if_neg hv]⟩
        · exact ⟨_, rfl, hproj⟩
  -- Line.intersect_passesThrough_right
  intro L Q P hL hQ h
  unfold Line.intersect Line.parallel at h
  by_cases hs : L.slope = Q.slope
  · rw [if_pos hs] at h
    cases h
  · rw [if_neg hs] at h
    by_cases hv1 : L.isVertical
    · have hv2 : ¬ Q.isVertical := fun hv2 => hs (hv1.trans hv2.symm)
      rw [if_pos hv1, geometry_unfold.2.2.1.2.2.2.2.1, if_neg hv2] at h
      cases h
      rw [geometry_unfold.2.2.2.1.2.2.2.2.2.2.1, if_neg hv2]
    · rw [if_neg hv1] at h
      by_cases hv2 : Q.isVertical
      · rw [if_pos hv2, geometry_unfold.2.2.1.2.2.2.2.1, if_neg hv1] at h
        cases h
        rw [geometry_unfold.2.2.2.1.2.2.2.2.2.2.1, if_pos hv2]
      · rw [if_neg hv2, geometry_unfold.2.2.1.2.2.2.2.1, if_neg hv1] at h
        cases h
        rw [geometry_unfold.2.2.2.1.2.2.2.2.2.2.1, if_neg hv2]
        have hne := part4.1 L Q hv1 hv2 hL hQ hs
        have hsub : L.slope.toReal - Q.slope.toReal ≠ 0 := sub_ne_zero.mpr hne
        simp only
        field_simp
        ring

set_option maxHeartbeats 40000000 in
/-- Auxiliary facts that involve the norm of a vector.  Each conjunct is named in the comment that
precedes its proof. -/
theorem norm_facts :
    -- Vector.dot_self_nonneg
    ((∀ (V : Vector),
        0 ≤ V.dot V) ∧
      -- Vector.norm_nonneg
      (∀ (V : Vector),
        0 ≤ V.norm) ∧
      -- Vector.norm_le_iff
      (∀ (V : Vector) {R : ℝ} (hR : 0 ≤ R),
        V.norm ≤ R ↔ V.x * V.x + V.y * V.y ≤ R * R) ∧
      -- Vector.norm_mk_zero_right
      (∀ (a : ℝ),
        (⟨a, 0⟩ : Vector).norm = |a|) ∧
      -- trueMod_of_nonneg_of_lt
      (∀ {a n : ℝ} (h0 : 0 ≤ a) (h1 : a < n),
        trueMod a n = a) ∧
      -- ORCA.circleBounds_vertical
      (∀ (h_i : HalfPlane) (R : ℝ) (hv : h_i.boundingLine.slope = ⊤),
        ORCA.circleBounds h_i R =
          if h_i.normal.x < 0 then
            (-Real.sqrt (R ^ 2 - h_i.boundingLine.xIntercept ^ 2),
              Real.sqrt (R ^ 2 - h_i.boundingLine.xIntercept ^ 2))
          else
            (Real.sqrt (R ^ 2 - h_i.boundingLine.xIntercept ^ 2),
              -Real.sqrt (R ^ 2 - h_i.boundingLine.xIntercept ^ 2))) ∧
      -- Vector.norm_eq_of_mul_self
      (∀ (V : Vector) (r : ℝ) (hr : 0 ≤ r) (h : V.x * V.x + V.y * V.y = r * r),
        V.norm = r) ∧
      -- sqrt_sq_sub_sq
      (∀ (R c l : ℝ) (hl : 0 ≤ l) (h : R ^ 2 - c ^ 2 = l ^ 2),
        Real.sqrt (R ^ 2 - c ^ 2) = l) ∧
      -- HalfPlane.new_normalPosition
      (∀ (p : Point) (n : Vector),
        (HalfPlane.new p n).normalPosition = p) ∧
      -- HalfPlane.new_normal
      (∀ (p : Point) (n : Vector) (hn : n.norm ≠ 0),
        (HalfPlane.new p n).normal = n)) ∧
    -- Vector.norm_ofPoint_sdiv
    ((∀ (P : Point) (t : ℝ) (ht : 0 < t),
        (Vector.ofPoint (P.sdiv t)).norm = (Vector.ofPoint P).norm / t) ∧
      -- Vector.normalize_of_ne
      (∀ (V : Vector) (r : ℝ) (h : V.norm ≠ 0),
        V.normalize r = ⟨V.x * (r / V.norm), V.y * (r / V.norm)⟩) ∧
      -- Agent.reciprocal_core
      (∀ (ax ay bx b_y vAx vAy vBx vBy cx cy kx ky t : ℝ) (ht : 0 < t) (hkx : kx = vAx - vBx - cx)
          (hky : ky = vAy - vBy - cy)
          (hA : 0 ≤ (ax - (vAx + (kx * t - kx) / 2)) * (kx * t) + (ay - (vAy + (ky * t - ky) / 2)) * (ky * t))
          (hB : 0 ≤ (bx - (vBx + (-kx * t - -kx) / 2)) * (-kx * t) + (b_y - (vBy + (-ky * t - -ky)
              / 2)) * (-ky * t)),
        t ^ 2 * (kx * kx + ky * ky) ≤ (ax - bx - cx) * (ax - bx - cx)
          + (ay - b_y - cy) * (ay - b_y - cy)) ∧
      -- trueMod_of_neg
      (∀ {a n : ℝ} (h0 : a < 0) (h1 : -n < a),
        trueMod a n = a + n) ∧
      -- Line.ofPoint_x_axis
      (∀ (d : ℝ),
        Line.ofPoint ⟨d, 0⟩ = ⟨((0 : ℝ) : EReal), 0, 0⟩) ∧
      -- Line.intersect_vertical_x_axis
      (∀ (e : ℝ),
        Line.intersect ⟨⊤, 0, e⟩ ⟨((0 : ℝ) : EReal), 0, 0⟩ = .ok ⟨e, 0⟩) ∧
      -- ORCA.convergedLoop_eq_true_iff
      (∀ (T : ℝ) (agents : List Agent),
        ORCA.convergedLoop T agents = true ↔ ∀ agent ∈ agents, agent.arrived T) ∧
      -- List.forall₂_zipWith_updateVelocity
      (∀ (P : Agent → Vector → Prop),
        ∀ (l : List Agent) (vs : List Vector), List.Forall₂ P l vs →
          List.Forall₂ (fun a a1 => ∃ v, P a v ∧ a1 = a.updateVelocity v) l
            (List.zipWith Agent.updateVelocity l vs)) ∧
      -- Vector.limitNormTo_of_norm_eq
      (∀ (v w : Vector) (h : v.norm = w.norm),
        v.limitNormTo w = v) ∧
      -- Point.sub_dot_self_pos
      (∀ (pA pB : Point) (hp : pA ≠ pB),
        0 < (Vector.ofPoint (pB.sub pA)).dot (Vector.ofPoint (pB.sub pA)))) ∧
    -- ORCA.slanted_roots
    ((∀ (s b0 R x1 x2 : ℝ) (hlt : x1 < x2) (h1 : x1 ^ 2 + (s * x1 + b0) ^ 2 = R ^ 2)
          (h2 : x2 ^ 2 + (s * x2 + b0) ^ 2 = R ^ 2),
        (s ^ 2 + 1) * (x1 + x2) + 2 * s * b0 = 0 ∧
          4 * (R ^ 2 * (s ^ 2 + 1) - b0 ^ 2) = ((s ^ 2 + 1) * (x2 - x1)) ^ 2) ∧
      -- ORCA.tangent_vertical
      (∀ (h_i : HalfPlane) (R : ℝ) (T : Point) (hR : 0 < R) (hv : h_i.boundingLine.isVertical)
          (hT : h_i.boundingLine.passesThrough T) (hTc : T.x ^ 2 + T.y ^ 2 = R ^ 2)
          (htan : ∀ P : Point, h_i.boundingLine.passesThrough P → P.x ^ 2 + P.y ^ 2 = R ^ 2 → P = T),
        ORCA.discriminant h_i R = 0 ∧ h_i.boundingLine.getPointAtY 0 = .ok T) ∧
      -- ORCA.tangent_slanted
      (∀ (h_i : HalfPlane) (R : ℝ) (T : Point) (hv : ¬ h_i.boundingLine.isVertical)
          (hT : h_i.boundingLine.passesThrough T) (hTc : T.x ^ 2 + T.y ^ 2 = R ^ 2)
          (htan : ∀ P : Point, h_i.boundingLine.passesThrough P → P.x ^ 2 + P.y ^ 2 = R ^ 2 → P = T),
        ORCA.discriminant h_i R = 0 ∧
          h_i.boundingLine.getPointAtX
            (-(2 * h_i.boundingLine.slope.toReal * h_i.boundingLine.yIntercept)
              / (2 * (h_i.boundingLine.slope.toReal ^ 2 + 1))) = .ok T) ∧
      -- HalfPlane.contains_normalPosition
      (∀ (h : HalfPlane),
        h.contains h.normalPosition) ∧
      -- Vector.norm_eq_abs_mul_sqrt
      (∀ (x y : ℝ) (hx : x ≠ 0),
        (⟨x, y⟩ : Vector).norm = |x| * Real.sqrt (1 + (y / x) ^ 2)) ∧
      -- Vector.neg_dot_neg
      (∀ (V W : Vector),
        V.neg.dot W.neg = V.dot W) ∧
      -- Point.sdiv_neg
      (∀ (P : Point) (t : ℝ),
        (Point.ofVector (Vector.ofPoint P).neg).sdiv t
          = Point.ofVector (Vector.ofPoint (P.sdiv t)).neg) ∧
      -- Line.ofPoint_neg
      (∀ (P : Point),
        Line.ofPoint (Point.ofVector (Vector.ofPoint P).neg) = Line.ofPoint P) ∧
      -- Line.ofPoint_intercepts
      (∀ (P : Point),
        (Line.ofPoint P).yIntercept = 0 ∧ (Line.ofPoint P).xIntercept = 0) ∧
      -- Line.perpendicular_neg
      (∀ (L : Line) (V : Vector),
        Line.perpendicular L (Point.ofVector V.neg)
          = ⟨(Line.perpendicular L (Point.ofVector V)).slope,
              -(Line.perpendicular L (Point.ofVector V)).yIntercept,
              -(Line.perpendicular L (Point.ofVector V)).xIntercept⟩)) ∧
    -- Line.cross_of_passesThrough_ofPoint
    ((∀ (c P : Point) (h : (Line.ofPoint c).passesThrough P),
        P.x * c.y - P.y * c.x = 0) ∧
      -- ORCA.updateLoop_eq
      (∀ (todo visited : List Agent) (vs : List Vector) (S : ORCA),
        vs.length = todo.length → S.agents = visited ++ todo →
        ORCA.updateLoop visited todo vs S
          = { S with agents := visited ++ List.zipWith Agent.updateVelocity todo vs })) ∧
    -- Vector.norm_mul_self
    ((∀ (V : Vector),
        V.norm * V.norm = V.dot V) ∧
      -- Vector.norm_eq_zero_iff
      (∀ (V : Vector),
        V.norm = 0 ↔ V.x = 0 ∧ V.y = 0) ∧
      -- Vector.norm_lt_iff
      (∀ (V : Vector) {R : ℝ} (hR : 0 ≤ R),
        R < V.norm ↔ R * R < V.x * V.x + V.y * V.y) ∧
      -- Vector.norm_pos_of_ne
      (∀ {V : Vector} (h : V.norm ≠ 0),
        0 < V.norm) ∧
      -- Vector.limitNorm_neg_x_axis
      (∀ (t : ℝ) (ht : t < -1),
        (⟨t, 0⟩ : Vector).limitNorm 1 = ⟨-1, 0⟩) ∧
      -- Vector.limitNorm_pos_x_axis
      (∀ (t : ℝ) (ht : 1 < t),
        (⟨t, 0⟩ : Vector).limitNorm 1 = ⟨1, 0⟩) ∧
      -- scenario1_reach
      (((⟨1, 0⟩ : Point).from ⟨-1, 0⟩).norm ≤ 2 * 1 ∧
        ((⟨-1, 0⟩ : Point).from ⟨1, 0⟩).norm ≤ 2 * 1) ∧
      -- scenario1State_separation
      (∀ (x : ℝ) (hx : 1 ≤ x) (vA vB : Vector),
        ∃ A B : Agent, (scenario1State x vA vB).agents = [A, B] ∧
          2 ≤ (A.position.from B.position).norm) ∧
      -- scenario1State_far_from_goal
      (∀ (x : ℝ) (hx : 1 ≤ x) (vA vB : Vector),
        ∀ agent ∈ (scenario1State x vA vB).agents,
          11 ≤ (agent.destination.from agent.position).norm) ∧
      -- Vector.norm_cos_sin
      (∀ (t : ℝ),
        (⟨Real.cos t, Real.sin t⟩ : Vector).norm = 1)) ∧
    -- ORCA.discriminant_slanted
    ((∀ (h : HalfPlane) (R x1 x2 : ℝ) (hnv : ¬ h.boundingLine.isVertical) (hlt : x1 < x2)
          (h1 : x1 ^ 2 + (h.boundingLine.slope.toReal * x1 + h.boundingLine.yIntercept) ^ 2 = R ^ 2)
          (h2 : x2 ^ 2 + (h.boundingLine.slope.toReal * x2 + h.boundingLine.yIntercept) ^ 2 = R ^ 2),
        ORCA.discriminant h R = ((h.boundingLine.slope.toReal ^ 2 + 1) * (x2 - x1)) ^ 2) ∧
      -- ORCA.tangentCase_of_tangent
      (∀ (H : List HalfPlane) (h_i : HalfPlane) (R : ℝ) (T : Point) (hR : 0 < R)
          (hT : h_i.boundingLine.passesThrough T) (hTc : T.x ^ 2 + T.y ^ 2 = R ^ 2)
          (htan : ∀ P : Point, h_i.boundingLine.passesThrough P → P.x ^ 2 + P.y ^ 2 = R ^ 2 → P = T),
        ORCA.discriminant h_i R = 0 ∧
          ORCA.tangentCase H h_i
            = if ∀ h ∈ H, h.contains T then .ok T else .error .LinearProgramInfeasible) ∧
      -- Vector.norm_neg
      (∀ (V : Vector),
        V.neg.norm = V.norm) ∧
      -- Line.ofPoint_ofVector_neg
      (∀ (V : Vector),
        Line.ofPoint (Point.ofVector V.neg) = Line.ofPoint (Point.ofVector V)) ∧
      -- Agent.closestCircleCenter_facts
      (∀ (dv : Vector) (c : Point) (lp rp : Vector) (TAU : ℝ) (cc : Point)
          (h : Agent.closestCircleCenter dv c lp rp TAU = .ok cc),
        (cc = c.sdiv TAU ∨ (Vector.ofPoint cc).norm > (Vector.ofPoint (c.sdiv TAU)).norm) ∧
          cc.x * c.y - cc.y * c.x = 0)) ∧
    -- HalfPlane.new_vertical
    ((∀ (p : Point) (n : Vector) (hy : n.y = 0) (hx : n.x ≠ 0),
        HalfPlane.new p n = ⟨p, n, ⟨⊤, 0, p.x⟩⟩) ∧
      -- HalfPlane.new_slanted
      (∀ (p : Point) (n : Vector) (hy : n.y ≠ 0),
        HalfPlane.new p n = ⟨p, n, ⟨((-n.x / n.y : ℝ) : EReal), p.y - p.x * (-n.x / n.y),
          if -n.x / n.y = 0 then 0 else -(p.y - p.x * (-n.x / n.y)) / (-n.x / n.y)⟩⟩) ∧
      -- HalfPlane.new_zero_normal
      (∀ (p : Point) (n : Vector) (hn : n.norm = 0),
        HalfPlane.new p n = HalfPlane.new p ⟨0, 1⟩) ∧
      -- Vector.norm_normalize
      (∀ (V : Vector) (r : ℝ) (hr : 0 ≤ r) (h : V.norm ≠ 0),
        (V.normalize r).norm = r) ∧
      -- Vector.projectionOnto_x_axis_onto_y_axis
      (∀ (e : ℝ) (W : Vector) (hW : W.x = 0),
        (⟨e, 0⟩ : Vector).projectionOnto W = ⟨0, 0⟩) ∧
      -- scenario1_eq
      (scenario1 = scenario1State 10 ⟨0, 0⟩ ⟨0, 0⟩) ∧
      -- scenario1_moveA
      (∀ (x e : ℝ) (vA : Vector) (he : |e| ≤ 1) (hx : 0 < x + e / 10),
        ((⟨0, ⟨x, 0⟩, ⟨-10, 0⟩, vA, ⟨-1, 0⟩, 1, 1⟩ : Agent).updateVelocity ⟨e, 0⟩).move (1 / 10)
          = ⟨0, ⟨x + e / 10, 0⟩, ⟨-10, 0⟩, ⟨e, 0⟩, ⟨-1, 0⟩, 1, 1⟩) ∧
      -- scenario1_moveB
      (∀ (x e : ℝ) (vB : Vector) (he : |e| ≤ 1) (hx : 0 < x - e / 10),
        ((⟨1, ⟨-x, 0⟩, ⟨10, 0⟩, vB, ⟨1, 0⟩, 1, 1⟩ : Agent).updateVelocity ⟨e, 0⟩).move (1 / 10)
          = ⟨1, ⟨-(x - e / 10), 0⟩, ⟨10, 0⟩, ⟨e, 0⟩, ⟨1, 0⟩, 1, 1⟩) ∧
      -- scenario1State_not_converged
      (∀ (x : ℝ) (hx : 1 ≤ x) (vA vB : Vector),
        (scenario1State x vA vB).converged = false) ∧
      -- Agent.truncation_radius
      (∀ (pA pB : Point) (hp : pA ≠ pB) (r TAU : ℝ) (hτ : 0 < TAU),
        r * (Vector.ofPoint ((pB.sub pA).sdiv TAU)).norm / (Vector.ofPoint (pB.sub pA)).norm
          = r / TAU)) ∧
    -- Agent.centerToV_ne_zero
    ((∀ (A B : Agent) (TAU : ℝ) (hp : A.position ≠ B.position) (hτ : 0 < TAU)
          (hdot : (A.velocity.sub B.velocity).dot (Vector.ofPoint (B.position.sub A.position)) ≤ 0),
        ((A.velocity.sub B.velocity).sub
          (Vector.ofPoint ((B.position.sub A.position).sdiv TAU))).norm ≠ 0) ∧
      -- ORCA.circleBounds_slanted
      (∀ (h : HalfPlane) (R x1 x2 : ℝ) (hnv : ¬ h.boundingLine.isVertical) (hlt : x1 < x2)
          (h1 : x1 ^ 2 + (h.boundingLine.slope.toReal * x1 + h.boundingLine.yIntercept) ^ 2 = R ^ 2)
          (h2 : x2 ^ 2 + (h.boundingLine.slope.toReal * x2 + h.boundingLine.yIntercept) ^ 2 = R ^ 2),
        ORCA.circleBounds h R = if h.normal.y < 0 then (x2, x1) else (x1, x2)) ∧
      -- Vector.projectionOnto_eq
      (∀ (V THAT : Vector) (h : THAT.norm ≠ 0),
        V.projectionOnto THAT = THAT.smul (|V.dot THAT| / THAT.dot THAT)) ∧
      -- ORCA.discriminant_pos_of_crossing
      (∀ (h : HalfPlane) (R : ℝ) (hR : 0 < R) (P Q : Point) (hPQ : P ≠ Q)
          (hP : h.boundingLine.passesThrough P) (hQ : h.boundingLine.passesThrough Q)
          (hPc : P.x ^ 2 + P.y ^ 2 = R ^ 2) (hQc : Q.x ^ 2 + Q.y ^ 2 = R ^ 2),
        0 < ORCA.discriminant h R) ∧
      -- Vector.normalize_neg
      (∀ (V : Vector) (k : ℝ),
        V.neg.normalize k = (V.normalize k).neg) ∧
      -- Agent.closestCircleCenter_neg
      (∀ (dv : Vector) (c : Point) (lp rp : Vector) (TAU : ℝ),
        Agent.closestCircleCenter dv.neg (Point.ofVector (Vector.ofPoint c).neg) lp.neg rp.neg TAU
          = match Agent.closestCircleCenter dv c lp rp TAU with
            | .error e => .error e
            | .ok cc => .ok (Point.ofVector (Vector.ofPoint cc).neg))) ∧
    -- HalfPlane.miss_vertical
    ((∀ (p : Point) (n v : Vector) (R : ℝ) (hR : 0 ≤ R) (hy : n.y = 0) (hx : n.x ≠ 0)
          (hv : v.norm ≤ R)
          (hmiss : ∀ q : Point, (Vector.ofPoint q).norm ≤ R → ¬ (HalfPlane.new p
              n).boundingLine.passesThrough q)
          (ho : ¬ (HalfPlane.new p n).contains Point.origin),
        ¬ (HalfPlane.new p n).contains (Point.ofVector v) ∧
          ORCA.discriminant (HalfPlane.new p n) R < 0 ∧
          ¬ (HalfPlane.new p n).normal.dot ((HalfPlane.new p n).normalPosition.from Point.origin)
            < 0) ∧
      -- HalfPlane.miss_slanted
      (∀ (p : Point) (n v : Vector) (R : ℝ) (hR : 0 ≤ R) (hy : n.y ≠ 0) (hv : v.norm ≤ R)
          (hmiss : ∀ q : Point, (Vector.ofPoint q).norm ≤ R → ¬ (HalfPlane.new p
              n).boundingLine.passesThrough q)
          (ho : ¬ (HalfPlane.new p n).contains Point.origin),
        ¬ (HalfPlane.new p n).contains (Point.ofVector v) ∧
          ORCA.discriminant (HalfPlane.new p n) R < 0 ∧
          ¬ (HalfPlane.new p n).normal.dot ((HalfPlane.new p n).normalPosition.from Point.origin)
            < 0) ∧
      -- Vector.norm_limitNorm_le
      (∀ (V : Vector) (M : ℝ) (hM : 0 ≤ M),
        (V.limitNorm M).norm ≤ M) ∧
      -- HalfPlane.boundingLine_dot_of_ne
      (∀ (nPos : Point) (m : Vector) (hm : m.norm ≠ 0) (P : Point),
        (HalfPlane.new nPos m).boundingLine.passesThrough P ↔ (P.from nPos).dot m = 0) ∧
      -- HalfPlane.new_not_vertical
      (∀ (p : Point) (n : Vector) (hy : n.y ≠ 0),
        ¬ (HalfPlane.new p n).boundingLine.isVertical) ∧
      -- ORCA.upward_example
      (HalfPlane.new ⟨0, -3⟩ ⟨0, 1⟩ = ⟨⟨0, -3⟩, ⟨0, 1⟩, ⟨((0 : ℝ) : EReal), -3, 0⟩⟩) ∧
      -- ORCA.antiparallel_example
      (HalfPlane.new ⟨0, 3⟩ ⟨0, 1⟩ = ⟨⟨0, 3⟩, ⟨0, 1⟩, ⟨((0 : ℝ) : EReal), 3, 0⟩⟩ ∧
        HalfPlane.new ⟨0, -3⟩ ⟨0, -1⟩ = ⟨⟨0, -3⟩, ⟨0, -1⟩, ⟨((0 : ℝ) : EReal), -3, 0⟩⟩) ∧
      -- ORCA.order_example
      (HalfPlane.new ⟨15, 0⟩ ⟨1, 0⟩ = ⟨⟨15, 0⟩, ⟨1, 0⟩, ⟨⊤, 0, 15⟩⟩ ∧
        HalfPlane.new ⟨0, 24⟩ ⟨0, -1⟩ = ⟨⟨0, 24⟩, ⟨0, -1⟩, ⟨((0 : ℝ) : EReal), 24, 0⟩⟩) ∧
      -- Vector.projectionOnto_neg
      (∀ (V W : Vector),
        V.neg.projectionOnto W.neg = (V.projectionOnto W).neg)) ∧
    -- Agent.Reachable.prefVelocity_le
    ((∀ (A : Agent) (hA : A.Reachable) (hM : 0 ≤ A.maxSpeed),
        A.prefVelocity.norm ≤ A.maxSpeed) ∧
      -- HalfPlane.contains_of_on_boundingLine
      (∀ (nPos : Point) (n : Vector) (P : Point)
          (h : (HalfPlane.new nPos n).boundingLine.passesThrough P),
        (HalfPlane.new nPos n).contains P)) := by
  refine (fun (h : _) (k : _ → _) => And.intro h (k h)) ?_ (fun part1 => ?_)
  · refine ⟨?_, ?_, ?_, ?_, ?_, ?_, ?_, ?_, ?_, ?_⟩
    -- Vector.dot_self_nonneg
    · intro V
      exact add_nonneg (mul_self_nonneg _) (mul_self_nonneg _)
    -- Vector.norm_nonneg
    · intro V
      exact Real.sqrt_nonneg _
    -- Vector.norm_le_iff
    · intro V R hR
      unfold Vector.norm
      rw [Real.sqrt_le_left hR, pow_two]
      rfl
    -- Vector.norm_mk_zero_right
    · intro a
      unfold Vector.norm Vector.dot
      simp only [mul_zero, add_zero]
      exact Real.sqrt_mul_self_eq_abs a
    -- trueMod_of_nonneg_of_lt
    · intro a n h0 h1
      have hn : 0 < n := lt_of_le_of_lt h0 h1
      have hq0 : 0 ≤ a / n := div_nonneg h0 hn.le
      have hq1 : a / n < 1 := (div_lt_one hn).mpr h1
      have hfl : ⌊a / n⌋ = 0 := by
        rw [Int.floor_eq_iff]
        constructor
        · simpa using hq0
        · simpa using hq1
      unfold trueMod fmod
      simp only [hq0, if_true, hfl, Int.cast_zero, mul_zero, sub_zero]
      rw [if_neg (not_lt.mpr h0)]
    -- ORCA.circleBounds_vertical
    · intro h_i R hv
      simp only [norm_unfold.1.2.1, geometry_unfold.2.1.2.2.2.2.2.1, hv, if_true, true_and,
          not_true, false_and,
        or_false]
    -- Vector.norm_eq_of_mul_self
    · intro V r hr h
      unfold Vector.norm Vector.dot
      rw [h]
      exact Real.sqrt_mul_self hr
    -- sqrt_sq_sub_sq
    · intro R c l hl h
      rw [h]
      exact Real.sqrt_sq hl
    -- HalfPlane.new_normalPosition
    · intro p n
      unfold HalfPlane.new
      simp only
      split_ifs <;> rfl
    -- HalfPlane.new_normal
    · intro p n hn
      unfold HalfPlane.new
      simp only [if_neg hn]
      split_ifs <;> rfl
  refine (fun (h : _) (k : _ → _) => And.intro h (k h)) ?_ (fun part2 => ?_)
  · refine ⟨?_, ?_, ?_, ?_, ?_, ?_, ?_, ?_, ?_, ?_⟩
    -- Vector.norm_ofPoint_sdiv
    · intro P t ht
      unfold Vector.norm Vector.dot Vector.ofPoint Point.sdiv
      simp only
      rw [show P.x / t * (P.x / t) + P.y / t * (P.y / t) = (P.x * P.x + P.y * P.y) / (t * t) by
        field_simp]
      rw [Real.sqrt_div (add_nonneg (mul_self_nonneg _) (mul_self_nonneg _)),
        Real.sqrt_mul_self ht.le]
    -- Vector.normalize_of_ne
    · intro V r h
      unfold Vector.normalize
      simp only [ne_eq, h, not_false_eq_true, if_true]
    -- Agent.reciprocal_core
    · intro ax ay bx b_y vAx vAy vBx vBy cx cy kx ky t ht hkx hky hA hB
      have h1 : 0 ≤ t * (((ax - bx - cx) - t * kx) * kx + ((ay - b_y - cy) - t * ky) * ky) := by
        subst hkx hky
        nlinarith [hA, hB]
      have h2 : 0 ≤ ((ax - bx - cx) - t * kx) * kx + ((ay - b_y - cy) - t * ky) * ky :=
        (mul_nonneg_iff_of_pos_left ht).mp h1
      have hK : 0 ≤ kx * kx + ky * ky := add_nonneg (mul_self_nonneg _) (mul_self_nonneg _)
      rcases eq_or_lt_of_le hK with hK0 | hKpos
      · rw [← hK0]
        nlinarith [mul_self_nonneg (ax - bx - cx), mul_self_nonneg (ay - b_y - cy)]
      · have h3 : t * (kx * kx + ky * ky) ≤ (ax - bx - cx) * kx + (ay - b_y - cy) * ky := by
          nlinarith
        have h3' : 0 ≤ t * (kx * kx + ky * ky) := by positivity
        have h4 : (t * (kx * kx + ky * ky)) ^ 2 ≤ ((ax - bx - cx) * kx + (ay - b_y - cy) * ky) ^ 2 :=
          pow_le_pow_left₀ h3' h3 2
        have h5 : ((ax - bx - cx) * kx + (ay - b_y - cy) * ky) ^ 2
            ≤ ((ax - bx - cx) * (ax - bx - cx) + (ay - b_y - cy) * (ay - b_y - cy))
              * (kx * kx + ky * ky) := by
          nlinarith [sq_nonneg ((ax - bx - cx) * ky - (ay - b_y - cy) * kx)]
        have h6 : (t ^ 2 * (kx * kx + ky * ky)) * (kx * kx + ky * ky)
            ≤ ((ax - bx - cx) * (ax - bx - cx) + (ay - b_y - cy) * (ay - b_y - cy))
              * (kx * kx + ky * ky) := by
          calc (t ^ 2 * (kx * kx + ky * ky)) * (kx * kx + ky * ky)
              = (t * (kx * kx + ky * ky)) ^ 2 := by ring
            _ ≤ _ := h4.trans h5
        exact le_of_mul_le_mul_right h6 hKpos
    -- trueMod_of_neg
    · intro a n h0 h1
      have hn : 0 < n := by linarith
      have hq0 : ¬ 0 ≤ a / n := not_le.mpr (div_neg_of_neg_of_pos h0 hn)
      have hq1 : -1 < a / n := by
        rw [lt_div_iff₀ hn]; linarith
      have hce : ⌈a / n⌉ = 0 := by
        rw [Int.ceil_eq_iff]
        constructor
        · simpa using hq1
        · simpa using (not_le.mp hq0).le
      unfold trueMod fmod
      simp only [hq0, if_false, hce, Int.cast_zero, mul_zero, sub_zero]
      rw [if_pos h0]
    -- Line.ofPoint_x_axis
    · intro d
      unfold Line.ofPoint Line.ofPoints Point.origin
      simp
    -- Line.intersect_vertical_x_axis
    · intro e
      unfold Line.intersect Line.parallel Line.isVertical Line.getPointAtX Line.isVertical
      simp
    -- ORCA.convergedLoop_eq_true_iff
    · intro T agents
      induction agents with
      | nil => simp [norm_unfold.1.2.2.2.2.2.1, norm_unfold.1.2.2.2.2.2.2.1]
      | cons a as ih =>
        rw [norm_unfold.1.2.2.2.2.2.2.1]
        by_cases h : a.arrived T
        · simp only [h, not_true_eq_false, if_false, ih, List.mem_cons, forall_eq_or_imp, true_and]
        · simp only [h, not_false_eq_true, if_true, List.mem_cons, forall_eq_or_imp, false_and]
          exact ⟨fun h => absurd h Bool.false_ne_true, fun h => h.elim⟩
    -- List.forall₂_zipWith_updateVelocity
    · intro P
      intro l vs h
      induction h with
      | nil => exact List.Forall₂.nil
      | cons hav _ ih => exact List.Forall₂.cons ⟨_, hav, rfl⟩ ih
    -- Vector.limitNormTo_of_norm_eq
    · intro v w h
      unfold Vector.limitNormTo Vector.limitNorm
      rw [h, if_neg (lt_irrefl _)]
    -- Point.sub_dot_self_pos
    · intro pA pB hp
      obtain ⟨ax, ay⟩ := pA
      obtain ⟨bx, b_y⟩ := pB
      simp only [geometry_unfold.1.2.1, geometry_unfold.1.2.2.2.2.2.1, geometry_unfold.2.1.2.2.1]
      by_contra hcon
      have hx : bx - ax = 0 := by
        nlinarith [mul_self_nonneg (bx - ax), mul_self_nonneg (b_y - ay)]
      have hy : b_y - ay = 0 := by
        nlinarith [mul_self_nonneg (bx - ax), mul_self_nonneg (b_y - ay)]
      apply hp
      rw [show ax = bx by linarith, show ay = b_y by linarith]
  refine (fun (h : _) (k : _ → _) => And.intro h (k h)) ?_ (fun part3 => ?_)
  · refine ⟨?_, ?_, ?_, ?_, ?_, ?_, ?_, ?_, ?_, ?_⟩
    -- ORCA.slanted_roots
    · intro s b0 R x1 x2 hlt h1 h2
      have hE : (s ^ 2 + 1) * (x1 + x2) + 2 * s * b0 = 0 := by
        have h : (x1 - x2) * ((s ^ 2 + 1) * (x1 + x2) + 2 * s * b0) = 0 := by
          linear_combination h1 - h2
        rcases mul_eq_zero.mp h with h | h
        · linarith
        · exact h
      refine ⟨hE, ?_⟩
      linear_combination (-4 * (s ^ 2 + 1)) * h1
        + (3 * (s ^ 2 + 1) * x1 - (s ^ 2 + 1) * x2 + 2 * s * b0) * hE
    -- ORCA.tangent_vertical
    · intro h_i R T hR hv hT hTc htan
      rw [geometry_unfold.2.2.2.1.2.2.2.2.2.2.1, if_pos hv] at hT
      have hP := htan ⟨T.x, -T.y⟩ (by rw [geometry_unfold.2.2.2.1.2.2.2.2.2.2.1, if_pos hv]; exact hT)
        (by simp only [neg_sq]; exact hTc)
      have hy : T.y = 0 := by
        have := congrArg Point.y hP
        simp only at this
        linarith
      have hc : |h_i.boundingLine.xIntercept| = R := by
        rw [← hT, ← abs_of_pos hR]
        apply (sq_eq_sq_iff_abs_eq_abs _ _).mp
        rw [hy] at hTc
        linarith
      constructor
      · simp only [geometry_unfold.2.2.2.1.2.1, if_pos hv, hc, sub_self, geometry_unfold.1.1,
          lt_irrefl, gt_iff_lt,
          if_false, Int.cast_zero]
      · have hh : ¬ h_i.boundingLine.isHorizontal := by
          unfold Line.isHorizontal
          unfold Line.isVertical at hv
          rw [hv]
          exact EReal.top_ne_zero
        rw [geometry_unfold.2.2.1.2.2.2.2.2.1, if_neg hh, if_pos hv, ← hT, ← hy]
    -- ORCA.tangent_slanted
    · intro h_i R T hv hT hTc htan
      rw [geometry_unfold.2.2.2.1.2.2.2.2.2.2.1, if_neg hv] at hT
      have ha : (0 : ℝ) < h_i.boundingLine.slope.toReal ^ 2 + 1 := by positivity
      obtain ⟨s, hs⟩ : ∃ s, h_i.boundingLine.slope.toReal = s := ⟨_, rfl⟩
      obtain ⟨b0, hb⟩ : ∃ b0, h_i.boundingLine.yIntercept = b0 := ⟨_, rfl⟩
      rw [hs, hb] at hT
      rw [hs] at ha
      rw [hs, hb]
      rw [hT] at hTc
      -- the second root of the quadratic gives a point of the line on the circle
      have hx : -(2 * s * b0) / (s ^ 2 + 1) - T.x = T.x := by
        have hP := htan ⟨-(2 * s * b0) / (s ^ 2 + 1) - T.x,
          s * (-(2 * s * b0) / (s ^ 2 + 1) - T.x) + b0⟩
          (by rw [geometry_unfold.2.2.2.1.2.2.2.2.2.2.1, if_neg hv, hs, hb])
          (by
            simp only
            field_simp
            have := hTc
            field_simp at this
            nlinarith [this])
        exact congrArg Point.x hP
      have hmid : 2 * (s ^ 2 + 1) * T.x + 2 * s * b0 = 0 := by
        field_simp at hx
        linarith
      constructor
      · simp only [geometry_unfold.2.2.2.1.2.1, if_neg hv, hs, hb]
        linear_combination (-4 * (s ^ 2 + 1)) * hTc + (2 * (s ^ 2 + 1) * T.x + 2 * s * b0) * hmid
      · have hxT : -(2 * s * b0) / (2 * (s ^ 2 + 1)) = T.x := by
          rw [div_eq_iff (by positivity)]
          linarith
        rw [geometry_unfold.2.2.1.2.2.2.2.1, if_neg hv, hxT, hs, hb, ← hT]
    -- HalfPlane.contains_normalPosition
    · intro h
      simp [geometry_unfold.2.2.2.1.1, geometry_unfold.1.2.2.2.2.2.2.2,
          geometry_unfold.1.2.2.2.2.2.1, geometry_unfold.1.2.1, geometry_unfold.2.1.2.2.1]
    -- Vector.norm_eq_abs_mul_sqrt
    · intro x y hx
      unfold Vector.norm Vector.dot
      rw [← Real.sqrt_sq (abs_nonneg x), ← Real.sqrt_mul (sq_nonneg _), sq_abs]
      congr 1
      field_simp
      ring
    -- Vector.neg_dot_neg
    · intro V W
      simp [geometry_unfold.2.1.2.2.1, geometry_unfold.2.2.2.2.2.2]
    -- Point.sdiv_neg
    · intro P t
      simp only [geometry_unfold.1.2.2.2.2.2.2.1, geometry_unfold.1.2.2.1, geometry_unfold.1.2.1,
          geometry_unfold.2.2.2.2.2.2]
      congr 1 <;> ring
    -- Line.ofPoint_neg
    · intro P
      obtain ⟨x, y⟩ := P
      simp only [geometry_unfold.2.2.1.2.2.1, geometry_unfold.2.2.1.2.1, geometry_unfold.1.2.2.2.1,
          geometry_unfold.1.2.2.1, geometry_unfold.1.2.1,
        geometry_unfold.2.2.2.2.2.2, sub_zero, zero_mul, sub_self, neg_div_neg_eq, zero_eq_neg,
            ne_eq, neg_eq_zero]
      simp only [@eq_comm ℝ 0]
    -- Line.ofPoint_intercepts
    · intro P
      unfold Line.ofPoint Line.ofPoints Point.origin
      split_ifs <;> simp
    -- Line.perpendicular_neg
    · intro L V
      unfold Line.perpendicular
      by_cases hh : L.isHorizontal
      · simp only [if_pos hh, geometry_unfold.1.2.2.1, geometry_unfold.2.2.2.2.2.2, neg_zero]
      · simp only [if_neg hh, geometry_unfold.1.2.2.1, geometry_unfold.2.2.2.2.2.2]
        congr 1
        · ring
        · split_ifs
          · simp
          · ring
  refine (fun (h : _) (k : _ → _) => And.intro h (k h)) ?_ (fun part4 => ?_)
  · refine ⟨?_, ?_⟩
    -- Line.cross_of_passesThrough_ofPoint
    · intro c P h
      obtain ⟨cx, cy⟩ := c
      unfold Line.ofPoint Line.ofPoints Point.origin Line.passesThrough at h
      simp only at h ⊢
      by_cases hv : 0 = cx ∧ 0 ≠ cy
      · rw [if_pos hv] at h
        simp only [geometry_unfold.2.1.2.2.2.2.2.1, if_true] at h
        rw [h, ← hv.1]
        ring
      · rw [if_neg hv] at h
        simp only [geometry_unfold.2.1.2.2.2.2.2.1, EReal.coe_ne_top, if_false,
            EReal.toReal_coe] at h
        by_cases h0 : 0 = cx ∧ 0 = cy
        · rw [← h0.1, ← h0.2]
          ring
        · rw [if_neg h0] at h
          have hx : cx ≠ 0 := by
            intro hx
            by_cases hy : cy = 0
            · exact h0 ⟨hx.symm, hy.symm⟩
            · exact hv ⟨hx.symm, fun h => hy h.symm⟩
          rw [h]
          field_simp
          ring
    -- ORCA.updateLoop_eq
    · intro todo
      induction todo with
      | nil =>
        intro visited vs S _ hS
        cases vs <;> simp [norm_unfold.1.2.2.2.2.2.2.2, norm_unfold.2.1, norm_unfold.2.2, ← hS]
      | cons agent todo ih =>
        intro visited vs S hlen hS
        cases vs with
        | nil => simp at hlen
        | cons v vs =>
          rw [norm_unfold.1.2.2.2.2.2.2.2]
          rw [ih _ vs _ (by simpa using hlen) (by simp)]
          simp
  refine (fun (h : _) (k : _ → _) => And.intro h (k h)) ?_ (fun part5 => ?_)
  · refine ⟨?_, ?_, ?_, ?_, ?_, ?_, ?_, ?_, ?_, ?_⟩
    -- Vector.norm_mul_self
    · intro V
      exact Real.mul_self_sqrt (part1.1 V)
    -- Vector.norm_eq_zero_iff
    · intro V
      unfold Vector.norm
      rw [Real.sqrt_eq_zero (part1.1 V)]
      unfold Vector.dot
      constructor
      · intro h
        constructor <;> nlinarith [mul_self_nonneg V.x, mul_self_nonneg V.y]
      · rintro ⟨h1, h2⟩
        simp [h1, h2]
    -- Vector.norm_lt_iff
    · intro V R hR
      rw [← not_le, part1.2.2.1 V hR, not_le]
    -- Vector.norm_pos_of_ne
    · intro V h
      exact lt_of_le_of_ne (part1.2.1 V) (Ne.symm h)
    -- Vector.limitNorm_neg_x_axis
    · intro t ht
      have hn : (⟨t, 0⟩ : Vector).norm = -t := by
        rw [part1.2.2.2.1, abs_of_neg (by linarith)]
      unfold Vector.limitNorm Vector.normalize
      rw [hn, if_pos (by linarith)]
      simp only [ne_eq, zero_mul]
      rw [if_pos (by intro h; linarith)]
      congr 1
      rw [mul_one_div, div_neg, div_self (by intro h; linarith)]
    -- Vector.limitNorm_pos_x_axis
    · intro t ht
      have hn : (⟨t, 0⟩ : Vector).norm = t := by
        rw [part1.2.2.2.1, abs_of_pos (by linarith)]
      unfold Vector.limitNorm Vector.normalize
      rw [hn, if_pos (by linarith)]
      simp only [ne_eq, zero_mul]
      rw [if_pos (by intro h; linarith)]
      congr 1
      rw [mul_one_div, div_self (by intro h; linarith)]
    -- scenario1_reach
    · simp only [geometry_unfold.1.2.2.2.2.2.2.2, geometry_unfold.1.2.2.2.2.2.1,
        geometry_unfold.1.2.1, sub_self]
      rw [part1.2.2.2.1, part1.2.2.2.1]
      constructor <;> norm_num [abs_of_pos, abs_of_neg]
    -- scenario1State_separation
    · intro x hx vA vB
      refine ⟨_, _, rfl, ?_⟩
      simp only [geometry_unfold.1.2.2.2.2.2.2.2, geometry_unfold.1.2.2.2.2.2.1,
          geometry_unfold.1.2.1, sub_self]
      rw [part1.2.2.2.1, abs_of_pos (by linarith)]
      linarith
    -- scenario1State_far_from_goal
    · intro x hx vA vB
      intro agent hmem
      simp only [geometry_unfold.2.2.2.1.2.2.2.2.2.2.2, List.mem_cons, List.mem_singleton,
          List.not_mem_nil,
        or_false] at hmem
      rcases hmem with rfl | rfl
      · simp only [geometry_unfold.1.2.2.2.2.2.2.2, geometry_unfold.1.2.2.2.2.2.1,
          geometry_unfold.1.2.1, sub_self]
        rw [part1.2.2.2.1, abs_of_neg (by linarith)]
        linarith
      · simp only [geometry_unfold.1.2.2.2.2.2.2.2, geometry_unfold.1.2.2.2.2.2.1,
          geometry_unfold.1.2.1, sub_self]
        rw [part1.2.2.2.1, abs_of_pos (by linarith)]
        linarith
    -- Vector.norm_cos_sin
    · intro t
      exact part1.2.2.2.2.2.2.1 _ 1 (by norm_num) (by
          simp only
          nlinarith [Real.cos_sq_add_sin_sq t])
  refine (fun (h : _) (k : _ → _) => And.intro h (k h)) ?_ (fun part6 => ?_)
  · refine ⟨?_, ?_, ?_, ?_, ?_⟩
    -- ORCA.discriminant_slanted
    · intro h R x1 x2 hnv hlt h1 h2
      simp only [geometry_unfold.2.2.2.1.2.1, if_neg hnv]
      exact (part3.1 _ _ R x1 x2 hlt h1 h2).2
    -- ORCA.tangentCase_of_tangent
    · intro H h_i R T hR hT hTc htan
      by_cases hv : h_i.boundingLine.isVertical
      · obtain ⟨hd, hp⟩ := part3.2.1 h_i R T hR hv hT hTc htan
        refine ⟨hd, ?_⟩
        simp only [geometry_unfold.2.2.2.1.2.2.2.2.1, if_pos hv, hp]
      · obtain ⟨hd, hp⟩ := part3.2.2.1 h_i R T hv hT hTc htan
        refine ⟨hd, ?_⟩
        simp only [geometry_unfold.2.2.2.1.2.2.2.2.1, if_neg hv, hp]
    -- Vector.norm_neg
    · intro V
      unfold Vector.norm
      rw [part3.2.2.2.2.2.1]
    -- Line.ofPoint_ofVector_neg
    · intro V
      exact part3.2.2.2.2.2.2.2.1 (Point.ofVector V)
    -- Agent.closestCircleCenter_facts
    · intro dv c lp rp TAU cc h
      have htr : (c.sdiv TAU).x * c.y - (c.sdiv TAU).y * c.x = 0 := by
        simp only [geometry_unfold.1.2.2.2.2.2.2.1]
        ring
      unfold Agent.closestCircleCenter at h
      simp only at h
      by_cases hd : dv.dot (Vector.ofPoint c) > 0
      · rw [if_pos hd] at h
        generalize hproj : (if lp.dot (Vector.ofPoint c) ≤ 0 then rp
          else if rp.dot (Vector.ofPoint c) ≤ 0 then lp
          else if lp.norm > rp.norm then lp else rp) = proj at h
        cases hI : (Line.perpendicular (Line.ofPoint (Point.ofVector proj))
            (Point.ofVector dv)).intersect (Line.ofPoint c) with
        | error e =>
          rw [hI] at h
          cases h
        | ok pcc =>
          rw [hI] at h
          simp only at h
          by_cases hn : (Vector.ofPoint pcc).norm > (Vector.ofPoint (c.sdiv TAU)).norm
          · rw [if_pos hn] at h
            cases h
            refine ⟨Or.inr hn, ?_⟩
            exact part4.1 c _
              (geometry_facts.2.2.2.2 _ _ _ (geometry_facts.2.2.2.1.2.2.2.2.1 _ _).1
                (geometry_facts.2.2.2.1.2.2.2.1 _ _).1 hI)
          · rw [if_neg hn] at h
            cases h
            exact ⟨Or.inl rfl, htr⟩
      · rw [if_neg hd] at h
        cases h
        exact ⟨Or.inl rfl, htr⟩
  refine (fun (h : _) (k : _ → _) => And.intro h (k h)) ?_ (fun part7 => ?_)
  · refine ⟨?_, ?_, ?_, ?_, ?_, ?_, ?_, ?_, ?_, ?_⟩
    -- HalfPlane.new_vertical
    · intro p n hy hx
      have hn : ¬ n.norm = 0 := by
        rw [part5.2.1]; tauto
      simp [norm_unfold.1.1, hn, hy, geometry_unfold.2.2.1.1]
    -- HalfPlane.new_slanted
    · intro p n hy
      have hn : ¬ n.norm = 0 := by
        rw [part5.2.1]; tauto
      simp [norm_unfold.1.1, hn, hy, geometry_unfold.2.2.1.1]
    -- HalfPlane.new_zero_normal
    · intro p n hn
      have h1 : ¬ (⟨0, 1⟩ : Vector).norm = 0 := by
        rw [part5.2.1]; norm_num
      simp [norm_unfold.1.1, hn, h1]
    -- Vector.norm_normalize
    · intro V r hr h
      rw [part2.2.1 V r h]
      apply part1.2.2.2.2.2.2.1 _ _ hr
      simp only
      have hN := part5.1 V
      unfold Vector.dot at hN
      have hpos := part5.2.2.2.1 h
      field_simp
      nlinarith
    -- Vector.projectionOnto_x_axis_onto_y_axis
    · intro e W hW
      obtain ⟨wx, wy⟩ := W
      simp only at hW
      subst hW
      unfold Vector.projectionOnto Vector.normalize
      simp only [geometry_unfold.2.1.2.2.1, mul_zero, zero_mul, add_zero, abs_zero, zero_div]
      split_ifs with h
      · rfl
      · rw [not_not, part5.2.1] at h
        simp only at h
        rw [h.2]
    -- scenario1_eq
    · have h1 : (⟨-10, 0⟩ : Point).from ⟨10, 0⟩ = ⟨-20, 0⟩ := by
        norm_num [geometry_unfold.1.2.2.2.2.2.2.2, geometry_unfold.1.2.2.2.2.2.1,
            geometry_unfold.1.2.1]
      have h2 : (⟨10, 0⟩ : Point).from ⟨-10, 0⟩ = ⟨20, 0⟩ := by
        norm_num [geometry_unfold.1.2.2.2.2.2.2.2, geometry_unfold.1.2.2.2.2.2.1,
            geometry_unfold.1.2.1]
      unfold scenario1 scenario1State ORCA.initialize Agent.new
      rw [h1, h2, part5.2.2.2.2.1 _ (by norm_num),
        part5.2.2.2.2.2.1 _ (by norm_num)]
    -- scenario1_moveA
    · intro x e vA he hx
      have hv : (⟨e, 0⟩ : Vector).limitNormTo ⟨-1, 0⟩ = ⟨e, 0⟩ := by
        unfold Vector.limitNormTo Vector.limitNorm
        rw [part1.2.2.2.1, part1.2.2.2.1, if_neg]
        norm_num
        exact he
      have hp : (⟨x, 0⟩ : Point).add (Point.ofVector ((⟨e, 0⟩ : Vector).smul (1 / 10)))
          = ⟨x + e / 10, 0⟩ := by
        simp only [geometry_unfold.1.2.2.2.2.1, geometry_unfold.1.2.2.1,
            geometry_unfold.2.1.2.2.2.1, zero_mul, add_zero, mul_one_div,
          zero_div]
      have hpref : ((⟨-10, 0⟩ : Point).from ⟨x + e / 10, 0⟩).limitNorm 1 = ⟨-1, 0⟩ := by
        simp only [geometry_unfold.1.2.2.2.2.2.2.2, geometry_unfold.1.2.2.2.2.2.1,
            geometry_unfold.1.2.1, sub_self]
        exact part5.2.2.2.2.1 _ (by linarith)
      simp only [norm_unfold.1.2.2.2.1, norm_unfold.1.2.2.1, hv, hp, hpref]
    -- scenario1_moveB
    · intro x e vB he hx
      have hv : (⟨e, 0⟩ : Vector).limitNormTo ⟨1, 0⟩ = ⟨e, 0⟩ := by
        unfold Vector.limitNormTo Vector.limitNorm
        rw [part1.2.2.2.1, part1.2.2.2.1, if_neg]
        norm_num
        exact he
      have hp : (⟨-x, 0⟩ : Point).add (Point.ofVector ((⟨e, 0⟩ : Vector).smul (1 / 10)))
          = ⟨-(x - e / 10), 0⟩ := by
        simp only [geometry_unfold.1.2.2.2.2.1, geometry_unfold.1.2.2.1,
            geometry_unfold.2.1.2.2.2.1, zero_mul, add_zero, mul_one_div,
          zero_div]
        congr 1
        ring
      have hpref : ((⟨10, 0⟩ : Point).from ⟨-(x - e / 10), 0⟩).limitNorm 1 = ⟨1, 0⟩ := by
        simp only [geometry_unfold.1.2.2.2.2.2.2.2, geometry_unfold.1.2.2.2.2.2.1,
            geometry_unfold.1.2.1, sub_self]
        exact part5.2.2.2.2.2.1 _ (by linarith)
      simp only [norm_unfold.1.2.2.2.1, norm_unfold.1.2.2.1, hv, hp, hpref]
    -- scenario1State_not_converged
    · intro x hx vA vB
      rw [← Bool.not_eq_true]
      intro h
      have hall := (part2.2.2.2.2.2.2.1 _ _).mp h
      have hA := hall _ (List.mem_cons_self _ _)
      have hfar := part5.2.2.2.2.2.2.2.2.1 x hx vA vB _ (List.mem_cons_self _ _)
      have hT : (scenario1State x vA vB).arrivalThreshold = 1 / 2 := rfl
      unfold Agent.arrived at hA
      rw [hT] at hA
      linarith
    -- Agent.truncation_radius
    · intro pA pB hp r TAU hτ
      have hd : (Vector.ofPoint (pB.sub pA)).norm ≠ 0 := by
        intro h
        have h2 := part2.2.2.2.2.2.2.2.2.2 pA pB hp
        rw [← part5.1, h] at h2
        norm_num at h2
      rw [part2.1 _ _ hτ]
      field_simp
      ring
  refine (fun (h : _) (k : _ → _) => And.intro h (k h)) ?_ (fun part8 => ?_)
  · refine ⟨?_, ?_, ?_, ?_, ?_, ?_⟩
    -- Agent.centerToV_ne_zero
    · intro A B TAU hp hτ hdot
      have hdd := part2.2.2.2.2.2.2.2.2.2 A.position B.position hp
      rw [Ne, part5.2.1]
      simp only [geometry_unfold.1.2.1, geometry_unfold.1.2.2.2.2.2.1, geometry_unfold.2.1.2.1,
          geometry_unfold.1.2.2.2.2.2.2.1, geometry_unfold.2.1.2.2.1] at hdd hdot ⊢
      rintro ⟨h1, h2⟩
      have e1 : A.velocity.x - B.velocity.x = (B.position.x - A.position.x) / TAU := by linarith
      have e2 : A.velocity.y - B.velocity.y = (B.position.y - A.position.y) / TAU := by linarith
      rw [e1, e2] at hdot
      have h3 : (B.position.x - A.position.x) / TAU * (B.position.x - A.position.x)
          + (B.position.y - A.position.y) / TAU * (B.position.y - A.position.y)
          = ((B.position.x - A.position.x) * (B.position.x - A.position.x)
            + (B.position.y - A.position.y) * (B.position.y - A.position.y)) / TAU := by ring
      rw [h3] at hdot
      have := div_pos hdd hτ
      linarith
    -- ORCA.circleBounds_slanted
    · intro h R x1 x2 hnv hlt h1 h2
      have ha : (0 : ℝ) < h.boundingLine.slope.toReal ^ 2 + 1 := by positivity
      have hE := (part3.1 _ _ R x1 x2 hlt h1 h2).1
      have hsq : Real.sqrt (ORCA.discriminant h R)
          = (h.boundingLine.slope.toReal ^ 2 + 1) * (x2 - x1) := by
        rw [part6.1 h R x1 x2 hnv hlt h1 h2]
        exact Real.sqrt_sq (mul_nonneg ha.le (by linarith))
      have e1 : (-(2 * h.boundingLine.slope.toReal * h.boundingLine.yIntercept)
          - (h.boundingLine.slope.toReal ^ 2 + 1) * (x2 - x1))
            / (2 * (h.boundingLine.slope.toReal ^ 2 + 1)) = x1 := by
        rw [div_eq_iff (by positivity)]
        linear_combination -hE
      have e2 : (-(2 * h.boundingLine.slope.toReal * h.boundingLine.yIntercept)
          + (h.boundingLine.slope.toReal ^ 2 + 1) * (x2 - x1))
            / (2 * (h.boundingLine.slope.toReal ^ 2 + 1)) = x2 := by
        rw [div_eq_iff (by positivity)]
        linear_combination -hE
      simp only [norm_unfold.1.2.1, if_neg hnv, hsq, e1, e2, hnv, false_and, not_false_eq_true,
        true_and, false_or, if_false]
    -- Vector.projectionOnto_eq
    · intro V THAT h
      unfold Vector.projectionOnto
      rw [part2.2.1 _ _ h]
      have hN := part5.1 THAT
      unfold Vector.smul
      have e : |V.dot THAT| / THAT.norm / THAT.norm = |V.dot THAT| / THAT.dot THAT := by
        rw [div_div, hN]
      rw [e]
    -- ORCA.discriminant_pos_of_crossing
    · intro h R hR P Q hPQ hP hQ hPc hQc
      obtain ⟨px, py⟩ := P
      obtain ⟨qx, qy⟩ := Q
      by_cases hv : h.boundingLine.isVertical
      · simp only [geometry_unfold.2.2.2.1.2.2.2.2.2.2.1, if_pos hv] at hP hQ hPc hQc
        have hy : py ≠ qy := by
          intro hy
          apply hPQ
          rw [hP, hQ, hy]
        have hpy : py ≠ 0 := by
          intro h0
          apply hy
          subst hP hQ
          have : qy ^ 2 = 0 := by rw [h0] at hPc; linarith
          rw [h0, pow_eq_zero_iff (by norm_num) |>.mp this]
        have hlt : h.boundingLine.xIntercept ^ 2 < R ^ 2 := by
          rw [← hPc, hP]
          have := sq_pos_of_ne_zero hpy
          linarith
        rw [geometry_facts.1.2.2.2.1 h R hv (abs_lt_of_sq_lt_sq hlt hR.le)]
        norm_num
      · simp only [geometry_unfold.2.2.2.1.2.2.2.2.2.2.1, if_neg hv] at hP hQ hPc hQc
        rw [hP] at hPc
        rw [hQ] at hQc
        have ha : (0 : ℝ) < h.boundingLine.slope.toReal ^ 2 + 1 := by positivity
        have hx : px ≠ qx := by
          intro hx
          apply hPQ
          rw [hP, hQ, hx]
        rcases lt_or_gt_of_ne hx with hlt | hgt
        · rw [part6.1 h R px qx hv hlt hPc hQc]
          exact pow_pos (mul_pos ha (by linarith)) 2
        · rw [part6.1 h R qx px hv hgt hQc hPc]
          exact pow_pos (mul_pos ha (by linarith)) 2
    -- Vector.normalize_neg
    · intro V k
      unfold Vector.normalize
      simp only [part6.2.2.1]
      split_ifs
      · simp only [geometry_unfold.2.2.2.2.2.2]
        congr 1 <;> ring
      · rfl
    -- Agent.closestCircleCenter_neg
    · intro dv c lp rp TAU
      unfold Agent.closestCircleCenter
      simp only [geometry_facts.2.2.1.2.2.2.1, part3.2.2.2.2.2.1, part6.2.2.1,
          geometry_facts.2.2.1.2.2.2.2.2.2.1,
        part3.2.2.2.2.2.2.2.1, part6.2.2.2.1, geometry_facts.2.2.1.2.2.2.2.1, part3.2.2.2.2.2.2.1,
        part3.2.2.2.2.2.2.2.2.2]
      by_cases hd : dv.dot (Vector.ofPoint c) > 0
      · simp only [if_pos hd]
        rw [geometry_facts.2.2.1.2.2.2.2.2.2.2 _ _ (part3.2.2.2.2.2.2.2.2.1 c).1
            (part3.2.2.2.2.2.2.2.2.1 c).2]
        cases (Line.perpendicular (Line.ofPoint (Point.ofVector
          (if lp.dot (Vector.ofPoint c) ≤ 0 then rp
            else if rp.dot (Vector.ofPoint c) ≤ 0 then lp
            else if lp.norm > rp.norm then lp else rp)))
          (Point.ofVector dv)).intersect (Line.ofPoint c) with
        | error e => rfl
        | ok pcc =>
          simp only [geometry_facts.2.2.1.2.2.2.1, part6.2.2.1]
          split_ifs <;> rfl
      · simp only [if_neg hd]
  refine (fun (h : _) (k : _ → _) => And.intro h (k h)) ?_ (fun part9 => ?_)
  · refine ⟨?_, ?_, ?_, ?_, ?_, ?_, ?_, ?_, ?_⟩
    -- HalfPlane.miss_vertical
    · intro p n v R hR hy hx hv hmiss ho
      rw [part7.1 p n hy hx] at hmiss ho ⊢
      simp only [geometry_unfold.2.2.2.1.1, geometry_unfold.1.2.2.2.2.2.2.2,
          geometry_unfold.1.2.2.2.2.2.1, geometry_unfold.1.2.1, geometry_unfold.2.1.2.2.1,
        geometry_unfold.1.2.2.2.1, geometry_unfold.1.2.2.1, hy, mul_zero, add_zero, sub_zero,
            zero_sub, ge_iff_le,
        not_le, not_lt] at ho ⊢
      have hc : R < |p.x| := by
        by_contra hcon
        have := hmiss ⟨p.x, 0⟩ (by
          simp only [geometry_unfold.1.2.1]
          rw [part1.2.2.2.1]
          exact not_lt.mp hcon)
        exact this (by simp [geometry_unfold.2.2.2.1.2.2.2.2.2.2.1,
                         geometry_unfold.2.1.2.2.2.2.2.1])
      have hvx : v.x * v.x ≤ R * R := by
        have := (part1.2.2.1 v hR).mp hv
        nlinarith [mul_self_nonneg v.y]
      have hvabs : |v.x| ≤ R := abs_le.mpr (abs_le_of_sq_le_sq' (by nlinarith) hR)
      refine ⟨?_, ?_, ?_⟩
      · rcases lt_or_gt_of_ne hx with hneg | hpos
        · have hp : p.x < 0 := by nlinarith
          have : |p.x| = -p.x := abs_of_neg hp
          have h1 := (abs_le.mp hvabs).1
          nlinarith
        · have hp : 0 < p.x := by nlinarith
          have : |p.x| = p.x := abs_of_pos hp
          have h1 := (abs_le.mp hvabs).2
          nlinarith
      · have : R - |p.x| < 0 := by linarith
        simp [geometry_unfold.2.2.2.1.2.1, geometry_unfold.2.1.2.2.2.2.2.1, geometry_unfold.1.1,
            this, not_lt.mpr this.le]
      · nlinarith
    -- HalfPlane.miss_slanted
    · intro p n v R hR hy hv hmiss ho
      rw [part7.2.1 p n hy] at hmiss ho ⊢
      obtain ⟨nx, ny⟩ := n
      obtain ⟨px, py⟩ := p
      obtain ⟨vx, vy⟩ := v
      simp only at hy
      have hvv : vx * vx + vy * vy ≤ R * R := (part1.2.2.1 _ hR).mp hv
      simp only [geometry_unfold.2.2.2.1.1, geometry_unfold.1.2.2.2.2.2.2.2,
          geometry_unfold.1.2.2.2.2.2.1, geometry_unfold.1.2.1, geometry_unfold.2.1.2.2.1,
        geometry_unfold.1.2.2.2.1, geometry_unfold.1.2.2.1, sub_zero, zero_sub, ge_iff_le, not_le, not_lt,
        geometry_unfold.2.2.2.1.2.1, geometry_unfold.2.1.2.2.2.2.2.1,
            geometry_unfold.2.2.2.1.2.2.2.2.2.2.1, EReal.coe_ne_top, if_false,
        EReal.toReal_coe] at hmiss ho ⊢
      generalize hs : -nx / ny = s at hmiss ho ⊢
      have hnx : nx = -s * ny := by
        rw [← hs]; field_simp
      subst hnx
      have hD : 0 < s ^ 2 + 1 := by positivity
      have hq := hmiss ⟨-s * (py - px * s) / (s ^ 2 + 1), (py - px * s) / (s ^ 2 + 1)⟩
      have hfar : R * R * (s ^ 2 + 1) < (py - px * s) ^ 2 := by
        by_contra hcon
        apply hq
        · rw [part1.2.2.1 _ hR]
          simp only
          have : (-s * (py - px * s) / (s ^ 2 + 1)) * (-s * (py - px * s) / (s ^ 2 + 1))
              + ((py - px * s) / (s ^ 2 + 1)) * ((py - px * s) / (s ^ 2 + 1))
              = (py - px * s) ^ 2 / (s ^ 2 + 1) := by
            field_simp; ring
          rw [this, div_le_iff₀ hD]
          exact not_lt.mp hcon
        · simp only
          field_simp; ring
      have hcs : (vy - s * vx) ^ 2 ≤ (s ^ 2 + 1) * (vx * vx + vy * vy) := by
        nlinarith [sq_nonneg (vx + s * vy)]
      have hg : (vy - s * vx) ^ 2 < (py - px * s) ^ 2 := by nlinarith
      refine ⟨?_, by nlinarith, by nlinarith⟩
      by_contra hcon
      rw [not_lt] at hcon
      have h1 : 0 < ny * (py - px * s) := by nlinarith
      have h2 : ny * (py - px * s) ≤ ny * (vy - s * vx) := by nlinarith
      have h3 : (ny * (py - px * s)) ^ 2 ≤ (ny * (vy - s * vx)) ^ 2 := by nlinarith
      have h4 : 0 < ny ^ 2 := by positivity
      nlinarith
    -- Vector.norm_limitNorm_le
    · intro V M hM
      unfold Vector.limitNorm
      by_cases h : V.norm > M
      · rw [if_pos h]
        have hne : V.norm ≠ 0 := by
          intro h0
          rw [h0] at h
          exact absurd h (not_lt.mpr hM)
        rw [part7.2.2.2.1 V M hM hne]
      · rw [if_neg h]
        exact not_lt.mp h
    -- HalfPlane.boundingLine_dot_of_ne
    · intro nPos m hm P
      by_cases hy : m.y = 0
      · have hx : m.x ≠ 0 := fun hx => hm ((part5.2.1 m).mpr ⟨hx, hy⟩)
        rw [part7.1 nPos m hy hx]
        simp only [geometry_unfold.2.2.2.1.2.2.2.2.2.2.1, geometry_unfold.2.1.2.2.2.2.2.1, if_true,
            geometry_unfold.1.2.2.2.2.2.2.2, geometry_unfold.1.2.2.2.2.2.1,
          geometry_unfold.1.2.1, geometry_unfold.2.1.2.2.1, hy, mul_zero, add_zero]
        constructor
        · intro h
          rw [h, sub_self, zero_mul]
        · intro h
          rcases mul_eq_zero.mp h with h1 | h1
          · linarith
          · exact absurd h1 hx
      · rw [part7.2.1 nPos m hy]
        simp only [geometry_unfold.2.2.2.1.2.2.2.2.2.2.1, geometry_unfold.2.1.2.2.2.2.2.1,
            EReal.coe_ne_top, if_false,
          EReal.toReal_coe, geometry_unfold.1.2.2.2.2.2.2.2, geometry_unfold.1.2.2.2.2.2.1,
              geometry_unfold.1.2.1, geometry_unfold.2.1.2.2.1]
        constructor
        · intro h
          rw [h]
          field_simp
          ring
        · intro h
          field_simp
          linear_combination m.y * h
    -- HalfPlane.new_not_vertical
    · intro p n hy
      rw [part7.2.1 p n hy]
      exact EReal.coe_ne_top _
    -- ORCA.upward_example
    · rw [part7.2.1 _ _ (by norm_num)]
      norm_num
    -- ORCA.antiparallel_example
    · constructor
      · rw [part7.2.1 _ _ (by norm_num)]
        norm_num
      · rw [part7.2.1 _ _ (by norm_num)]
        norm_num
    -- ORCA.order_example
    · constructor
      · exact part7.1 _ _ rfl (by norm_num)
      · rw [part7.2.1 _ _ (by norm_num)]
        norm_num
    -- Vector.projectionOnto_neg
    · intro V W
      unfold Vector.projectionOnto
      rw [part3.2.2.2.2.2.1, part6.2.2.1, part8.2.2.2.2.1]
  refine ⟨?_, ?_⟩
  -- Agent.Reachable.prefVelocity_le
  · intro A hA hM
    induction hA with
    | newAt id P r m =>
      have h0 : (⟨0, 0⟩ : Vector).norm = 0 := by
        rw [part5.2.1]; exact ⟨rfl, rfl⟩
      simp only [geometry_unfold.2.2.2.1.2.2.2.2.2.1] at hM ⊢
      rw [h0]
      exact hM
    | new id P D r m => exact part9.2.2.1 _ _ hM
    | move A dt _ _ => exact part9.2.2.1 _ _ hM
    | updateVelocity A V _ ih => exact ih hM
  -- HalfPlane.contains_of_on_boundingLine
  · intro nPos n P h
    have h1 : ¬ (⟨0, 1⟩ : Vector).norm = 0 := by
      rw [part5.2.1]; norm_num
    have key : ∀ m : Vector, m.norm ≠ 0 →
        (HalfPlane.new nPos m).boundingLine.passesThrough P → (HalfPlane.new nPos m).contains P := by
      intro m hm hP
      unfold HalfPlane.contains
      rw [part1.2.2.2.2.2.2.2.2.1, part1.2.2.2.2.2.2.2.2.2 nPos m hm,
        (part9.2.2.2.1 nPos m hm P).mp hP]
    by_cases hn : n.norm = 0
    · rw [part7.2.2.1 nPos n hn] at h ⊢
      exact key _ h1 h
    · exact key n hn h

set_option maxHeartbeats 40000000 in
/-- Auxiliary facts on angles, on the solver, on `orca_A_B` and on the engine.  Each conjunct is
named in the comment that precedes its proof. -/
theorem solver_facts :
    -- ORCA.loop_of_all_contain
    ((∀ (H : List HalfPlane) (vMax : Vector) (R : ℝ) (s : Point),
        ∀ (rest prev : List HalfPlane), (∀ h ∈ rest, h.contains s) →
          ORCA.loop H vMax R prev rest s = .ok s) ∧
      -- ORCA.loop_singleton_error
      (∀ (H : List HalfPlane) (vMax : Vector) (R : ℝ) (prev : List HalfPlane) (h_i : HalfPlane)
          (s : Point) (e : Err) (he : ORCA.processHalfPlane H prev h_i vMax R s = .error e),
        ORCA.loop H vMax R prev [h_i] s = .error e) ∧
      -- ORCA.processHalfPlane_miss
      (∀ (H prev : List HalfPlane) (h_i : HalfPlane) (vMax : Vector) (R : ℝ) (s : Point)
          (hc : ¬ h_i.contains s) (hd : ORCA.discriminant h_i R < 0)
          (ho : ¬ h_i.normal.dot (h_i.normalPosition.from Point.origin) < 0),
        ORCA.processHalfPlane H prev h_i vMax R s = .error .LinearProgramInfeasible) ∧
      -- ORCA.processHalfPlane_cut
      (∀ (H prev : List HalfPlane) (h_i : HalfPlane) (vMax : Vector) (R : ℝ) (s s1 : Point)
          (lr : ℝ × ℝ) (hc : ¬ h_i.contains s) (hd : 0 < ORCA.discriminant h_i R)
          (ht : ORCA.tightenAll h_i prev (ORCA.circleBounds h_i R) = .ok lr)
          (he : ¬ ORCA.intervalEmpty h_i lr.1 lr.2)
          (hp : ORCA.clampProjection h_i vMax lr.1 lr.2 = .ok s1),
        ORCA.processHalfPlane H prev h_i vMax R s = .ok (.next s1)) ∧
      -- ORCA.loop_singleton_next
      (∀ (H : List HalfPlane) (vMax : Vector) (R : ℝ) (prev : List HalfPlane) (h_i : HalfPlane)
          (s s1 : Point) (hp : ORCA.processHalfPlane H prev h_i vMax R s = .ok (.next s1)),
        ORCA.loop H vMax R prev [h_i] s = .ok s1) ∧
      -- ORCA.processHalfPlane_skip_miss
      (∀ (H prev : List HalfPlane) (h_i : HalfPlane) (vMax : Vector) (R : ℝ) (s : Point)
          (hd : ORCA.discriminant h_i R < 0)
          (ho : h_i.normal.dot (h_i.normalPosition.from Point.origin) < 0),
        ORCA.processHalfPlane H prev h_i vMax R s = .ok (.next s)) ∧
      -- ORCA.loop_cons_next
      (∀ (H : List HalfPlane) (vMax : Vector) (R : ℝ) (prev rest : List HalfPlane)
          (h_i : HalfPlane) (s s1 : Point)
          (hp : ORCA.processHalfPlane H prev h_i vMax R s = .ok (.next s1)),
        ORCA.loop H vMax R prev (h_i :: rest) s = ORCA.loop H vMax R (prev ++ [h_i]) rest s1) ∧
      -- ORCA.processHalfPlane_empty
      (∀ (H prev : List HalfPlane) (h_i : HalfPlane) (vMax : Vector) (R : ℝ) (s : Point)
          (lr : ℝ × ℝ) (hc : ¬ h_i.contains s) (hd : 0 < ORCA.discriminant h_i R)
          (ht : ORCA.tightenAll h_i prev (ORCA.circleBounds h_i R) = .ok lr)
          (he : ORCA.intervalEmpty h_i lr.1 lr.2),
        ORCA.processHalfPlane H prev h_i vMax R s = .error .LinearProgramInfeasible) ∧
      -- ORCA.loop_cons_error
      (∀ (H : List HalfPlane) (vMax : Vector) (R : ℝ) (prev rest : List HalfPlane)
          (h_i : HalfPlane) (s : Point) (e : Err)
          (he : ORCA.processHalfPlane H prev h_i vMax R s = .error e),
        ORCA.loop H vMax R prev (h_i :: rest) s = .error e) ∧
      -- Vector.xAngle_pos_zero
      (∀ (a : ℝ) (ha : 0 < a),
        (⟨a, 0⟩ : Vector).xAngle = 0)) ∧
    -- Vector.xAngle_zero_neg
    ((∀ (b : ℝ) (hb : b < 0),
        (⟨0, b⟩ : Vector).xAngle = Real.pi / 2 + Real.pi) ∧
      -- Agent.orca_A_B_behind
      (∀ (A B : Agent) (TAU : ℝ) (k w : Vector)
          (hkdef : k = (A.velocity.sub B.velocity).sub (Vector.ofPoint ((B.position.sub
              A.position).sdiv TAU)))
          (hwdef : w = k.normalize ((A.radius + B.radius) * (Vector.ofPoint ((B.position.sub
              A.position).sdiv TAU)).norm / (Vector.ofPoint (B.position.sub A.position)).norm))
          (hdot : (A.velocity.sub B.velocity).dot (Vector.ofPoint (B.position.sub A.position)) ≤ 0)
          (hk : k.norm ≠ 0),
        A.orca_A_B B TAU
          = .ok (HalfPlane.new (Point.ofVector (A.velocity.add ((w.sub k).sdiv 2))) w)) ∧
      -- Vector.xAngle_neg_zero
      (∀ (a : ℝ) (ha : a < 0),
        (⟨a, 0⟩ : Vector).xAngle = Real.pi) ∧
      -- Vector.rotated_x_eq_zero
      (∀ (V : Vector) (ang : ℝ) (h : Real.cos (trueMod (V.xAngle + ang) (2 * Real.pi)) = 0),
        (V.rotated ang).x = 0) ∧
      -- Agent.orca_A_pair_first
      (∀ (A B : Agent) (TAU : ℝ) (hid : A.id ≠ B.id),
        A.orca_A [A, B] TAU =
          if (A.position.from B.position).norm ≤ 2 * A.maxSpeed then
            match A.orca_A_B B TAU with
            | .error e => .error e
            | .ok h => .ok [h]
          else .ok []) ∧
      -- Agent.orca_A_pair_second
      (∀ (A B : Agent) (TAU : ℝ) (hid : B.id ≠ A.id),
        B.orca_A [A, B] TAU =
          if (B.position.from A.position).norm ≤ 2 * B.maxSpeed then
            match B.orca_A_B A TAU with
            | .error e => .error e
            | .ok h => .ok [h]
          else .ok []) ∧
      -- ORCA.round_pair
      (∀ (shuffle : List HalfPlane → List HalfPlane) (A B : Agent) (TAU DELTA_T THRESHOLD : ℝ)
          (HA HB : List HalfPlane) (sA sB : Point) (hA : A.orca_A [A, B] TAU = .ok HA)
          (hB : B.orca_A [A, B] TAU = .ok HB) (hsA : A.solveLinearProgram shuffle HA = .ok sA)
          (hsB : B.solveLinearProgram shuffle HB = .ok sB),
        ORCA.round shuffle ⟨[A, B], TAU, DELTA_T, THRESHOLD⟩
          = .ok ⟨[(A.updateVelocity (Vector.ofPoint sA)).move DELTA_T,
              (B.updateVelocity (Vector.ofPoint sB)).move DELTA_T], TAU, DELTA_T, THRESHOLD⟩) ∧
      -- Vector.xAngle_neg_neg_one
      ((⟨-1, -1⟩ : Vector).xAngle = Real.pi / 4 + Real.pi) ∧
      -- Agent.orca_A_eq_spec
      (∀ (A : Agent) (TAU : ℝ) (agents : List Agent),
        A.orca_A agents TAU = A.orca_A_spec agents TAU) ∧
      -- ORCA.newVelocities_ok
      (∀ (shuffle : List HalfPlane → List HalfPlane) (agents : List Agent) (TAU : ℝ),
        ∀ (todo : List Agent) (vs : List Vector),
          ORCA.newVelocities shuffle agents TAU todo = .ok vs →
          List.Forall₂ (fun agent v => ∃ (halfPlanes : List HalfPlane) (p : Point),
            agent.orca_A agents TAU = .ok halfPlanes ∧
            ORCA.solveLinearProgram shuffle halfPlanes agent.prefVelocity agent.maxSpeed = .ok p ∧
            v = Vector.ofPoint p) todo vs)) ∧
    -- ORCA.iteration_pair
    ((∀ (shuffle : List HalfPlane → List HalfPlane) (A B : Agent) (TAU DELTA_T THRESHOLD : ℝ)
          (HA HB : List HalfPlane) (sA sB : Point) (hA : A.orca_A [A, B] TAU = .ok HA)
          (hB : B.orca_A [A, B] TAU = .ok HB) (hsA : A.solveLinearProgram shuffle HA = .ok sA)
          (hsB : B.solveLinearProgram shuffle HB = .ok sB),
        ORCA.iteration shuffle ⟨[A, B], TAU, DELTA_T, THRESHOLD⟩
          = .ok ⟨[A.updateVelocity (Vector.ofPoint sA), B.updateVelocity (Vector.ofPoint sB)],
              TAU, DELTA_T, THRESHOLD⟩) ∧
      -- Line.invariant_ofAngle
      (∀ (X_ANGLE : ℝ),
        (Line.ofAngle X_ANGLE).Invariant) ∧
      -- Vector.ofAngle_of_mem
      (∀ (t : ℝ) (h0 : 0 ≤ t) (h1 : t < 2 * Real.pi),
        Vector.ofAngle t = ⟨Real.cos t, Real.sin t⟩) ∧
      -- Vector.xAngle_cos_sin
      (∀ (t : ℝ) (h0 : 0 ≤ t) (h1 : t < 2 * Real.pi),
        (⟨Real.cos t, Real.sin t⟩ : Vector).xAngle = t) ∧
      -- ORCA.loop_cons_stop
      (∀ (H : List HalfPlane) (vMax : Vector) (R : ℝ) (prev rest : List HalfPlane)
          (h_i : HalfPlane) (s s1 : Point)
          (hp : ORCA.processHalfPlane H prev h_i vMax R s = .ok (.stop s1)),
        ORCA.loop H vMax R prev (h_i :: rest) s = .ok s1) ∧
      -- ORCA.processHalfPlane_tangent
      (∀ (H prev : List HalfPlane) (h_i : HalfPlane) (vMax : Vector) (R : ℝ) (s T : Point)
          (hR : 0 < R) (hc : ¬ h_i.contains s) (ho : ¬ h_i.contains Point.origin)
          (hT : h_i.boundingLine.passesThrough T) (hTc : T.x ^ 2 + T.y ^ 2 = R ^ 2)
          (htan : ∀ P : Point, h_i.boundingLine.passesThrough P → P.x ^ 2 + P.y ^ 2 = R ^ 2 → P = T),
        ORCA.processHalfPlane H prev h_i vMax R s
          = if ∀ h ∈ H, h.contains T then .ok (.stop T) else .error .LinearProgramInfeasible) ∧
      -- ORCA.processHalfPlane_parallel_infeasible
      (∀ (H : List HalfPlane) (h_i h : HalfPlane) (vMax : Vector) (R : ℝ) (s : Point)
          (hc : ¬ h_i.contains s) (hd : 0 < ORCA.discriminant h_i R)
          (hpar : h_i.boundingLine.parallel h.boundingLine) (hdot : ¬ h_i.normal.dot h.normal > 0)
          (hn : ¬ h_i.contains h.normalPosition),
        ORCA.processHalfPlane H [h] h_i vMax R s = .error .LinearProgramInfeasible) ∧
      -- trueMod_two_pi_cos
      (∀ (a : ℝ),
        Real.cos (trueMod a (2 * Real.pi)) = Real.cos a) ∧
      -- trueMod_two_pi_sin
      (∀ (a : ℝ),
        Real.sin (trueMod a (2 * Real.pi)) = Real.sin a) ∧
      -- Agent.orca_A_B_of_closest
      (∀ (A B : Agent) (TAU : ℝ) (dv : Vector) (c : Point) (r : ℝ) (lp rp : Vector)
          (hdv : A.velocity.sub B.velocity = dv) (hc : B.position.sub A.position = c)
          (hr : A.radius + B.radius = r)
          (hlp : dv.projectionOnto ((Vector.ofPoint c).rotated (Real.arcsin (r / (Vector.ofPoint
              c).norm))) = lp)
          (hrp : dv.projectionOnto ((Vector.ofPoint c).rotated (-Real.arcsin (r / (Vector.ofPoint
              c).norm))) = rp),
        A.orca_A_B B TAU =
          match Agent.closestCircleCenter dv c lp rp TAU with
          | .error e => .error e
          | .ok cc =>
            .ok (HalfPlane.new
              (Point.ofVector (A.velocity.add
                (((if (dv.sub (Vector.ofPoint cc)).norm = 0 then rp.sub dv
                    else (dv.sub (Vector.ofPoint cc)).normalize
                      (r * (Vector.ofPoint cc).norm / (Vector.ofPoint c).norm)).sub
                  (dv.sub (Vector.ofPoint cc))).sdiv 2)))
              (if (dv.sub (Vector.ofPoint cc)).norm = 0 then rp.sub dv
                else (dv.sub (Vector.ofPoint cc)).normalize
                  (r * (Vector.ofPoint cc).norm / (Vector.ofPoint c).norm))))) ∧
    -- ORCA.computeLoop_eq
    (∀ (shuffle : List HalfPlane → List HalfPlane) (S : ORCA),
      ∀ (todo : List Agent) (acc : List Vector),
        ORCA.computeLoop shuffle todo acc S
          = (match ORCA.newVelocities shuffle S.agents S.tau todo with
              | .error e => .error e
              | .ok vs => .ok (acc ++ vs), S)) ∧
    -- ORCA.processHalfPlane_vertical_first_pos
    ((∀ (H : List HalfPlane) (p : Point) (n vMax : Vector) (R l : ℝ) (s : Point) (hy : n.y = 0)
          (hx : 0 < n.x) (hs : s.x < p.x) (hc : |p.x| < R) (hl : Real.sqrt (R ^ 2 - p.x ^ 2) = l),
        ORCA.processHalfPlane H [] (HalfPlane.new p n) vMax R s =
          .ok (.next (if l ≤ p.x then ⟨p.x, l⟩ else if p.x ≤ -l then ⟨p.x, -l⟩
            else ⟨p.x, vMax.y⟩))) ∧
      -- ORCA.processHalfPlane_vertical_first_neg
      (∀ (H : List HalfPlane) (p : Point) (n vMax : Vector) (R l : ℝ) (s : Point) (hy : n.y = 0)
          (hx : n.x < 0) (hs : p.x < s.x) (hc : |p.x| < R) (hl : Real.sqrt (R ^ 2 - p.x ^ 2) = l),
        ORCA.processHalfPlane H [] (HalfPlane.new p n) vMax R s =
          .ok (.next (if p.x < -l then ⟨p.x, -l⟩ else if l < p.x then ⟨p.x, l⟩
            else ⟨p.x, vMax.y⟩))) ∧
      -- Vector.cos_rotated_quarter
      (∀ (d : ℝ) (hd : d ≠ 0),
        Real.cos (trueMod ((⟨d, 0⟩ : Vector).xAngle + Real.pi / 2) (2 * Real.pi)) = 0 ∧
          Real.cos (trueMod ((⟨d, 0⟩ : Vector).xAngle + -(Real.pi / 2)) (2 * Real.pi)) = 0) ∧
      -- scenario1_round_far
      (∀ (shuffle : List HalfPlane → List HalfPlane) (hs : IsShuffle shuffle) (x : ℝ) (hx : 1 < x)
          (vA vB : Vector),
        ORCA.round shuffle (scenario1State x vA vB)
          = .ok (scenario1State (x - 1 / 10) ⟨-1, 0⟩ ⟨1, 0⟩)) ∧
      -- ORCA.solveShuffled_violates_halfPlane_swapped
      (ORCA.solveShuffled [HalfPlane.new ⟨15, 0⟩ ⟨-1, -1⟩, HalfPlane.new ⟨6, 0⟩ ⟨1, 0⟩]
        ⟨0, 10⟩ 10 = .ok ⟨6, 10⟩) ∧
      -- scenario1_iteration_far
      (∀ (shuffle : List HalfPlane → List HalfPlane) (hs : IsShuffle shuffle) (x : ℝ) (hx : 1 < x)
          (vA vB : Vector),
        ORCA.iteration shuffle (scenario1State x vA vB)
          = .ok (scenario1State x ⟨-1, 0⟩ ⟨1, 0⟩)) ∧
      -- ORCA.processHalfPlane_slanted_first
      (∀ (H : List HalfPlane) (h : HalfPlane) (vMax : Vector) (R x1 x2 : ℝ) (sol : Point)
          (hnv : ¬ h.boundingLine.isVertical) (hlt : x1 < x2)
          (h1 : x1 ^ 2 + (h.boundingLine.slope.toReal * x1 + h.boundingLine.yIntercept) ^ 2 = R ^ 2)
          (h2 : x2 ^ 2 + (h.boundingLine.slope.toReal * x2 + h.boundingLine.yIntercept) ^ 2 = R ^ 2)
          (hc : ¬ h.contains sol),
        ORCA.processHalfPlane H [] h vMax R sol
          = .ok (.next ⟨max x1 (min ((Point.ofVector vMax).projectionOnto h.boundingLine).x x2),
              h.boundingLine.slope.toReal
                  * max x1 (min ((Point.ofVector vMax).projectionOnto h.boundingLine).x x2)
                + h.boundingLine.yIntercept⟩)) ∧
      -- ORCA.loop_skip_contained
      (∀ (H : List HalfPlane) (vMax : Vector) (R : ℝ) (s : Point) (rest : List HalfPlane),
        ∀ (pre prev : List HalfPlane), (∀ h ∈ pre, h.contains s) →
          ORCA.loop H vMax R prev (pre ++ rest) s = ORCA.loop H vMax R (prev ++ pre) rest s) ∧
      -- ORCA.processHalfPlane_first_on_line
      (∀ (H : List HalfPlane) (h : HalfPlane) (vMax : Vector) (R : ℝ) (s : Point)
          (hc : ¬ h.contains s) (hd : 0 < ORCA.discriminant h R),
        ORCA.processHalfPlane H [] h vMax R s = .error .LinearProgramInfeasible ∨
          ∃ s1, ORCA.processHalfPlane H [] h vMax R s = .ok (.next s1) ∧
            h.boundingLine.passesThrough s1) ∧
      -- Vector.cos_sin_xAngle
      (∀ (V : Vector) (h : V.norm ≠ 0),
        Real.cos V.xAngle = V.x / V.norm ∧ Real.sin V.xAngle = V.y / V.norm)) ∧
    -- ORCA.newVelocities_length
    (∀ (shuffle : List HalfPlane → List HalfPlane) (agents : List Agent) (TAU : ℝ)
        (todo : List Agent) (vs : List Vector)
        (h : ORCA.newVelocities shuffle agents TAU todo = .ok vs),
      vs.length = todo.length) ∧
    -- Agent.orca_A_B_touching
    ((∀ (idA idB : ℤ) (dA dB : Point) (prA prB : Vector) (a b eA eB rA rB mA mB TAU : ℝ)
          (hd : b - a ≠ 0) (hr : rA + rB = |b - a|) (happ : 0 < (eA - eB) * (b - a))
          (hfar : |(b - a) / TAU| < |eA - eB|),
        Agent.orca_A_B ⟨idA, ⟨a, 0⟩, dA, ⟨eA, 0⟩, prA, rA, mA⟩
            ⟨idB, ⟨b, 0⟩, dB, ⟨eB, 0⟩, prB, rB, mB⟩ TAU
          = .ok (HalfPlane.new ⟨eA - (eA - eB) / 2, 0⟩ ⟨-(eA - eB), 0⟩)) ∧
      -- scenario1_lpA
      (∀ (shuffle : List HalfPlane → List HalfPlane) (hs : IsShuffle shuffle) (c : ℝ) (hc : 0 < c),
        ORCA.solveLinearProgram shuffle [HalfPlane.new ⟨0, 0⟩ ⟨c, 0⟩] ⟨-1, 0⟩ 1 = .ok ⟨0, 0⟩) ∧
      -- scenario1_lpB
      (∀ (shuffle : List HalfPlane → List HalfPlane) (hs : IsShuffle shuffle) (c : ℝ) (hc : c < 0),
        ORCA.solveLinearProgram shuffle [HalfPlane.new ⟨0, 0⟩ ⟨c, 0⟩] ⟨1, 0⟩ 1 = .ok ⟨0, 0⟩) ∧
      -- ORCA.solveShuffled_antiparallel
      (∀ (p1 p2 : Point) (n1 n2 vPref : Vector) (R : ℝ)
          (hd1 : 0 < ORCA.discriminant (HalfPlane.new p1 n1) R)
          (hd2 : 0 < ORCA.discriminant (HalfPlane.new p2 n2) R)
          (hpar : (HalfPlane.new p2 n2).boundingLine.parallel (HalfPlane.new p1 n1).boundingLine)
          (hdot : (HalfPlane.new p2 n2).normal.dot (HalfPlane.new p1 n1).normal < 0)
          (hdisj : ∀ P : Point, ¬ ((HalfPlane.new p1 n1).contains P ∧ (HalfPlane.new p2
              n2).contains P)),
        ORCA.solveShuffled [HalfPlane.new p1 n1, HalfPlane.new p2 n2] vPref R
          = .error .LinearProgramInfeasible) ∧
      -- ORCA.solveShuffled_vertical_first
      (ORCA.solveShuffled [HalfPlane.new ⟨15, 0⟩ ⟨1, 0⟩, HalfPlane.new ⟨0, 24⟩ ⟨0, -1⟩] ⟨0, 25⟩ 25
        = .error .LinearProgramInfeasible) ∧
      -- ORCA.solveShuffled_horizontal_first
      (ORCA.solveShuffled [HalfPlane.new ⟨0, 24⟩ ⟨0, -1⟩, HalfPlane.new ⟨15, 0⟩ ⟨1, 0⟩] ⟨0, 25⟩ 25
        = .ok ⟨15, 25⟩) ∧
      -- Vector.rotated_eq
      (∀ (V : Vector) (ang : ℝ),
        V.rotated ang = ⟨V.x * Real.cos ang - V.y * Real.sin ang,
          V.x * Real.sin ang + V.y * Real.cos ang⟩) ∧
      -- ORCA.iterationRun_eq
      (∀ (shuffle : List HalfPlane → List HalfPlane) (S : ORCA),
        ORCA.iterationRun shuffle S
          = match ORCA.iteration shuffle S with
            | .error e => (.error e, S)
            | .ok S1 => (.ok (), S1))) ∧
    -- scenario1_round_touching
    ((∀ (shuffle : List HalfPlane → List HalfPlane) (hs : IsShuffle shuffle),
        ORCA.round shuffle (scenario1State 1 ⟨-1, 0⟩ ⟨1, 0⟩)
          = .ok (scenario1State 1 ⟨0, 0⟩ ⟨0, 0⟩)) ∧
      -- scenario1_round_frozen
      (∀ (shuffle : List HalfPlane → List HalfPlane) (hs : IsShuffle shuffle),
        ORCA.round shuffle (scenario1State 1 ⟨0, 0⟩ ⟨0, 0⟩)
          = .ok (scenario1State 1 ⟨0, 0⟩ ⟨0, 0⟩)) ∧
      -- Vector.rotated_neg
      (∀ (V : Vector) (ang : ℝ),
        V.neg.rotated ang = (V.rotated ang).neg) ∧
      -- Vector.rotated_dot_self
      (∀ (V : Vector) (ang : ℝ),
        (V.rotated ang).dot (V.rotated ang) = V.dot V) ∧
      -- Agent.orca_A_B_touching_oblique
      (Agent.orca_A_B ⟨0, ⟨0, 0⟩, ⟨10, 0⟩, ⟨1, 1⟩, ⟨1, 0⟩, 1, 1⟩
        ⟨1, ⟨2, 0⟩, ⟨-10, 0⟩, ⟨0, 0⟩, ⟨-1, 0⟩, 1, 1⟩ 2 = .error .LinesParallel)) ∧
    -- scenario1_rounds
    ((∀ (shuffle : List HalfPlane → List HalfPlane) (hs : IsShuffle shuffle) (n : ℕ),
        ORCA.rounds shuffle n scenario1 = .ok
          (if n = 0 then scenario1State 10 ⟨0, 0⟩ ⟨0, 0⟩
            else if n ≤ 90 then scenario1State (10 - (n : ℝ) / 10) ⟨-1, 0⟩ ⟨1, 0⟩
            else scenario1State 1 ⟨0, 0⟩ ⟨0, 0⟩)) ∧
      -- Vector.norm_rotated
      (∀ (V : Vector) (ang : ℝ),
        (V.rotated ang).norm = V.norm)) ∧
    -- scenario1_rounds_form
    ((∀ (shuffle : List HalfPlane → List HalfPlane) (hs : IsShuffle shuffle) (n : ℕ),
        ∃ (x : ℝ) (vA vB : Vector), 1 ≤ x ∧
          ORCA.rounds shuffle n scenario1 = .ok (scenario1State x vA vB)) ∧
      -- Agent.centerToBorder_ne_zero
      (∀ (dv : Vector) (c cc : Point) (r TAU : ℝ) (hr : 0 < r) (hN : r < (Vector.ofPoint c).norm)
          (hτ : 0 < TAU)
          (hcc : cc = c.sdiv TAU ∨ (Vector.ofPoint cc).norm > (Vector.ofPoint (c.sdiv TAU)).norm)
          (hcross : cc.x * c.y - cc.y * c.x = 0),
        (if (dv.sub (Vector.ofPoint cc)).norm = 0 then
            (dv.projectionOnto
              ((Vector.ofPoint c).rotated (-Real.arcsin (r / (Vector.ofPoint c).norm)))).sub dv
          else (dv.sub (Vector.ofPoint cc)).normalize
            (r * (Vector.ofPoint cc).norm / (Vector.ofPoint c).norm)).norm ≠ 0)) := by
  refine (fun (h : _) (k : _ → _) => And.intro h (k h)) ?_ (fun part1 => ?_)
  · refine ⟨?_, ?_, ?_, ?_, ?_, ?_, ?_, ?_, ?_, ?_⟩
    -- ORCA.loop_of_all_contain
    · intro H vMax R s
      intro rest
      induction rest with
      | nil => intro prev _; rfl
      | cons h_i rest ih =>
        intro prev hc
        have h1 : h_i.contains s := hc h_i (List.mem_cons_self _ _)
        have h2 : ORCA.processHalfPlane H prev h_i vMax R s = .ok (.next s) := by
          unfold ORCA.processHalfPlane
          rw [if_pos h1]
        rw [solver_unfold.1.2.2.2.2.1]
        rw [h2]
        exact ih (prev ++ [h_i]) (fun h hh => hc h (List.mem_cons_of_mem _ hh))
    -- ORCA.loop_singleton_error
    · intro H vMax R prev h_i s e he
      rw [solver_unfold.1.2.2.2.2.1]
      rw [he]
    -- ORCA.processHalfPlane_miss
    · intro H prev h_i vMax R s hc hd ho
      unfold ORCA.processHalfPlane
      rw [if_neg hc]
      dsimp only
      rw [if_pos hd, if_neg ho]
    -- ORCA.processHalfPlane_cut
    · intro H prev h_i vMax R s s1 lr hc hd ht he hp
      unfold ORCA.processHalfPlane
      rw [if_neg hc]
      dsimp only
      rw [if_neg (not_lt.mpr hd.le), if_neg (ne_of_gt hd), ht]
      dsimp only
      rw [if_neg he, hp]
    -- ORCA.loop_singleton_next
    · intro H vMax R prev h_i s s1 hp
      rw [solver_unfold.1.2.2.2.2.1]
      rw [hp]
      rfl
    -- ORCA.processHalfPlane_skip_miss
    · intro H prev h_i vMax R s hd ho
      unfold ORCA.processHalfPlane
      by_cases hc : h_i.contains s
      · rw [if_pos hc]
      · rw [if_neg hc]
        dsimp only
        rw [if_pos hd, if_pos ho]
    -- ORCA.loop_cons_next
    · intro H vMax R prev rest h_i s s1 hp
      rw [solver_unfold.1.2.2.2.2.1]
      rw [hp]
    -- ORCA.processHalfPlane_empty
    · intro H prev h_i vMax R s lr hc hd ht he
      unfold ORCA.processHalfPlane
      rw [if_neg hc]
      dsimp only
      rw [if_neg (not_lt.mpr hd.le), if_neg (ne_of_gt hd), ht]
      dsimp only
      rw [if_pos he]
    -- ORCA.loop_cons_error
    · intro H vMax R prev rest h_i s e he
      rw [solver_unfold.1.2.2.2.2.1]
      rw [he]
    -- Vector.xAngle_pos_zero
    · intro a ha
      have hn : ¬ (⟨a, 0⟩ : Vector).norm = 0 := by
        rw [norm_facts.2.2.2.2.1.2.1]; simp [ha.ne']
      unfold Vector.xAngle
      rw [if_neg hn, if_neg ha.ne', if_neg (not_lt.mpr ha.le)]
      simp only [zero_div, Real.arctan_zero, add_zero]
      exact norm_facts.1.2.2.2.2.1 le_rfl (by positivity)
  refine (fun (h : _) (k : _ → _) => And.intro h (k h)) ?_ (fun part2 => ?_)
  · refine ⟨?_, ?_, ?_, ?_, ?_, ?_, ?_, ?_, ?_, ?_⟩
    -- Vector.xAngle_zero_neg
    · intro b hb
      have hn : ¬ (⟨0, b⟩ : Vector).norm = 0 := by
        rw [norm_facts.2.2.2.2.1.2.1]; simp [hb.ne]
      unfold Vector.xAngle
      rw [if_neg hn, if_pos rfl, if_pos hb]
    -- Agent.orca_A_B_behind
    · intro A B TAU k w hkdef hwdef hdot hk
      subst hwdef
      subst hkdef
      unfold Agent.orca_A_B
      dsimp only
      rw [if_neg (not_lt.mpr hdot)]
      dsimp only
      rw [if_neg hk]
    -- Vector.xAngle_neg_zero
    · intro a ha
      have hn : ¬ (⟨a, 0⟩ : Vector).norm = 0 := by
        rw [norm_facts.2.2.2.2.1.2.1]; simp [ha.ne]
      unfold Vector.xAngle
      rw [if_neg hn, if_neg ha.ne, if_pos ha]
      simp only [zero_div, Real.arctan_zero, zero_add]
      exact norm_facts.1.2.2.2.2.1 Real.pi_pos.le (by linarith [Real.pi_pos])
    -- Vector.rotated_x_eq_zero
    · intro V ang h
      unfold Vector.rotated Vector.normalize Vector.ofAngle
      simp only
      split_ifs
      · simp only [h, zero_mul]
      · exact h
    -- Agent.orca_A_pair_first
    · intro A B TAU hid
      rw [solver_unfold.2.1.1, if_neg (fun h => h.1 rfl), solver_unfold.2.1.1,
          solver_unfold.1.2.2.2.2.2.2.2]
      dsimp only
      by_cases hX : (A.position.from B.position).norm ≤ 2 * A.maxSpeed
      · rw [if_pos ⟨hid, hX⟩, if_pos hX]
      · rw [if_neg (fun h => hX h.2), if_neg hX]
    -- Agent.orca_A_pair_second
    · intro A B TAU hid
      rw [solver_unfold.2.1.1]
      by_cases hX : (B.position.from A.position).norm ≤ 2 * B.maxSpeed
      · rw [if_pos ⟨hid, hX⟩, if_pos hX, solver_unfold.2.1.1, if_neg (fun h => h.1 rfl),
          solver_unfold.1.2.2.2.2.2.2.2]
      · rw [if_neg (fun h => hX h.2), if_neg hX, solver_unfold.2.1.1, if_neg (fun h => h.1 rfl),
          solver_unfold.1.2.2.2.2.2.2.2]
    -- ORCA.round_pair
    · intro shuffle A B TAU DELTA_T THRESHOLD HA HB sA sB hA hB hsA hsB
      simp only [solver_unfold.2.1.2.2.2.2.1, solver_unfold.2.1.2.2.2.1, solver_unfold.2.1.2.1,
          solver_unfold.2.1.2.2.1, hA, hB, hsA, hsB, List.zipWith,
        norm_unfold.1.2.2.2.2.1, List.map]
    -- Vector.xAngle_neg_neg_one
    · have hn : ¬ (⟨-1, -1⟩ : Vector).norm = 0 := by
        rw [norm_facts.2.2.2.2.1.2.1]; norm_num
      unfold Vector.xAngle
      rw [if_neg hn, if_neg (by norm_num), if_pos (by norm_num)]
      rw [show (-1 : ℝ) / -1 = 1 by norm_num, Real.arctan_one]
      exact norm_facts.1.2.2.2.2.1 (by positivity) (by linarith [Real.pi_pos])
    -- Agent.orca_A_eq_spec
    · intro A TAU agents
      induction agents with
      | nil => rfl
      | cons B agents ih =>
        rw [solver_unfold.2.1.1]; unfold Agent.orca_A_spec
        by_cases h : A.id ≠ B.id ∧ (A.position.from B.position).norm ≤ 2 * A.maxSpeed
        · rw [if_pos h, List.filter_cons_of_pos (by simpa using h), List.map_cons]
          rw [geometry_unfold.2.2.2.2.2.1]
          rw [ih]
          rfl
        · rw [if_neg h, List.filter_cons_of_neg (by simpa using h), ih]
          rfl
    -- ORCA.newVelocities_ok
    · intro shuffle agents TAU
      intro todo
      induction todo with
      | nil =>
        intro vs h
        rw [solver_unfold.2.1.2.1] at h
        injection h with h
        rw [← h]
        exact List.Forall₂.nil
      | cons agent todo ih =>
        intro vs h
        rw [solver_unfold.2.1.2.2.1] at h
        cases h1 : agent.orca_A agents TAU with
        | error e => rw [h1] at h; cases h
        | ok halfPlanes =>
          rw [h1] at h
          dsimp only at h
          cases h2 : agent.solveLinearProgram shuffle halfPlanes with
          | error e => rw [h2] at h; cases h
          | ok p =>
            rw [h2] at h
            dsimp only at h
            cases h3 : ORCA.newVelocities shuffle agents TAU todo with
            | error e => rw [h3] at h; cases h
            | ok vs0 =>
              rw [h3] at h
              injection h with h
              rw [← h]
              exact List.Forall₂.cons ⟨halfPlanes, p, h1, h2, rfl⟩ (ih vs0 h3)
  refine (fun (h : _) (k : _ → _) => And.intro h (k h)) ?_ (fun part3 => ?_)
  · refine ⟨?_, ?_, ?_, ?_, ?_, ?_, ?_, ?_, ?_, ?_⟩
    -- ORCA.iteration_pair
    · intro shuffle A B TAU DELTA_T THRESHOLD HA HB sA sB hA hB hsA hsB
      simp only [solver_unfold.2.1.2.2.2.1, solver_unfold.2.1.2.1, solver_unfold.2.1.2.2.1, hA, hB,
          hsA, hsB, List.zipWith]
    -- Line.invariant_ofAngle
    · intro X_ANGLE
      unfold Line.ofAngle
      simp only
      split_ifs with h
      · exact geometry_facts.1.2.2.2.2.2.2.2.2.2 _
      · refine ⟨EReal.coe_ne_bot _, fun _ => rfl, fun _ => rfl, fun _ _ => ?_⟩
        simp
    -- Vector.ofAngle_of_mem
    · intro t h0 h1
      unfold Vector.ofAngle
      simp only [norm_facts.1.2.2.2.2.1 h0 h1]
    -- Vector.xAngle_cos_sin
    · intro t h0 h1
      have hpi := Real.pi_pos
      have hn : ¬ (⟨Real.cos t, Real.sin t⟩ : Vector).norm = 0 := by
        rw [norm_facts.2.2.2.2.1.2.2.2.2.2.2.2.2.2]; norm_num
      unfold Vector.xAngle
      rw [if_neg hn]
      simp only
      rcases lt_trichotomy t (Real.pi / 2) with hlt | heq | hgt
      · have hc : 0 < Real.cos t := Real.cos_pos_of_mem_Ioo ⟨by linarith, hlt⟩
        rw [if_neg hc.ne', if_neg (not_lt.mpr hc.le), add_zero, ← Real.tan_eq_sin_div_cos,
          Real.arctan_tan (by linarith) hlt]
        exact norm_facts.1.2.2.2.2.1 h0 h1
      · rw [heq, Real.cos_pi_div_two, Real.sin_pi_div_two, if_pos rfl, if_neg (by norm_num),
          add_zero]
      · rcases lt_trichotomy t (Real.pi + Real.pi / 2) with hlt2 | heq2 | hgt2
        · have hc : Real.cos t < 0 := Real.cos_neg_of_pi_div_two_lt_of_lt hgt hlt2
          rw [if_neg hc.ne, if_pos hc, ← Real.tan_eq_sin_div_cos, ← Real.tan_sub_pi,
            Real.arctan_tan (by linarith) (by linarith), sub_add_cancel]
          exact norm_facts.1.2.2.2.2.1 h0 h1
        · have hcos : Real.cos t = 0 := by
            rw [heq2, Real.cos_add, Real.cos_pi_div_two, Real.sin_pi_div_two, Real.sin_pi]
            ring
          have hsin : Real.sin t = -1 := by
            rw [heq2, Real.sin_add, Real.cos_pi_div_two, Real.sin_pi_div_two, Real.cos_pi]
            ring
          rw [hcos, hsin, if_pos rfl, if_pos (by norm_num), heq2]
          ring
        · have hc : 0 < Real.cos t := by
            rw [← Real.cos_sub_two_pi]
            exact Real.cos_pos_of_mem_Ioo ⟨by linarith, by linarith⟩
          have htan : Real.tan t = Real.tan (t - 2 * Real.pi) := by
            rw [show t - 2 * Real.pi = t - Real.pi - Real.pi by ring, Real.tan_sub_pi,
              Real.tan_sub_pi]
          rw [if_neg hc.ne', if_neg (not_lt.mpr hc.le), add_zero, ← Real.tan_eq_sin_div_cos, htan,
            Real.arctan_tan (by linarith) (by linarith),
            norm_facts.2.1.2.2.2.1 (by linarith) (by linarith)]
          ring
    -- ORCA.loop_cons_stop
    · intro H vMax R prev rest h_i s s1 hp
      rw [solver_unfold.1.2.2.2.2.1]
      rw [hp]
    -- ORCA.processHalfPlane_tangent
    · intro H prev h_i vMax R s T hR hc ho hT hTc htan
      obtain ⟨hd, ht⟩ := norm_facts.2.2.2.2.2.1.2.1 H h_i R T hR hT hTc htan
      have hdot : ¬ h_i.normal.dot (h_i.normalPosition.from Point.origin) < 0 := by
        intro h
        apply ho
        simp only [geometry_unfold.2.2.2.1.1, geometry_unfold.1.2.2.2.2.2.2.2,
            geometry_unfold.1.2.2.2.2.2.1, geometry_unfold.1.2.1, geometry_unfold.2.1.2.2.1,
          geometry_unfold.1.2.2.2.1] at h ⊢
        nlinarith
      unfold ORCA.processHalfPlane
      rw [if_neg hc]
      dsimp only
      rw [hd, if_neg (lt_irrefl 0), if_pos rfl, if_neg hdot, ht]
      by_cases hH : ∀ h ∈ H, h.contains T
      · rw [if_pos hH, if_pos hH]
      · rw [if_neg hH, if_neg hH]
    -- ORCA.processHalfPlane_parallel_infeasible
    · intro H h_i h vMax R s hc hd hpar hdot hn
      have ht : ORCA.tightenAll h_i [h] (ORCA.circleBounds h_i R)
          = .error .LinearProgramInfeasible := by
        rw [solver_unfold.1.2.2.1, solver_unfold.1.1, if_pos hpar, if_neg (not_or.mpr ⟨hdot, hn⟩)]
      unfold ORCA.processHalfPlane
      rw [if_neg hc]
      dsimp only
      rw [if_neg (not_lt.mpr hd.le), if_neg hd.ne', ht]
    -- trueMod_two_pi_cos
    · intro a
      obtain ⟨k, hk⟩ := geometry_facts.2.2.1.1 a (2 * Real.pi)
      rw [hk, Real.cos_sub_int_mul_two_pi]
    -- trueMod_two_pi_sin
    · intro a
      obtain ⟨k, hk⟩ := geometry_facts.2.2.1.1 a (2 * Real.pi)
      rw [hk, Real.sin_sub_int_mul_two_pi]
    -- Agent.orca_A_B_of_closest
    · intro A B TAU dv c r lp rp hdv hc hr hlp hrp
      subst hdv hc hr hlp hrp
      rfl
  refine (fun (h : _) (k : _ → _) => And.intro h (k h)) ?_ (fun part4 => ?_)
  · -- ORCA.computeLoop_eq
    intro shuffle S
    intro todo
    induction todo with
    | nil =>
      intro acc
      rw [solver_unfold.2.1.2.2.2.2.2.2.2, solver_unfold.2.1.2.1]
      dsimp only
      rw [List.append_nil]
    | cons agent todo ih =>
      intro acc
      rw [solver_unfold.2.2, solver_unfold.2.1.2.2.1]
      cases h1 : agent.orca_A S.agents S.tau with
      | error e => rfl
      | ok halfPlanes =>
        dsimp only
        cases h2 : agent.solveLinearProgram shuffle halfPlanes with
        | error e => rfl
        | ok v =>
          dsimp only
          rw [ih]
          cases ORCA.newVelocities shuffle S.agents S.tau todo with
          | error e => rfl
          | ok vs =>
            dsimp only
            rw [List.append_assoc]
            rfl
  refine (fun (h : _) (k : _ → _) => And.intro h (k h)) ?_ (fun part5 => ?_)
  · refine ⟨?_, ?_, ?_, ?_, ?_, ?_, ?_, ?_, ?_, ?_⟩
    -- ORCA.processHalfPlane_vertical_first_pos
    · intro H p n vMax R l s hy hx hs hc hl
      have hl0 : 0 ≤ l := hl ▸ Real.sqrt_nonneg _
      rw [norm_facts.2.2.2.2.2.2.1.1 p n hy hx.ne']
      refine part1.2.2.2.1 _ _ _ _ _ _ _ (l, -l) ?_ ?_ ?_ ?_ ?_
      · simp only [geometry_unfold.2.2.2.1.1, geometry_unfold.1.2.2.2.2.2.2.2,
          geometry_unfold.1.2.2.2.2.2.1, geometry_unfold.1.2.1, geometry_unfold.2.1.2.2.1, hy,
          mul_zero, add_zero, ge_iff_le, not_le]
        nlinarith
      · rw [geometry_facts.1.2.2.2.1 _ _ rfl hc]; norm_num
      · rw [norm_facts.1.2.2.2.2.2.1 _ _ rfl]
        simp only [hl, if_neg (not_lt.mpr hx.le), solver_unfold.1.2.1, solver_unfold.1.2.2.1]
      · rw [geometry_facts.1.2.2.2.2.2.1 _ _ _ rfl]
        simp only [not_or, not_and, not_lt]
        exact ⟨fun _ => by linarith, fun h => absurd h (not_lt.mpr hx.le)⟩
      · rw [geometry_facts.1.2.2.2.2.1 _ _ _ _ rfl]
        simp only [not_lt.mpr hx.le, false_iff, not_lt, gt_iff_lt]
        split_ifs <;> rfl
    -- ORCA.processHalfPlane_vertical_first_neg
    · intro H p n vMax R l s hy hx hs hc hl
      have hl0 : 0 ≤ l := hl ▸ Real.sqrt_nonneg _
      rw [norm_facts.2.2.2.2.2.2.1.1 p n hy hx.ne]
      refine part1.2.2.2.1 _ _ _ _ _ _ _ (-l, l) ?_ ?_ ?_ ?_ ?_
      · simp only [geometry_unfold.2.2.2.1.1, geometry_unfold.1.2.2.2.2.2.2.2,
          geometry_unfold.1.2.2.2.2.2.1, geometry_unfold.1.2.1, geometry_unfold.2.1.2.2.1, hy,
          mul_zero, add_zero, ge_iff_le, not_le]
        nlinarith
      · rw [geometry_facts.1.2.2.2.1 _ _ rfl hc]; norm_num
      · rw [norm_facts.1.2.2.2.2.2.1 _ _ rfl]
        simp only [hl, if_pos hx, solver_unfold.1.2.1, solver_unfold.1.2.2.1]
      · rw [geometry_facts.1.2.2.2.2.2.1 _ _ _ rfl]
        simp only [not_or, not_and, not_lt]
        exact ⟨fun h => absurd hx (not_lt.mpr h.le), fun _ => by linarith⟩
      · rw [geometry_facts.1.2.2.2.2.1 _ _ _ _ rfl]
        simp only [hx, true_iff, gt_iff_lt]
        split_ifs <;> rfl
    -- Vector.cos_rotated_quarter
    · intro d hd
      have hpi := Real.pi_pos
      rcases lt_or_gt_of_ne hd with hneg | hpos
      · rw [part2.2.2.1 d hneg]
        rw [norm_facts.1.2.2.2.2.1 (by linarith) (by linarith),
          norm_facts.1.2.2.2.2.1 (by linarith) (by linarith)]
        constructor
        · rw [Real.cos_add]; simp
        · rw [show Real.pi + -(Real.pi / 2) = Real.pi / 2 by ring]; exact Real.cos_pi_div_two
      · rw [part1.2.2.2.2.2.2.2.2.2 d hpos]
        rw [norm_facts.1.2.2.2.2.1 (by linarith) (by linarith),
          norm_facts.2.1.2.2.2.1 (by linarith) (by linarith)]
        constructor
        · rw [zero_add]; exact Real.cos_pi_div_two
        · rw [Real.cos_add_two_pi, zero_add, Real.cos_neg]; exact Real.cos_pi_div_two
    -- scenario1_round_far
    · intro shuffle hs x hx vA vB
      have hAB : ¬ (((⟨x, 0⟩ : Point).from ⟨-x, 0⟩).norm ≤ 2 * 1) := by
        simp only [geometry_unfold.1.2.2.2.2.2.2.2, geometry_unfold.1.2.2.2.2.2.1,
            geometry_unfold.1.2.1, sub_self]
        rw [norm_facts.1.2.2.2.1, abs_of_pos (by linarith)]
        linarith
      have hBA : ¬ (((⟨-x, 0⟩ : Point).from ⟨x, 0⟩).norm ≤ 2 * 1) := by
        simp only [geometry_unfold.1.2.2.2.2.2.2.2, geometry_unfold.1.2.2.2.2.2.1,
            geometry_unfold.1.2.1, sub_self]
        rw [norm_facts.1.2.2.2.1, abs_of_neg (by linarith)]
        linarith
      unfold scenario1State
      rw [part2.2.2.2.2.2.2.1 shuffle _ _ _ _ _ [] [] ⟨-1, 0⟩ ⟨1, 0⟩
        (by rw [part2.2.2.2.2.1 _ _ _ (by norm_num)]; exact if_neg hAB)
        (by rw [part2.2.2.2.2.2.1 _ _ _ (by norm_num)]; exact if_neg hBA)
        (by unfold Agent.solveLinearProgram ORCA.solveLinearProgram; rw [(geometry_facts.1.1 hs)]; rfl)
        (by unfold Agent.solveLinearProgram ORCA.solveLinearProgram; rw [(geometry_facts.1.1 hs)]; rfl)]
      simp only [geometry_unfold.1.2.1]
      rw [norm_facts.2.2.2.2.2.2.1.2.2.2.2.2.2.1 x (-1) vA (by norm_num) (by linarith),
        norm_facts.2.2.2.2.2.2.1.2.2.2.2.2.2.2.1 x 1 vB (by norm_num) (by linarith)]
      rw [show x + -1 / 10 = x - 1 / 10 by ring]
    -- ORCA.solveShuffled_violates_halfPlane_swapped
    · have h1 : HalfPlane.new ⟨6, 0⟩ ⟨1, 0⟩ = ⟨⟨6, 0⟩, ⟨1, 0⟩, ⟨⊤, 0, 6⟩⟩ :=
        norm_facts.2.2.2.2.2.2.1.1 _ _ rfl (by norm_num)
      have h2 : HalfPlane.new ⟨15, 0⟩ ⟨-1, -1⟩
          = ⟨⟨15, 0⟩, ⟨-1, -1⟩, ⟨((-1 : ℝ) : EReal), 15, 15⟩⟩ := by
        rw [norm_facts.2.2.2.2.2.2.1.2.1 _ _ (by norm_num)]
        norm_num
      have hpi := Real.pi_pos
      have hang : trueMod ((⟨1, 0⟩ : Vector).angleFrom ⟨-1, -1⟩) (2 * Real.pi)
          = 3 * Real.pi / 4 := by
        unfold Vector.angleFrom
        rw [part2.2.2.2.2.2.2.2.1, part1.2.2.2.2.2.2.2.2.2 _ (by norm_num)]
        rw [norm_facts.2.1.2.2.2.1 (by linarith) (by linarith)]
        ring
      have ht : ORCA.tighten ⟨⟨6, 0⟩, ⟨1, 0⟩, ⟨⊤, 0, 6⟩⟩
          ⟨⟨15, 0⟩, ⟨-1, -1⟩, ⟨((-1 : ℝ) : EReal), 15, 15⟩⟩ (8, -8) = .ok (8, -8) := by
        unfold ORCA.tighten
        simp only [hang, geometry_unfold.2.1.2.2.2.2.2.2.2, geometry_unfold.2.2.1.2.2.2.2.2.2.1,
            geometry_unfold.2.1.2.2.2.2.2.1, if_true, geometry_unfold.2.2.1.2.2.2.2.1,
          EReal.coe_ne_top, if_false, EReal.toReal_coe, (EReal.coe_ne_top _).symm]
        rw [if_pos (by linarith)]
        norm_num
      unfold ORCA.solveShuffled
      rw [part1.2.2.2.2.2.2.1 _ _ _ _ _ _ _ ⟨0, 10⟩]
      · apply part1.2.2.2.2.1
        rw [h1, h2]
        refine part1.2.2.2.1 _ _ _ _ _ _ _ (8, -8) ?_ ?_ ?_ ?_ ?_
        · norm_num [geometry_unfold.2.2.2.1.1, geometry_unfold.1.2.2.2.2.2.2.2,
            geometry_unfold.1.2.2.2.2.2.1, geometry_unfold.1.2.1, geometry_unfold.2.1.2.2.1,
            geometry_unfold.1.2.2.1]
        · rw [geometry_facts.1.2.2.2.1 _ _ rfl (by norm_num [abs_of_pos])]; norm_num
        · rw [norm_facts.1.2.2.2.2.2.1 _ _ rfl]
          simp only [if_neg (show ¬ (1 : ℝ) < 0 by norm_num),
            norm_facts.1.2.2.2.2.2.2.2.1 10 6 8 (by norm_num) (by norm_num), List.nil_append,
                                                                    solver_unfold.1.2.1, solver_unfold.1.2.2.1, ht]
        · rw [geometry_facts.1.2.2.2.2.2.1 _ _ _ rfl]
          norm_num
        · rw [geometry_facts.1.2.2.2.2.1 _ _ _ _ rfl]
          norm_num
      · unfold ORCA.processHalfPlane
        rw [if_pos]
        · rfl
        · rw [h2]
          norm_num [geometry_unfold.2.2.2.1.1, geometry_unfold.1.2.2.2.2.2.2.2,
              geometry_unfold.1.2.2.2.2.2.1, geometry_unfold.1.2.1, geometry_unfold.2.1.2.2.1,
            geometry_unfold.1.2.2.1]
    -- scenario1_iteration_far
    · intro shuffle hs x hx vA vB
      have hAB : ¬ (((⟨x, 0⟩ : Point).from ⟨-x, 0⟩).norm ≤ 2 * 1) := by
        simp only [geometry_unfold.1.2.2.2.2.2.2.2, geometry_unfold.1.2.2.2.2.2.1,
            geometry_unfold.1.2.1, sub_self]
        rw [norm_facts.1.2.2.2.1, abs_of_pos (by linarith)]
        linarith
      have hBA : ¬ (((⟨-x, 0⟩ : Point).from ⟨x, 0⟩).norm ≤ 2 * 1) := by
        simp only [geometry_unfold.1.2.2.2.2.2.2.2, geometry_unfold.1.2.2.2.2.2.1,
            geometry_unfold.1.2.1, sub_self]
        rw [norm_facts.1.2.2.2.1, abs_of_neg (by linarith)]
        linarith
      unfold scenario1State
      rw [part3.1 shuffle _ _ _ _ _ [] [] ⟨-1, 0⟩ ⟨1, 0⟩
        (by rw [part2.2.2.2.2.1 _ _ _ (by norm_num)]; exact if_neg hAB)
        (by rw [part2.2.2.2.2.2.1 _ _ _ (by norm_num)]; exact if_neg hBA)
        (by unfold Agent.solveLinearProgram ORCA.solveLinearProgram; rw [(geometry_facts.1.1 hs)]; rfl)
        (by unfold Agent.solveLinearProgram ORCA.solveLinearProgram; rw [(geometry_facts.1.1 hs)]; rfl)]
      simp only [norm_unfold.1.2.2.2.1, geometry_unfold.1.2.1,
          norm_facts.2.1.2.2.2.2.2.2.2.2.1 _ _ rfl]
    -- ORCA.processHalfPlane_slanted_first
    · intro H h vMax R x1 x2 sol hnv hlt h1 h2 hc
      have ha : (0 : ℝ) < h.boundingLine.slope.toReal ^ 2 + 1 := by positivity
      have hd : 0 < ORCA.discriminant h R := by
        rw [norm_facts.2.2.2.2.2.1.1 h R x1 x2 hnv hlt h1 h2]
        exact pow_pos (mul_pos ha (by linarith)) 2
      refine part1.2.2.2.1 H [] h vMax R sol _
        (if h.normal.y < 0 then (x2, x1) else (x1, x2)) hc hd ?_ ?_
        (geometry_facts.2.2.2.1.2.2.2.2.2.1 h vMax x1 x2 hnv hlt)
      · rw [norm_facts.2.2.2.2.2.2.2.1.2.1 h R x1 x2 hnv hlt h1 h2]
        rfl
      · simp only [geometry_unfold.2.2.2.1.2.2.1, hnv, false_and, not_false_eq_true, true_and, false_or]
        by_cases hneg : h.normal.y < 0
        · simp only [if_pos hneg]
          rintro (⟨_, hh⟩ | ⟨hh, _⟩) <;> linarith
        · simp only [if_neg hneg]
          rintro (⟨hh, _⟩ | ⟨_, hh⟩)
          · exact hneg hh
          · linarith
    -- ORCA.loop_skip_contained
    · intro H vMax R s rest
      intro pre
      induction pre with
      | nil => intro prev _; simp
      | cons h_i pre ih =>
        intro prev hc
        have h1 : h_i.contains s := hc h_i (List.mem_cons_self _ _)
        have h2 : ORCA.processHalfPlane H prev h_i vMax R s = .ok (.next s) := by
          unfold ORCA.processHalfPlane
          rw [if_pos h1]
        rw [List.cons_append, part1.2.2.2.2.2.2.1 H vMax R prev _ h_i s s h2,
          ih (prev ++ [h_i]) (fun h hh => hc h (List.mem_cons_of_mem _ hh))]
        simp
    -- ORCA.processHalfPlane_first_on_line
    · intro H h vMax R s hc hd
      by_cases he : ORCA.intervalEmpty h (ORCA.circleBounds h R).1 (ORCA.circleBounds h R).2
      · exact Or.inl (part1.2.2.2.2.2.2.2.1 H [] h vMax R s _ hc hd rfl he)
      · obtain ⟨s1, hs1, hon⟩ := geometry_facts.2.2.2.1.2.2.2.2.2.2 h vMax (ORCA.circleBounds h R).1
          (ORCA.circleBounds h R).2
        exact Or.inr ⟨s1, part1.2.2.2.1 H [] h vMax R s s1 _ hc hd rfl he hs1, hon⟩
    -- Vector.cos_sin_xAngle
    · intro V h
      obtain ⟨x, y⟩ := V
      unfold Vector.xAngle
      rw [if_neg h]
      simp only
      by_cases hx : x = 0
      · subst hx
        have hy : y ≠ 0 := by
          intro hy
          apply h
          rw [norm_facts.2.2.2.2.1.2.1]
          exact ⟨rfl, hy⟩
        have hn : (⟨0, y⟩ : Vector).norm = |y| := by
          unfold Vector.norm Vector.dot
          simp only [mul_zero, zero_add]
          exact Real.sqrt_mul_self_eq_abs y
        rw [if_pos rfl, hn, zero_div]
        rcases lt_or_gt_of_ne hy with hneg | hpos
        · rw [if_pos hneg, Real.cos_add, Real.sin_add, abs_of_neg hneg]
          simp only [Real.cos_pi_div_two, Real.sin_pi_div_two, Real.cos_pi, Real.sin_pi]
          constructor
          · ring
          · rw [div_neg, div_self hy]
            ring
        · rw [if_neg (not_lt.mpr hpos.le), add_zero, abs_of_pos hpos, Real.cos_pi_div_two,
            Real.sin_pi_div_two, div_self hy]
          exact ⟨rfl, rfl⟩
      · rw [if_neg hx, part3.2.2.2.2.2.2.2.1, part3.2.2.2.2.2.2.2.2.1,
          norm_facts.2.2.1.2.2.2.2.1 x y hx]
        have hD : 0 < Real.sqrt (1 + (y / x) ^ 2) := Real.sqrt_pos.mpr (by positivity)
        rcases lt_or_gt_of_ne hx with hneg | hpos
        · rw [if_pos hneg, Real.cos_add_pi, Real.sin_add_pi, Real.cos_arctan, Real.sin_arctan,
            abs_of_neg hneg]
          constructor
          · field_simp
            try ring
          · field_simp
            try ring
        · rw [if_neg (not_lt.mpr hpos.le), add_zero, Real.cos_arctan, Real.sin_arctan,
            abs_of_pos hpos]
          constructor
          · field_simp
            try ring
          · field_simp
            try ring
  refine (fun (h : _) (k : _ → _) => And.intro h (k h)) ?_ (fun part6 => ?_)
  · -- ORCA.newVelocities_length
    intro shuffle agents TAU todo vs h
    exact (part2.2.2.2.2.2.2.2.2.2 shuffle agents TAU todo vs h).length_eq.symm
  refine (fun (h : _) (k : _ → _) => And.intro h (k h)) ?_ (fun part7 => ?_)
  · refine ⟨?_, ?_, ?_, ?_, ?_, ?_, ?_, ?_⟩
    -- Agent.orca_A_B_touching
    · intro idA idB dA dB prA prB a b eA eB rA rB mA mB TAU hd hr happ hfar
      have hax : Vector.ofPoint ((⟨b, 0⟩ : Point).sub ⟨a, 0⟩) = ⟨b - a, 0⟩ := by
        simp [geometry_unfold.1.2.1, geometry_unfold.1.2.2.2.2.2.1]
      have hvd : (⟨eA, 0⟩ : Vector).sub ⟨eB, 0⟩ = ⟨eA - eB, 0⟩ := by
        simp [geometry_unfold.2.1.2.1]
      have hasin : Real.arcsin ((rA + rB) / (⟨b - a, 0⟩ : Vector).norm) = Real.pi / 2 := by
        rw [norm_facts.1.2.2.2.1, hr, div_self (abs_ne_zero.mpr hd), Real.arcsin_one]
      have hcos := part5.2.2.1 (b - a) hd
      have hL : (⟨eA - eB, 0⟩ : Vector).projectionOnto ((⟨b - a, 0⟩ : Vector).rotated (Real.pi / 2))
          = ⟨0, 0⟩ :=
        norm_facts.2.2.2.2.2.2.1.2.2.2.2.1 _ _ (part2.2.2.2.1 _ _ hcos.1)
      have hR : (⟨eA - eB, 0⟩ : Vector).projectionOnto
          ((⟨b - a, 0⟩ : Vector).rotated (-(Real.pi / 2))) = ⟨0, 0⟩ :=
        norm_facts.2.2.2.2.2.2.1.2.2.2.2.1 _ _ (part2.2.2.2.1 _ _ hcos.2)
      have hdot : (⟨eA - eB, 0⟩ : Vector).dot ⟨b - a, 0⟩ > 0 := by
        simp only [geometry_unfold.2.1.2.2.1, mul_zero, add_zero]
        exact happ
      have hcmp : (Vector.ofPoint (⟨eA - eB, 0⟩ : Point)).norm
          > (Vector.ofPoint ((⟨b - a, 0⟩ : Point).sdiv TAU)).norm := by
        simp only [geometry_unfold.1.2.1, geometry_unfold.1.2.2.2.2.2.2.1, zero_div]
        rw [norm_facts.1.2.2.2.1, norm_facts.1.2.2.2.1]
        exact hfar
      have hzero : (⟨0, 0⟩ : Vector).norm = 0 := by
        rw [norm_facts.2.2.2.2.1.2.1]; exact ⟨rfl, rfl⟩
      unfold Agent.orca_A_B
      simp only [hax, hvd, hasin, hL, hR, if_pos hdot]
      have hp0 : Point.ofVector (⟨0, 0⟩ : Vector) = ⟨0, 0⟩ := rfl
      have hpax : (⟨b, 0⟩ : Point).sub ⟨a, 0⟩ = ⟨b - a,
          0⟩ := by simp [geometry_unfold.1.2.2.2.2.2.1]
      have hle : (⟨0, 0⟩ : Vector).dot ⟨b - a, 0⟩ ≤ 0 := by simp [geometry_unfold.2.1.2.2.1]
      simp only [if_pos hle, hp0, hpax, norm_facts.2.1.2.2.2.2.1, geometry_facts.1.2.2.2.2.2.2.1,
        geometry_unfold.1.2.2.1, norm_facts.2.1.2.2.2.2.2.1, if_pos hcmp]
      simp only [geometry_unfold.1.2.1, geometry_unfold.2.1.2.1, sub_self, hzero, if_true,
          zero_sub, sub_zero,
        geometry_unfold.2.1.2.2.2.2.1, geometry_unfold.2.1.1, zero_div, add_zero, neg_zero]
      rw [show eA + -(eA - eB) / 2 = eA - (eA - eB) / 2 by ring]
    -- scenario1_lpA
    · intro shuffle hs c hc
      unfold ORCA.solveLinearProgram ORCA.solveShuffled
      rw [(geometry_facts.1.2.1 hs)]
      apply part1.2.2.2.2.1
      rw [part5.1 _ ⟨0, 0⟩ ⟨c, 0⟩ ⟨-1, 0⟩ 1 1 _ rfl hc
        (by norm_num [geometry_unfold.1.2.2.1]) (by norm_num) (by norm_num)]
      rw [if_neg (by norm_num), if_neg (by norm_num)]
    -- scenario1_lpB
    · intro shuffle hs c hc
      unfold ORCA.solveLinearProgram ORCA.solveShuffled
      rw [(geometry_facts.1.2.1 hs)]
      apply part1.2.2.2.2.1
      rw [part5.2.1 _ ⟨0, 0⟩ ⟨c, 0⟩ ⟨1, 0⟩ 1 1 _ rfl hc
        (by norm_num [geometry_unfold.1.2.2.1]) (by norm_num) (by norm_num)]
      rw [if_neg (by norm_num), if_neg (by norm_num)]
    -- ORCA.solveShuffled_antiparallel
    · intro p1 p2 n1 n2 vPref R hd1 hd2 hpar hdot hdisj
      have hn : ¬ (HalfPlane.new p2 n2).contains (HalfPlane.new p1 n1).normalPosition :=
        fun h => hdisj _ ⟨norm_facts.2.2.1.2.2.2.1 _, h⟩
      have hsecond : ∀ s : Point, (HalfPlane.new p1 n1).contains s →
          ORCA.loop [HalfPlane.new p1 n1, HalfPlane.new p2 n2] vPref R ([] ++ [HalfPlane.new p1 n1])
            [HalfPlane.new p2 n2] s = .error .LinearProgramInfeasible := by
        intro s hs
        apply part1.2.1
        rw [List.nil_append]
        exact part3.2.2.2.2.2.2.1 _ _ _ vPref R s
          (fun h => hdisj s ⟨hs, h⟩) hd2 hpar (not_lt.mpr hdot.le) hn
      unfold ORCA.solveShuffled
      by_cases hc1 : (HalfPlane.new p1 n1).contains (Point.ofVector vPref)
      · have hp : ORCA.processHalfPlane [HalfPlane.new p1 n1, HalfPlane.new p2 n2] []
            (HalfPlane.new p1 n1) vPref R (Point.ofVector vPref)
            = .ok (.next (Point.ofVector vPref)) := by
          unfold ORCA.processHalfPlane
          rw [if_pos hc1]
        rw [part1.2.2.2.2.2.2.1 _ _ _ _ _ _ _ _ hp]
        exact hsecond _ hc1
      · rcases part5.2.2.2.2.2.2.2.2.1 [HalfPlane.new p1 n1, HalfPlane.new p2 n2]
          (HalfPlane.new p1 n1) vPref R (Point.ofVector vPref) hc1 hd1 with he | ⟨s1, hp, hon⟩
        · exact part1.2.2.2.2.2.2.2.2.1 _ _ _ _ _ _ _ _ he
        · rw [part1.2.2.2.2.2.2.1 _ _ _ _ _ _ _ _ hp]
          exact hsecond _ (norm_facts.2.2.2.2.2.2.2.2.2.2 p1 n1 s1 hon)
    -- ORCA.solveShuffled_vertical_first
    · obtain ⟨h1, h2⟩ := norm_facts.2.2.2.2.2.2.2.2.1.2.2.2.2.2.2.2.1
      have hsq : Real.sqrt 196 = 14 := by
        rw [show (196 : ℝ) = 14 ^ 2 by norm_num]
        exact Real.sqrt_sq (by norm_num)
      have hd : ORCA.discriminant ⟨⟨0, 24⟩, ⟨0, -1⟩, ⟨((0 : ℝ) : EReal), 24, 0⟩⟩ 25 = 196 := by
        simp only [geometry_unfold.2.2.2.1.2.1, geometry_unfold.2.1.2.2.2.2.2.1, EReal.coe_ne_top, if_false,
          EReal.toReal_coe]
        norm_num
      have hb : ORCA.circleBounds ⟨⟨0, 24⟩, ⟨0, -1⟩, ⟨((0 : ℝ) : EReal), 24, 0⟩⟩ 25 = (7, -7) := by
        unfold ORCA.circleBounds
        simp only [hd, hsq, geometry_unfold.2.1.2.2.2.2.2.1, EReal.coe_ne_top, if_false,
            EReal.toReal_coe,
          false_and, not_false_eq_true, true_and, false_or]
        norm_num
      have hang : trueMod ((⟨0, -1⟩ : Vector).angleFrom ⟨1, 0⟩) (2 * Real.pi)
          = Real.pi / 2 + Real.pi := by
        unfold Vector.angleFrom
        rw [part2.1 _ (by norm_num), part1.2.2.2.2.2.2.2.2.2 _ (by norm_num),
          sub_zero]
        exact norm_facts.1.2.2.2.2.1 (by positivity) (by linarith [Real.pi_pos])
      have ht : ORCA.tighten ⟨⟨0, 24⟩, ⟨0, -1⟩, ⟨((0 : ℝ) : EReal), 24, 0⟩⟩
          ⟨⟨15, 0⟩, ⟨1, 0⟩, ⟨⊤, 0, 15⟩⟩ (7, -7) = .ok (7, 15) := by
        unfold ORCA.tighten
        simp only [hang, geometry_unfold.2.1.2.2.2.2.2.2.2, EReal.coe_ne_top, if_false,
            geometry_unfold.2.2.1.2.2.2.2.2.2.1, geometry_unfold.2.1.2.2.2.2.2.1,
          if_true, geometry_unfold.2.2.1.2.2.2.2.1, EReal.toReal_coe]
        rw [if_neg (by linarith [Real.pi_pos])]
        norm_num
      unfold ORCA.solveShuffled
      rw [part1.2.2.2.2.2.2.1 _ _ _ _ _ _ _ ⟨15, 25⟩]
      · apply part1.2.2.2.2.2.2.2.2.1
        rw [h1, h2]
        refine part1.2.2.2.2.2.2.2.1 _ _ _ _ _ _ (7, 15) ?_ ?_ ?_ ?_
        · norm_num [geometry_unfold.2.2.2.1.1, geometry_unfold.1.2.2.2.2.2.2.2,
            geometry_unfold.1.2.2.2.2.2.1, geometry_unfold.1.2.1, geometry_unfold.2.1.2.2.1]
        · rw [hd]; norm_num
        · rw [hb]
          simp only [List.nil_append, solver_unfold.1.2.1, solver_unfold.1.2.2.1, ht]
        · simp only [geometry_unfold.2.2.2.1.2.2.1, geometry_unfold.2.1.2.2.2.2.2.1,
            EReal.coe_ne_top, false_and,
            not_false_eq_true, true_and, false_or]
          left
          norm_num
      · rw [part5.1 _ ⟨15, 0⟩ ⟨1, 0⟩ ⟨0, 25⟩ 25 20 _ rfl
          (by norm_num) (by norm_num [geometry_unfold.1.2.2.1]) (by norm_num [abs_of_pos])
          (norm_facts.1.2.2.2.2.2.2.2.1 _ _ _ (by norm_num) (by norm_num))]
        rw [if_neg (by norm_num), if_neg (by norm_num)]
    -- ORCA.solveShuffled_horizontal_first
    · obtain ⟨h1, h2⟩ := norm_facts.2.2.2.2.2.2.2.2.1.2.2.2.2.2.2.2.1
      have hpi := Real.pi_pos
      have hang : trueMod ((⟨1, 0⟩ : Vector).angleFrom ⟨0, -1⟩) (2 * Real.pi) = Real.pi / 2 := by
        unfold Vector.angleFrom
        rw [part2.1 _ (by norm_num), part1.2.2.2.2.2.2.2.2.2 _ (by norm_num)]
        rw [norm_facts.2.1.2.2.2.1 (by linarith) (by linarith)]
        ring
      have ht : ORCA.tighten ⟨⟨15, 0⟩, ⟨1, 0⟩, ⟨⊤, 0, 15⟩⟩
          ⟨⟨0, 24⟩, ⟨0, -1⟩, ⟨((0 : ℝ) : EReal), 24, 0⟩⟩ (20, -20) = .ok (20, -20) := by
        unfold ORCA.tighten
        simp only [hang, geometry_unfold.2.1.2.2.2.2.2.2.2, geometry_unfold.2.2.1.2.2.2.2.2.2.1,
            geometry_unfold.2.1.2.2.2.2.2.1, if_true, geometry_unfold.2.2.1.2.2.2.2.1,
          EReal.coe_ne_top, if_false, EReal.toReal_coe, (EReal.coe_ne_top _).symm]
        rw [if_pos (by linarith)]
        norm_num
      have hfirst : ORCA.processHalfPlane
          [HalfPlane.new ⟨0, 24⟩ ⟨0, -1⟩, HalfPlane.new ⟨15, 0⟩ ⟨1, 0⟩] []
          (HalfPlane.new ⟨0, 24⟩ ⟨0, -1⟩) ⟨0, 25⟩ 25 (Point.ofVector ⟨0, 25⟩)
          = .ok (.next ⟨0, 24⟩) := by
        rw [h2]
        have hp := part5.2.2.2.2.2.2.1
          [⟨⟨0, 24⟩, ⟨0, -1⟩, ⟨((0 : ℝ) : EReal), 24, 0⟩⟩, HalfPlane.new ⟨15, 0⟩ ⟨1, 0⟩]
          ⟨⟨0, 24⟩, ⟨0, -1⟩, ⟨((0 : ℝ) : EReal), 24, 0⟩⟩ ⟨0, 25⟩ 25 (-7) 7
          (Point.ofVector ⟨0, 25⟩) (EReal.coe_ne_top _) (by norm_num)
          (by norm_num [EReal.toReal_coe]) (by norm_num [EReal.toReal_coe])
          (by norm_num [geometry_unfold.2.2.2.1.1, geometry_unfold.1.2.2.2.2.2.2.2,
                geometry_unfold.1.2.2.2.2.2.1, geometry_unfold.1.2.1, geometry_unfold.2.1.2.2.1,
            geometry_unfold.1.2.2.1])
        rw [hp]
        simp only [geometry_unfold.2.2.1.2.2.2.2.2.2.2, geometry_unfold.2.1.2.2.2.2.2.1,
            EReal.coe_ne_top, if_false,
          EReal.toReal_coe, geometry_unfold.1.2.2.1]
        norm_num
      unfold ORCA.solveShuffled
      rw [part1.2.2.2.2.2.2.1 _ _ _ _ _ _ _ ⟨0, 24⟩ hfirst]
      apply part1.2.2.2.2.1
      rw [h1, h2]
      refine part1.2.2.2.1 _ _ _ _ _ _ _ (20, -20) ?_ ?_ ?_ ?_ ?_
      · norm_num [geometry_unfold.2.2.2.1.1, geometry_unfold.1.2.2.2.2.2.2.2,
          geometry_unfold.1.2.2.2.2.2.1, geometry_unfold.1.2.1, geometry_unfold.2.1.2.2.1]
      · rw [geometry_facts.1.2.2.2.1 _ _ rfl (by norm_num [abs_of_pos])]; norm_num
      · rw [norm_facts.1.2.2.2.2.2.1 _ _ rfl]
        simp only [if_neg (show ¬ (1 : ℝ) < 0 by norm_num),
          norm_facts.1.2.2.2.2.2.2.2.1 25 15 20 (by norm_num) (by norm_num), List.nil_append,
                                                                    solver_unfold.1.2.1, solver_unfold.1.2.2.1, ht]
      · rw [geometry_facts.1.2.2.2.2.2.1 _ _ _ rfl]
        norm_num
      · rw [geometry_facts.1.2.2.2.2.1 _ _ _ _ rfl]
        norm_num
    -- Vector.rotated_eq
    · intro V ang
      unfold Vector.rotated Vector.ofAngle
      simp only [part3.2.2.2.2.2.2.2.1, part3.2.2.2.2.2.2.2.2.1]
      rw [norm_facts.2.1.2.1 _ _ (by rw [norm_facts.2.2.2.2.1.2.2.2.2.2.2.2.2.2]; norm_num), norm_facts.2.2.2.2.1.2.2.2.2.2.2.2.2.2]
      by_cases h : V.norm = 0
      · have h0 := (norm_facts.2.2.2.2.1.2.1 V).mp h
        rw [h, h0.1, h0.2]
        simp
      · obtain ⟨hc, hs⟩ := part5.2.2.2.2.2.2.2.2.2 V h
        rw [Real.cos_add, Real.sin_add, hc, hs]
        simp only [div_one]
        congr 1
        · field_simp
        · field_simp
          ring
    -- ORCA.iterationRun_eq
    · intro shuffle S
      unfold ORCA.iterationRun ORCA.iteration
      rw [part4]
      cases h : ORCA.newVelocities shuffle S.agents S.tau S.agents with
      | error e => rfl
      | ok vs =>
        simp only [List.nil_append]
        rw [norm_facts.2.2.2.1.2 S.agents [] vs S (part6 _ _ _ _ _ h) rfl]
        simp
  refine (fun (h : _) (k : _ → _) => And.intro h (k h)) ?_ (fun part8 => ?_)
  · refine ⟨?_, ?_, ?_, ?_, ?_⟩
    -- scenario1_round_touching
    · intro shuffle hs
      have hA : Agent.orca_A_B ⟨0, ⟨1, 0⟩, ⟨-10, 0⟩, ⟨-1, 0⟩, ⟨-1, 0⟩, 1, 1⟩
          ⟨1, ⟨-1, 0⟩, ⟨10, 0⟩, ⟨1, 0⟩, ⟨1, 0⟩, 1, 1⟩ 2
          = .ok (HalfPlane.new ⟨0, 0⟩ ⟨2, 0⟩) := by
        rw [part7.1 _ _ _ _ _ _ 1 (-1) (-1) 1 1 1 1 1 2 (by norm_num)
          (by norm_num [abs_of_neg]) (by norm_num) (by norm_num [abs_of_neg])]
        norm_num
      have hB : Agent.orca_A_B ⟨1, ⟨-1, 0⟩, ⟨10, 0⟩, ⟨1, 0⟩, ⟨1, 0⟩, 1, 1⟩
          ⟨0, ⟨1, 0⟩, ⟨-10, 0⟩, ⟨-1, 0⟩, ⟨-1, 0⟩, 1, 1⟩ 2
          = .ok (HalfPlane.new ⟨0, 0⟩ ⟨-2, 0⟩) := by
        rw [part7.1 _ _ _ _ _ _ (-1) 1 1 (-1) 1 1 1 1 2 (by norm_num)
          (by norm_num [abs_of_pos]) (by norm_num) (by norm_num [abs_of_pos])]
        norm_num
      unfold scenario1State
      rw [part2.2.2.2.2.2.2.1 shuffle _ _ _ _ _ [HalfPlane.new ⟨0, 0⟩ ⟨2, 0⟩]
        [HalfPlane.new ⟨0, 0⟩ ⟨-2, 0⟩] ⟨0, 0⟩ ⟨0, 0⟩
        (by rw [part2.2.2.2.2.1 _ _ _ (by norm_num), if_pos norm_facts.2.2.2.2.1.2.2.2.2.2.2.1.1, hA])
        (by rw [part2.2.2.2.2.2.1 _ _ _ (by norm_num), if_pos norm_facts.2.2.2.2.1.2.2.2.2.2.2.1.2, hB])
        (by exact part7.2.1 shuffle hs (2) (by norm_num))
        (by exact part7.2.2.1 shuffle hs (-2) (by norm_num))]
      simp only [geometry_unfold.1.2.1]
      rw [norm_facts.2.2.2.2.2.2.1.2.2.2.2.2.2.1 1 0 _ (by norm_num) (by norm_num),
        norm_facts.2.2.2.2.2.2.1.2.2.2.2.2.2.2.1 1 0 _ (by norm_num) (by norm_num)]
      norm_num
    -- scenario1_round_frozen
    · intro shuffle hs
      have hn1 : (⟨1, 0⟩ : Vector).norm = 1 := by
        rw [norm_facts.1.2.2.2.1]; norm_num
      have hn2 : (⟨-1, 0⟩ : Vector).norm = 1 := by
        rw [norm_facts.1.2.2.2.1]; norm_num
      have hn3 : (⟨-2, 0⟩ : Vector).norm = 2 := by
        rw [norm_facts.1.2.2.2.1]; norm_num
      have hn4 : (⟨2, 0⟩ : Vector).norm = 2 := by
        rw [norm_facts.1.2.2.2.1]; norm_num
      have hA : Agent.orca_A_B ⟨0, ⟨1, 0⟩, ⟨-10, 0⟩, ⟨0, 0⟩, ⟨-1, 0⟩, 1, 1⟩
          ⟨1, ⟨-1, 0⟩, ⟨10, 0⟩, ⟨0, 0⟩, ⟨1, 0⟩, 1, 1⟩ 2
          = .ok (HalfPlane.new ⟨0, 0⟩ ⟨1, 0⟩) := by
        rw [part2.2.1 _ _ 2 ⟨1, 0⟩ ⟨1, 0⟩]
        · norm_num [geometry_unfold.2.1.1, geometry_unfold.2.1.2.1, geometry_unfold.2.1.2.2.2.2.1,
            geometry_unfold.1.2.2.1]
        · norm_num [geometry_unfold.2.1.2.1, geometry_unfold.1.2.1, geometry_unfold.1.2.2.2.2.2.1,
            geometry_unfold.1.2.2.2.2.2.2.1]
        · norm_num [geometry_unfold.2.1.2.1, geometry_unfold.1.2.1, geometry_unfold.1.2.2.2.2.2.1,
            geometry_unfold.1.2.2.2.2.2.2.1, hn2, hn3]
          rw [norm_facts.2.1.2.1 _ _ (by rw [hn1]; norm_num), hn1]
          norm_num
        · norm_num [geometry_unfold.2.1.2.1, geometry_unfold.1.2.1, geometry_unfold.1.2.2.2.2.2.1,
            geometry_unfold.2.1.2.2.1]
        · rw [hn1]; norm_num
      have hB : Agent.orca_A_B ⟨1, ⟨-1, 0⟩, ⟨10, 0⟩, ⟨0, 0⟩, ⟨1, 0⟩, 1, 1⟩
          ⟨0, ⟨1, 0⟩, ⟨-10, 0⟩, ⟨0, 0⟩, ⟨-1, 0⟩, 1, 1⟩ 2
          = .ok (HalfPlane.new ⟨0, 0⟩ ⟨-1, 0⟩) := by
        rw [part2.2.1 _ _ 2 ⟨-1, 0⟩ ⟨-1, 0⟩]
        · norm_num [geometry_unfold.2.1.1, geometry_unfold.2.1.2.1, geometry_unfold.2.1.2.2.2.2.1,
            geometry_unfold.1.2.2.1]
        · norm_num [geometry_unfold.2.1.2.1, geometry_unfold.1.2.1, geometry_unfold.1.2.2.2.2.2.1,
            geometry_unfold.1.2.2.2.2.2.2.1]
        · norm_num [geometry_unfold.2.1.2.1, geometry_unfold.1.2.1, geometry_unfold.1.2.2.2.2.2.1,
            geometry_unfold.1.2.2.2.2.2.2.1, hn1, hn4]
          rw [norm_facts.2.1.2.1 _ _ (by rw [hn2]; norm_num), hn2]
          norm_num
        · norm_num [geometry_unfold.2.1.2.1, geometry_unfold.1.2.1, geometry_unfold.1.2.2.2.2.2.1,
            geometry_unfold.2.1.2.2.1]
        · rw [hn2]; norm_num
      unfold scenario1State
      rw [part2.2.2.2.2.2.2.1 shuffle _ _ _ _ _ [HalfPlane.new ⟨0, 0⟩ ⟨1, 0⟩]
        [HalfPlane.new ⟨0, 0⟩ ⟨-1, 0⟩] ⟨0, 0⟩ ⟨0, 0⟩
        (by rw [part2.2.2.2.2.1 _ _ _ (by norm_num), if_pos norm_facts.2.2.2.2.1.2.2.2.2.2.2.1.1, hA])
        (by rw [part2.2.2.2.2.2.1 _ _ _ (by norm_num), if_pos norm_facts.2.2.2.2.1.2.2.2.2.2.2.1.2, hB])
        (by exact part7.2.1 shuffle hs (1) (by norm_num))
        (by exact part7.2.2.1 shuffle hs (-1) (by norm_num))]
      simp only [geometry_unfold.1.2.1]
      rw [norm_facts.2.2.2.2.2.2.1.2.2.2.2.2.2.1 1 0 _ (by norm_num) (by norm_num),
        norm_facts.2.2.2.2.2.2.1.2.2.2.2.2.2.2.1 1 0 _ (by norm_num) (by norm_num)]
      norm_num
    -- Vector.rotated_neg
    · intro V ang
      rw [part7.2.2.2.2.2.2.1, part7.2.2.2.2.2.2.1]
      simp only [geometry_unfold.2.2.2.2.2.2]
      congr 1 <;> ring
    -- Vector.rotated_dot_self
    · intro V ang
      rw [part7.2.2.2.2.2.2.1]
      simp only [geometry_unfold.2.1.2.2.1]
      linear_combination (V.x * V.x + V.y * V.y) * Real.sin_sq_add_cos_sq ang
    -- Agent.orca_A_B_touching_oblique
    · have hN : (Vector.ofPoint (⟨2, 0⟩ : Point)).norm = 2 :=
        norm_facts.1.2.2.2.2.2.2.1 _ 2 (by norm_num) (by norm_num [geometry_unfold.1.2.1])
      have hasin : Real.arcsin ((2 : ℝ) / (Vector.ofPoint (⟨2,
          0⟩ : Point)).norm) = Real.pi / 2 := by
        rw [hN, div_self (by norm_num), Real.arcsin_one]
      have hW1 : (Vector.ofPoint (⟨2, 0⟩ : Point)).rotated (Real.pi / 2) = ⟨0, 2⟩ := by
        rw [part7.2.2.2.2.2.2.1]
        simp [geometry_unfold.1.2.1]
      have hW2 : (Vector.ofPoint (⟨2, 0⟩ : Point)).rotated (-(Real.pi / 2)) = ⟨0, -2⟩ := by
        rw [part7.2.2.2.2.2.2.1]
        simp [geometry_unfold.1.2.1]
      have hn1 : (⟨0, 2⟩ : Vector).norm = 2 :=
        norm_facts.1.2.2.2.2.2.2.1 _ 2 (by norm_num) (by norm_num)
      have hn2 : (⟨0, -2⟩ : Vector).norm = 2 :=
        norm_facts.1.2.2.2.2.2.2.1 _ 2 (by norm_num) (by norm_num)
      have hlp : (⟨1, 1⟩ : Vector).projectionOnto ((Vector.ofPoint (⟨2, 0⟩ : Point)).rotated
          (Real.arcsin (2 / (Vector.ofPoint (⟨2, 0⟩ : Point)).norm))) = ⟨0, 1⟩ := by
        rw [hasin, hW1]
        unfold Vector.projectionOnto
        rw [norm_facts.2.1.2.1 _ _ (by rw [hn1]; norm_num), hn1]
        norm_num [geometry_unfold.2.1.2.2.1]
      have hrp : (⟨1, 1⟩ : Vector).projectionOnto ((Vector.ofPoint (⟨2, 0⟩ : Point)).rotated
          (-Real.arcsin (2 / (Vector.ofPoint (⟨2, 0⟩ : Point)).norm))) = ⟨0, -1⟩ := by
        rw [hasin, hW2]
        unfold Vector.projectionOnto
        rw [norm_facts.2.1.2.1 _ _ (by rw [hn2]; norm_num), hn2]
        norm_num [geometry_unfold.2.1.2.2.1]
      have hcl : Agent.closestCircleCenter ⟨1, 1⟩ ⟨2, 0⟩ ⟨0, 1⟩ ⟨0, -1⟩ 2
          = .error .LinesParallel := by
        unfold Agent.closestCircleCenter
        simp only
        rw [if_pos (by norm_num [geometry_unfold.2.1.2.2.1, geometry_unfold.1.2.1]),
          if_pos (by norm_num [geometry_unfold.2.1.2.2.1, geometry_unfold.1.2.1]),
                       norm_facts.2.1.2.2.2.2.1]
        have hL : Line.ofPoint (Point.ofVector ⟨0, -1⟩) = ⟨⊤, 0, 0⟩ := by
          unfold Line.ofPoint Line.ofPoints Point.origin Point.ofVector
          rw [if_pos (by norm_num)]
        rw [hL]
        simp [geometry_unfold.2.2.1.2.2.2.1, geometry_unfold.2.1.2.2.2.2.2.2.1,
            geometry_unfold.2.2.1.2.2.2.2.2.2.1, geometry_unfold.2.1.2.2.2.2.2.2.2,
                geometry_unfold.1.2.2.1]
      rw [part3.2.2.2.2.2.2.2.2.2 _ _ 2 ⟨1, 1⟩ ⟨2, 0⟩ 2 ⟨0, 1⟩ ⟨0, -1⟩
        (by norm_num [geometry_unfold.2.1.2.1]) (by norm_num [geometry_unfold.1.2.2.2.2.2.1]) (by
                                                      norm_num) hlp hrp, hcl]
  refine (fun (h : _) (k : _ → _) => And.intro h (k h)) ?_ (fun part9 => ?_)
  · refine ⟨?_, ?_⟩
    -- scenario1_rounds
    · intro shuffle hs n
      induction n with
      | zero =>
        rw [if_pos rfl, ← norm_facts.2.2.2.2.2.2.1.2.2.2.2.2.1]
        rfl
      | succ n ih =>
        rw [solver_unfold.2.1.2.2.2.2.2.2.1]
        rw [ih]
        simp only
        rw [if_neg (Nat.succ_ne_zero n)]
        by_cases h0 : n = 0
        · subst h0
          rw [if_pos rfl, if_pos (by norm_num), part5.2.2.2.1 shuffle hs 10 (by norm_num)]
          norm_num
        · rw [if_neg h0]
          by_cases h90 : n ≤ 90
          · rw [if_pos h90]
            rcases Nat.lt_or_eq_of_le h90 with hlt | heq
            · have hx : (1 : ℝ) < 10 - (n : ℝ) / 10 := by
                have : (n : ℝ) < 90 := by exact_mod_cast hlt
                linarith
              rw [if_pos (by omega), part5.2.2.2.1 shuffle hs _ hx]
              congr 2
              push_cast
              ring
            · subst heq
              rw [if_neg (by norm_num)]
              have : (10 : ℝ) - ((90 : ℕ) : ℝ) / 10 = 1 := by norm_num
              rw [this]
              exact part8.1 shuffle hs
          · rw [if_neg h90, if_neg (by omega)]
            exact part8.2.1 shuffle hs
    -- Vector.norm_rotated
    · intro V ang
      unfold Vector.norm
      rw [part8.2.2.2.1]
  refine ⟨?_, ?_⟩
  -- scenario1_rounds_form
  · intro shuffle hs n
    rw [part9.1 shuffle hs n]
    by_cases h0 : n = 0
    · rw [if_pos h0]
      exact ⟨10, _, _, by norm_num, rfl⟩
    · rw [if_neg h0]
      by_cases h90 : n ≤ 90
      · rw [if_pos h90]
        have hx : (1 : ℝ) ≤ 10 - (n : ℝ) / 10 := by
          have : (n : ℝ) ≤ 90 := by exact_mod_cast h90
          linarith
        exact ⟨_, _, _, hx, rfl⟩
      · rw [if_neg h90]
        exact ⟨1, _, _, le_rfl, rfl⟩
  -- Agent.centerToBorder_ne_zero
  · intro dv c cc r TAU hr hN hτ hcc hcross
    have hNpos : 0 < (Vector.ofPoint c).norm := lt_trans hr hN
    have hccpos : 0 < (Vector.ofPoint cc).norm := by
      rcases hcc with h | h
      · rw [h, norm_facts.2.1.1 c TAU hτ]
        exact div_pos hNpos hτ
      · exact lt_of_le_of_lt (norm_facts.1.2.1 _) h
    by_cases hz : (dv.sub (Vector.ofPoint cc)).norm = 0
    · rw [if_pos hz]
      intro hcb
      have hdv := (norm_facts.2.2.2.2.1.2.1 _).mp hz
      have hrp := (norm_facts.2.2.2.2.1.2.1 _).mp hcb
      have hW : ((Vector.ofPoint c).rotated (-Real.arcsin (r / (Vector.ofPoint c).norm))).norm
          ≠ 0 := by
        rw [part9.2]
        exact hNpos.ne'
      have hsin : Real.sin (Real.arcsin (r / (Vector.ofPoint c).norm))
          = r / (Vector.ofPoint c).norm :=
        Real.sin_arcsin (le_trans (by norm_num) (div_pos hr hNpos).le)
          ((div_le_one hNpos).mpr hN.le)
      have hNN : (Vector.ofPoint c).norm * (Vector.ofPoint c).norm = c.x * c.x + c.y * c.y :=
        norm_facts.2.2.2.2.1.1 (Vector.ofPoint c)
      unfold Vector.projectionOnto at hrp
      rw [norm_facts.2.1.2.1 _ _ hW, part9.2, part7.2.2.2.2.2.2.1] at hrp
      rw [Real.cos_neg, Real.sin_neg, hsin] at hrp
      obtain ⟨N, hNdef⟩ : ∃ N, (Vector.ofPoint c).norm = N := ⟨_, rfl⟩
      rw [hNdef] at hrp hNN hNpos
      obtain ⟨co, hco⟩ : ∃ co, Real.cos (Real.arcsin (r / N)) = co := ⟨_, rfl⟩
      rw [hco] at hrp
      simp only [geometry_unfold.2.1.2.1, geometry_unfold.1.2.1,
          geometry_unfold.2.1.2.2.1] at hdv hrp
      obtain ⟨hx, hy⟩ := hrp
      obtain ⟨hdx, hdy⟩ := hdv
      obtain ⟨m, hm⟩ : ∃ m, |dv.x * (c.x * co - c.y * -(r / N))
          + dv.y * (c.x * -(r / N) + c.y * co)| / N / N = m := ⟨_, rfl⟩
      rw [hm] at hx hy
      have hcx : cc.x = (c.x * co - c.y * -(r / N)) * m := by linarith
      have hcy : cc.y = (c.x * -(r / N) + c.y * co) * m := by linarith
      have hmz : m * (r * N) = 0 := by
        have h1 : ((c.x * co - c.y * -(r / N)) * m) * c.y
            - ((c.x * -(r / N) + c.y * co) * m) * c.x = 0 := by
          rw [← hcx, ← hcy]
          exact hcross
        have h2 : ((c.x * co - c.y * -(r / N)) * m) * c.y
            - ((c.x * -(r / N) + c.y * co) * m) * c.x = m * (r / N * (c.x * c.x + c.y * c.y)) := by
          ring
        rw [h2, ← hNN] at h1
        rw [← h1]
        field_simp
        ring
      have hm0 : m = 0 := by
        rcases mul_eq_zero.mp hmz with h | h
        · exact h
        · exact absurd h (mul_pos hr hNpos).ne'
      have hcc0 : (Vector.ofPoint cc).norm = 0 := by
        rw [norm_facts.2.2.2.2.1.2.1]
        simp only [geometry_unfold.1.2.1]
        rw [hcx, hcy, hm0]
        constructor <;> ring
      linarith
    · rw [if_neg hz, norm_facts.2.2.2.2.2.2.1.2.2.2.1 _ _ (by positivity) hz]
      positivity

/-! ## The solver on half-planes that already hold (C6) and on no half-plane (C7) -/

/-- C6: if every half-plane of `H` contains `V_PREF`, then `ORCA::solveLinearProgram` returns
exactly `V_PREF`, for every radius and however the shuffle arranges `H`. -/
theorem ORCA.solveLinearProgram_of_all_contain (shuffle : List HalfPlane → List HalfPlane)
    (hs : IsShuffle shuffle) (H : List HalfPlane) (V_PREF : Vector) (MAX_SPEED : ℝ)
    (hc : ∀ h ∈ H, h.contains (Point.ofVector V_PREF)) :
    ORCA.solveLinearProgram shuffle H V_PREF MAX_SPEED = .ok (Point.ofVector V_PREF) := by
  unfold ORCA.solveLinearProgram ORCA.solveShuffled
  exact solver_facts.1.1 _ _ _ _ _ _ (fun h hh => hc h ((hs H).mem_iff.mp hh))

/-- Witness of C6 (scenario 6): `vPref = (1, 0)`, `R = 1`, `nPos = (-2, 0)`, `n = (1, 0)`. -/
theorem ORCA.solveLinearProgram_of_all_contain_witness :
    IsShuffle id ∧ (∀ h ∈ [HalfPlane.new ⟨-2, 0⟩ ⟨1, 0⟩], h.contains (Point.ofVector ⟨1, 0⟩)) ∧
      ORCA.solveLinearProgram id [HalfPlane.new ⟨-2, 0⟩ ⟨1, 0⟩] ⟨1, 0⟩ 1
        = .ok (Point.ofVector ⟨1, 0⟩) := by
  have hc : ∀ h ∈ [HalfPlane.new ⟨-2, 0⟩ ⟨1, 0⟩], h.contains (Point.ofVector ⟨1, 0⟩) := by
    intro h hh
    rw [List.mem_singleton] at hh
    subst hh
    rw [norm_facts.2.2.2.2.2.2.1.1 _ _ rfl (by norm_num)]
    norm_num [geometry_unfold.2.2.2.1.1, geometry_unfold.1.2.2.2.2.2.2.2,
        geometry_unfold.1.2.2.2.2.2.1, geometry_unfold.1.2.1, geometry_unfold.2.1.2.2.1,
      geometry_unfold.1.2.2.1]
  exact ⟨geometry_facts.1.2.2.1, hc,
      ORCA.solveLinearProgram_of_all_contain id geometry_facts.1.2.2.1 _ _ 1 hc⟩

/-- C8 (scenario 4): with `vPref = (0, 0)`, `R = 1` and the single half-plane
`HalfPlane(nPos = (0.5, 0), n = (1, 0))`, `ORCA::solveLinearProgram` returns `(0.5, 0)`. -/
theorem ORCA.solveLinearProgram_scenario4 (shuffle : List HalfPlane → List HalfPlane)
    (hs : IsShuffle shuffle) :
    ORCA.solveLinearProgram shuffle [HalfPlane.new ⟨1 / 2, 0⟩ ⟨1, 0⟩] ⟨0, 0⟩ 1
      = .ok ⟨1 / 2, 0⟩ := by
  unfold ORCA.solveLinearProgram ORCA.solveShuffled
  rw [(geometry_facts.1.2.1 hs)]
  apply solver_facts.1.2.2.2.2.1
  have hl : (1 : ℝ) / 2 < Real.sqrt (1 ^ 2 - (1 / 2) ^ 2) := by
    rw [Real.lt_sqrt (by norm_num)]; norm_num
  have hl0 : (0 : ℝ) ≤ Real.sqrt (1 ^ 2 - (1 / 2) ^ 2) := Real.sqrt_nonneg _
  rw [solver_facts.2.2.2.2.1.1 _ ⟨1 / 2, 0⟩ ⟨1, 0⟩ ⟨0, 0⟩ 1 _ _ rfl
    (by norm_num) (by norm_num [geometry_unfold.1.2.2.1]) (by norm_num [abs_of_pos]) rfl]
  rw [if_neg (not_le.mpr hl), if_neg (by simp only [not_le]; linarith)]

/-- Witness of C8: the identity is a possible outcome of the shuffle. -/
theorem ORCA.solveLinearProgram_scenario4_witness :
    IsShuffle id ∧
      ORCA.solveLinearProgram id [HalfPlane.new ⟨1 / 2, 0⟩ ⟨1, 0⟩] ⟨0, 0⟩ 1
        = .ok ⟨1 / 2, 0⟩ :=
  ⟨geometry_facts.1.2.2.1, ORCA.solveLinearProgram_scenario4 id geometry_facts.1.2.2.1⟩

/-- C2 fails on the code: with the single half-plane `HalfPlane(nPos = (3, 0), n = (1, 0))`,
`vPref = (0, 5)` (of norm `5`) and `R = 5` the solver returns `(3, 5)`, which lies outside the
disk of radius `5`.  The tests of lines 311-320 compare `projection.x()`, not
`projection.y()`, with `left` and `right`. -/
theorem ORCA.solveLinearProgram_leaves_disk :
    (⟨0, 5⟩ : Vector).norm ≤ 5 ∧
      ORCA.solveLinearProgram id [HalfPlane.new ⟨3, 0⟩ ⟨1, 0⟩] ⟨0, 5⟩ 5 = .ok ⟨3, 5⟩ ∧
      ¬ (Vector.ofPoint ⟨3, 5⟩).norm ≤ 5 := by
  refine ⟨?_, ?_, ?_⟩
  · rw [norm_facts.1.2.2.1 _ (by norm_num)]; norm_num
  · unfold ORCA.solveLinearProgram ORCA.solveShuffled
    apply solver_facts.1.2.2.2.2.1
    rw [solver_facts.2.2.2.2.1.1 _ ⟨3, 0⟩ ⟨1, 0⟩ ⟨0, 5⟩ 5 4 _ rfl
      (by norm_num) (by norm_num [geometry_unfold.1.2.2.1]) (by norm_num [abs_of_pos])
      (norm_facts.1.2.2.2.2.2.2.2.1 _ _ _ (by norm_num) (by norm_num))]
    rw [if_neg (by norm_num), if_neg (by norm_num)]
  · rw [norm_facts.1.2.2.1 _ (by norm_num)]; norm_num [geometry_unfold.1.2.1]

/-- C3 fails on the code: with the single half-plane `HalfPlane(nPos = (4, 0), n = (1, 0))`,
`vPref = (0, 0)` and `R = 5` the solver returns `(4, 3)`, at distance `5` from `vPref`, although
the feasible point `(4, 0)` is at distance `4`. -/
theorem ORCA.solveLinearProgram_not_closest :
    (⟨0, 0⟩ : Vector).norm ≤ 5 ∧
      ORCA.solveLinearProgram id [HalfPlane.new ⟨4, 0⟩ ⟨1, 0⟩] ⟨0, 0⟩ 5 = .ok ⟨4, 3⟩ ∧
      (Vector.ofPoint ⟨4, 0⟩).norm ≤ 5 ∧
      (∀ h ∈ [HalfPlane.new ⟨4, 0⟩ ⟨1, 0⟩], h.contains ⟨4, 0⟩) ∧
      ((⟨4, 0⟩ : Point).from (Point.ofVector ⟨0, 0⟩)).norm
        < ((⟨4, 3⟩ : Point).from (Point.ofVector ⟨0, 0⟩)).norm := by
  refine ⟨?_, ?_, ?_, ?_, ?_⟩
  · rw [norm_facts.1.2.2.1 _ (by norm_num)]; norm_num
  · unfold ORCA.solveLinearProgram ORCA.solveShuffled
    apply solver_facts.1.2.2.2.2.1
    rw [solver_facts.2.2.2.2.1.1 _ ⟨4, 0⟩ ⟨1, 0⟩ ⟨0, 0⟩ 5 3 _ rfl
      (by norm_num) (by norm_num [geometry_unfold.1.2.2.1]) (by norm_num [abs_of_pos])
      (norm_facts.1.2.2.2.2.2.2.2.1 _ _ _ (by norm_num) (by norm_num))]
    rw [if_pos (by norm_num)]
  · rw [norm_facts.1.2.2.1 _ (by norm_num)]; norm_num [geometry_unfold.1.2.1]
  · intro h hh
    rw [List.mem_singleton] at hh
    subst hh
    rw [norm_facts.2.2.2.2.2.2.1.1 _ _ rfl (by norm_num)]
    norm_num [geometry_unfold.2.2.2.1.1, geometry_unfold.1.2.2.2.2.2.2.2,
        geometry_unfold.1.2.2.2.2.2.1, geometry_unfold.1.2.1, geometry_unfold.2.1.2.2.1]
  · rw [norm_facts.1.2.2.2.2.2.2.1 _ 4 (by norm_num)
        (by norm_num [geometry_unfold.1.2.2.2.2.2.2.2, geometry_unfold.1.2.2.2.2.2.1,
              geometry_unfold.1.2.1, geometry_unfold.1.2.2.1]),
      norm_facts.1.2.2.2.2.2.2.1 _ 5 (by norm_num)
        (by norm_num [geometry_unfold.1.2.2.2.2.2.2.2, geometry_unfold.1.2.2.2.2.2.1,
              geometry_unfold.1.2.1, geometry_unfold.1.2.2.1])]
    norm_num

/-! ## Two half-planes: a spurious `LinearProgramInfeasible` (C4) -/

/-- C4 fails on the code: with
`H = [HalfPlane((15, 0), (1, 0)), HalfPlane((0, 24), (0, -1))]` in this order,
`vPref = (0, 25)` and `R = 25` the solver raises `LinearProgramInfeasible`, although `(15, 0)`
lies in the disk and in both half-planes.  The first half-plane moves the solution to
`(15, 25)`, outside the disk (lines 311-320 read `projection.x()`), so that the second
half-plane is visited although the optimum over the disk and the first half-plane already
satisfies it, and its bounding line meets the disk only where the first half-plane fails. -/
theorem ORCA.solveLinearProgram_spurious_infeasible :
    (⟨0, 25⟩ : Vector).norm ≤ 25 ∧
      ORCA.solveLinearProgram id [HalfPlane.new ⟨15, 0⟩ ⟨1, 0⟩, HalfPlane.new ⟨0, 24⟩ ⟨0, -1⟩]
        ⟨0, 25⟩ 25 = .error .LinearProgramInfeasible ∧
      (Vector.ofPoint ⟨15, 0⟩).norm ≤ 25 ∧
      ∀ h ∈ [HalfPlane.new ⟨15, 0⟩ ⟨1, 0⟩, HalfPlane.new ⟨0, 24⟩ ⟨0, -1⟩],
        h.contains ⟨15, 0⟩ := by
  have h1 : HalfPlane.new ⟨15, 0⟩ ⟨1, 0⟩ = ⟨⟨15, 0⟩, ⟨1, 0⟩, ⟨⊤, 0, 15⟩⟩ :=
    norm_facts.2.2.2.2.2.2.1.1 _ _ rfl (by norm_num)
  have h2 : HalfPlane.new ⟨0, 24⟩ ⟨0, -1⟩
      = ⟨⟨0, 24⟩, ⟨0, -1⟩, ⟨((0 : ℝ) : EReal), 24, 0⟩⟩ := by
    rw [norm_facts.2.2.2.2.2.2.1.2.1 _ _ (by norm_num)]
    norm_num
  have hsq : Real.sqrt 196 = 14 := by
    rw [show (196 : ℝ) = 14 ^ 2 by norm_num]
    exact Real.sqrt_sq (by norm_num)
  have hd : ORCA.discriminant ⟨⟨0, 24⟩, ⟨0, -1⟩, ⟨((0 : ℝ) : EReal), 24, 0⟩⟩ 25 = 196 := by
    simp only [geometry_unfold.2.2.2.1.2.1, geometry_unfold.2.1.2.2.2.2.2.1, EReal.coe_ne_top, if_false,
      EReal.toReal_coe]
    norm_num
  have hb : ORCA.circleBounds ⟨⟨0, 24⟩, ⟨0, -1⟩, ⟨((0 : ℝ) : EReal), 24, 0⟩⟩ 25 = (7, -7) := by
    unfold ORCA.circleBounds
    simp only [hd, hsq, geometry_unfold.2.1.2.2.2.2.2.1, EReal.coe_ne_top, if_false,
        EReal.toReal_coe,
      false_and, not_false_eq_true, true_and, false_or]
    norm_num
  have hang : trueMod ((⟨0, -1⟩ : Vector).angleFrom ⟨1, 0⟩) (2 * Real.pi)
      = Real.pi / 2 + Real.pi := by
    unfold Vector.angleFrom
    rw [solver_facts.2.1.1 _ (by norm_num), solver_facts.1.2.2.2.2.2.2.2.2.2 _ (by norm_num),
      sub_zero]
    exact norm_facts.1.2.2.2.2.1 (by positivity) (by linarith [Real.pi_pos])
  have ht : ORCA.tighten ⟨⟨0, 24⟩, ⟨0, -1⟩, ⟨((0 : ℝ) : EReal), 24, 0⟩⟩
      ⟨⟨15, 0⟩, ⟨1, 0⟩, ⟨⊤, 0, 15⟩⟩ (7, -7) = .ok (7, 15) := by
    unfold ORCA.tighten
    simp only [hang, geometry_unfold.2.1.2.2.2.2.2.2.2, EReal.coe_ne_top, if_false,
        geometry_unfold.2.2.1.2.2.2.2.2.2.1, geometry_unfold.2.1.2.2.2.2.2.1,
      if_true, geometry_unfold.2.2.1.2.2.2.2.1, EReal.toReal_coe]
    rw [if_neg (by linarith [Real.pi_pos])]
    norm_num
  refine ⟨?_, ?_, ?_, ?_⟩
  · rw [norm_facts.1.2.2.1 _ (by norm_num)]; norm_num
  · unfold ORCA.solveLinearProgram ORCA.solveShuffled
    simp only [id]
    rw [solver_facts.1.2.2.2.2.2.2.1 _ _ _ _ _ _ _ ⟨15, 25⟩]
    · apply solver_facts.1.2.2.2.2.2.2.2.2.1
      rw [h1, h2]
      refine solver_facts.1.2.2.2.2.2.2.2.1 _ _ _ _ _ _ (7, 15) ?_ ?_ ?_ ?_
      · norm_num [geometry_unfold.2.2.2.1.1, geometry_unfold.1.2.2.2.2.2.2.2,
          geometry_unfold.1.2.2.2.2.2.1, geometry_unfold.1.2.1, geometry_unfold.2.1.2.2.1]
      · rw [hd]; norm_num
      · rw [hb]
        simp only [List.nil_append, solver_unfold.1.2.1, solver_unfold.1.2.2.1, ht]
      · simp only [geometry_unfold.2.2.2.1.2.2.1, geometry_unfold.2.1.2.2.2.2.2.1,
          EReal.coe_ne_top, false_and,
          not_false_eq_true, true_and, false_or]
        left
        norm_num
    · rw [solver_facts.2.2.2.2.1.1 _ ⟨15, 0⟩ ⟨1, 0⟩ ⟨0, 25⟩ 25 20 _ rfl
        (by norm_num) (by norm_num [geometry_unfold.1.2.2.1]) (by norm_num [abs_of_pos])
        (norm_facts.1.2.2.2.2.2.2.2.1 _ _ _ (by norm_num) (by norm_num))]
      rw [if_neg (by norm_num), if_neg (by norm_num)]
  · rw [norm_facts.1.2.2.1 _ (by norm_num)]; norm_num [geometry_unfold.1.2.1]
  · intro h hh
    simp only [List.mem_cons, List.mem_singleton, List.not_mem_nil, or_false] at hh
    rcases hh with rfl | rfl
    · rw [h1]
      norm_num [geometry_unfold.2.2.2.1.1, geometry_unfold.1.2.2.2.2.2.2.2,
          geometry_unfold.1.2.2.2.2.2.1, geometry_unfold.1.2.1, geometry_unfold.2.1.2.2.1]
    · rw [h2]
      norm_num [geometry_unfold.2.2.2.1.1, geometry_unfold.1.2.2.2.2.2.2.2,
          geometry_unfold.1.2.2.2.2.2.1, geometry_unfold.1.2.1, geometry_unfold.2.1.2.2.1]

/-! ## The half-plane of a pair of agents on the truncation circle (C9) -/

/-- C9: mutual avoidance on the truncation circle.  For agents at different positions, with
positive radii, `TAU > 0` and `(v_A - v_B) · (p_B - p_A) ≤ 0`, both `A.orca_A_B(B, TAU)` and
`B.orca_A_B(A, TAU)` return a half-plane, and velocities `vA1`, `vB1` picked in them have a
relative velocity `vA1 - vB1` at distance at least `(r_A + r_B) / TAU` from the centre
`(p_B - p_A) / TAU` of the truncation circle. -/
theorem Agent.orca_A_B_mutual_avoidance (A B : Agent) (TAU : ℝ)
    (hp : A.position ≠ B.position) (hrA : 0 < A.radius) (hrB : 0 < B.radius) (hτ : 0 < TAU)
    (hdot : (A.velocity.sub B.velocity).dot (Vector.ofPoint (B.position.sub A.position)) ≤ 0) :
    ∃ hA hB : HalfPlane, A.orca_A_B B TAU = .ok hA ∧ B.orca_A_B A TAU = .ok hB ∧
      ∀ vA1 vB1 : Point, hA.contains vA1 → hB.contains vB1 →
        (A.radius + B.radius) / TAU ≤
          (Vector.ofPoint
            ((vA1.sub vB1).sub ((B.position.sub A.position).sdiv TAU))).norm := by
  obtain ⟨idA, ⟨pAx, pAy⟩, dA, ⟨vAx, vAy⟩, prefA, rA, mA⟩ := A
  obtain ⟨idB, ⟨pBx, pBy⟩, dB, ⟨vBx, vBy⟩, prefB, rB, mB⟩ := B
  simp only at hp hrA hrB hdot ⊢
  -- the distance between the agents is positive
  have hdd : 0 < (pBx - pAx) * (pBx - pAx) + (pBy - pAy) * (pBy - pAy) := by
    by_contra hcon
    have h0 : (pBx - pAx) * (pBx - pAx) + (pBy - pAy) * (pBy - pAy) = 0 :=
      le_antisymm (not_lt.mp hcon) (add_nonneg (mul_self_nonneg _) (mul_self_nonneg _))
    have hx : pBx - pAx = 0 := by nlinarith [mul_self_nonneg (pBx - pAx),
                                    mul_self_nonneg (pBy - pAy)]
    have hy : pBy - pAy = 0 := by nlinarith [mul_self_nonneg (pBx - pAx),
                                    mul_self_nonneg (pBy - pAy)]
    apply hp
    rw [show pAx = pBx by linarith, show pAy = pBy by linarith]
  have hdAB : (Vector.ofPoint ((⟨pBx, pBy⟩ : Point).sub ⟨pAx, pAy⟩)).norm ≠ 0 := by
    rw [Ne, norm_facts.2.2.2.2.1.2.1]
    simp only [geometry_unfold.1.2.1, geometry_unfold.1.2.2.2.2.2.1]
    rintro ⟨h1, h2⟩
    rw [h1, h2] at hdd
    norm_num at hdd
  have hdBA : (Vector.ofPoint ((⟨pAx, pAy⟩ : Point).sub ⟨pBx, pBy⟩)).norm
      = (Vector.ofPoint ((⟨pBx, pBy⟩ : Point).sub ⟨pAx, pAy⟩)).norm := by
    unfold Vector.norm Vector.dot Vector.ofPoint Point.sub
    congr 1
    ring
  -- the radius of the truncation circle
  have hrc : ∀ r : ℝ, r * (Vector.ofPoint (((⟨pBx, pBy⟩ : Point).sub ⟨pAx, pAy⟩).sdiv TAU)).norm /
      (Vector.ofPoint ((⟨pBx, pBy⟩ : Point).sub ⟨pAx, pAy⟩)).norm = r / TAU := by
    intro r
    rw [norm_facts.2.1.1 _ _ hτ]
    field_simp
    ring
  have hrc' : ∀ r : ℝ, r * (Vector.ofPoint (((⟨pAx, pAy⟩ : Point).sub ⟨pBx, pBy⟩).sdiv TAU)).norm /
      (Vector.ofPoint ((⟨pAx, pAy⟩ : Point).sub ⟨pBx, pBy⟩)).norm = r / TAU := by
    intro r
    rw [norm_facts.2.1.1 _ _ hτ, hdBA]
    field_simp
    ring
  have hr : 0 < (rA + rB) / TAU := div_pos (add_pos hrA hrB) hτ
  -- the vector from the centre of the truncation circle to `v_A - v_B`
  have hkA : (((⟨vAx, vAy⟩ : Vector).sub ⟨vBx, vBy⟩).sub
      (Vector.ofPoint (((⟨pBx, pBy⟩ : Point).sub ⟨pAx, pAy⟩).sdiv TAU))).norm ≠ 0 := by
    rw [Ne, norm_facts.2.2.2.2.1.2.1]
    simp only [geometry_unfold.1.2.1, geometry_unfold.1.2.2.2.2.2.1, geometry_unfold.2.1.2.1,
        geometry_unfold.1.2.2.2.2.2.2.1]
    rintro ⟨h1, h2⟩
    simp only [geometry_unfold.2.1.2.2.1, geometry_unfold.2.1.2.1, geometry_unfold.1.2.1,
        geometry_unfold.1.2.2.2.2.2.1] at hdot
    have e1 : vAx - vBx = (pBx - pAx) / TAU := by linarith
    have e2 : vAy - vBy = (pBy - pAy) / TAU := by linarith
    rw [e1, e2] at hdot
    have : 0 < (pBx - pAx) / TAU * (pBx - pAx) + (pBy - pAy) / TAU * (pBy - pAy) := by
      have : (pBx - pAx) / TAU * (pBx - pAx) + (pBy - pAy) / TAU * (pBy - pAy)
          = ((pBx - pAx) * (pBx - pAx) + (pBy - pAy) * (pBy - pAy)) / TAU := by ring
      rw [this]
      exact div_pos hdd hτ
    linarith
  have hkBA : (((⟨vBx, vBy⟩ : Vector).sub ⟨vAx, vAy⟩).sub
      (Vector.ofPoint (((⟨pAx, pAy⟩ : Point).sub ⟨pBx, pBy⟩).sdiv TAU))).norm
      = (((⟨vAx, vAy⟩ : Vector).sub ⟨vBx, vBy⟩).sub
      (Vector.ofPoint (((⟨pBx, pBy⟩ : Point).sub ⟨pAx, pAy⟩).sdiv TAU))).norm := by
    unfold Vector.norm Vector.dot Vector.ofPoint Point.sub Vector.sub Point.sdiv
    congr 1
    ring
  have hkB : (((⟨vBx, vBy⟩ : Vector).sub ⟨vAx, vAy⟩).sub
      (Vector.ofPoint (((⟨pAx, pAy⟩ : Point).sub ⟨pBx, pBy⟩).sdiv TAU))).norm ≠ 0 := by
    rw [hkBA]; exact hkA
  have hdot' : ((⟨vBx, vBy⟩ : Vector).sub ⟨vAx, vAy⟩).dot
      (Vector.ofPoint ((⟨pAx, pAy⟩ : Point).sub ⟨pBx, pBy⟩)) ≤ 0 := by
    simp only [geometry_unfold.2.1.2.2.1, geometry_unfold.2.1.2.1, geometry_unfold.1.2.1,
        geometry_unfold.1.2.2.2.2.2.1] at hdot ⊢
    linarith
  refine ⟨_, _, solver_facts.2.1.2.1 _ _ TAU _ _ rfl rfl hdot hkA,
    solver_facts.2.1.2.1 _ _ TAU _ _ rfl rfl hdot' hkB, ?_⟩
  simp only
  rw [hrc, hrc', add_comm rB rA]
  intro vA1 vB1 hA hB
  have hwA := norm_facts.2.2.2.2.2.2.1.2.2.2.1 _ _ hr.le hkA
  have hwB := norm_facts.2.2.2.2.2.2.1.2.2.2.1 _ _ hr.le hkB
  unfold HalfPlane.contains at hA hB
  rw [norm_facts.1.2.2.2.2.2.2.2.2.1, norm_facts.1.2.2.2.2.2.2.2.2.2 _ _ (by rw [hwA]; exact hr.ne')] at hA
  rw [norm_facts.1.2.2.2.2.2.2.2.2.1, norm_facts.1.2.2.2.2.2.2.2.2.2 _ _ (by rw [hwB]; exact hr.ne')] at hB
  rw [norm_facts.2.1.2.1 _ _ hkA] at hA
  rw [norm_facts.2.1.2.1 _ _ hkB, hkBA] at hB
  have hN := norm_facts.2.2.2.2.1.2.2.2.1 hkA
  have hNN := norm_facts.2.2.2.2.1.1 (((⟨vAx, vAy⟩ : Vector).sub ⟨vBx, vBy⟩).sub
      (Vector.ofPoint (((⟨pBx, pBy⟩ : Point).sub ⟨pAx, pAy⟩).sdiv TAU)))
  generalize (((⟨vAx, vAy⟩ : Vector).sub ⟨vBx, vBy⟩).sub
      (Vector.ofPoint (((⟨pBx, pBy⟩ : Point).sub ⟨pAx, pAy⟩).sdiv TAU))).norm = N at *
  obtain ⟨ax, ay⟩ := vA1
  obtain ⟨bx, b_y⟩ := vB1
  simp only [geometry_unfold.1.2.2.2.2.2.2.2, geometry_unfold.1.2.2.2.2.2.1, geometry_unfold.1.2.1,
      geometry_unfold.2.1.2.2.1, geometry_unfold.1.2.2.1, geometry_unfold.2.1.1,
    geometry_unfold.2.1.2.1, geometry_unfold.2.1.2.2.2.2.1, geometry_unfold.1.2.2.2.2.2.2.1,
        ge_iff_le] at hA hB hNN ⊢
  have ht : 0 < (rA + rB) / TAU / N := div_pos hr hN
  have hcore := norm_facts.2.1.2.2.1 ax ay bx b_y vAx vAy vBx vBy ((pBx - pAx) / TAU)
    ((pBy - pAy) / TAU) (vAx - vBx - (pBx - pAx) / TAU) (vAy - vBy - (pBy - pAy) / TAU)
    ((rA + rB) / TAU / N) ht rfl rfl hA (by
      have e1 : vBx - vAx - (pAx - pBx) / TAU = -(vAx - vBx - (pBx - pAx) / TAU) := by ring
      have e2 : vBy - vAy - (pAy - pBy) / TAU = -(vAy - vBy - (pBy - pAy) / TAU) := by ring
      rw [e1, e2] at hB
      exact hB)
  rw [← hNN] at hcore
  have hsq : ((rA + rB) / TAU / N) ^ 2 * (N * N) = ((rA + rB) / TAU) * ((rA + rB) / TAU) := by
    field_simp
    ring
  rw [hsq] at hcore
  unfold Vector.norm Vector.dot
  simp only
  rw [← Real.sqrt_mul_self hr.le]
  exact Real.sqrt_le_sqrt hcore

/-- Witness of C9: `A` at `(0, 0)` with velocity `(-1, 0)`, `B` at `(4, 0)` with velocity
`(1, 0)`, both of radius `1`, `TAU = 2`. -/
theorem Agent.orca_A_B_mutual_avoidance_witness :
    ∃ hA hB : HalfPlane,
      Agent.orca_A_B ⟨0, ⟨0, 0⟩, ⟨-10, 0⟩, ⟨-1, 0⟩, ⟨-1, 0⟩, 1, 1⟩
        ⟨1, ⟨4, 0⟩, ⟨10, 0⟩, ⟨1, 0⟩, ⟨1, 0⟩, 1, 1⟩ 2 = .ok hA ∧
      Agent.orca_A_B ⟨1, ⟨4, 0⟩, ⟨10, 0⟩, ⟨1, 0⟩, ⟨1, 0⟩, 1, 1⟩
        ⟨0, ⟨0, 0⟩, ⟨-10, 0⟩, ⟨-1, 0⟩, ⟨-1, 0⟩, 1, 1⟩ 2 = .ok hB ∧
      ∀ vA1 vB1 : Point, hA.contains vA1 → hB.contains vB1 →
        ((1 : ℝ) + 1) / 2 ≤
          (Vector.ofPoint ((vA1.sub vB1).sub (((⟨4, 0⟩ : Point).sub ⟨0, 0⟩).sdiv 2))).norm :=
  Agent.orca_A_B_mutual_avoidance ⟨0, ⟨0, 0⟩, ⟨-10, 0⟩, ⟨-1, 0⟩, ⟨-1, 0⟩, 1, 1⟩
    ⟨1, ⟨4, 0⟩, ⟨10, 0⟩, ⟨1, 0⟩, ⟨1, 0⟩, 1, 1⟩ 2
    (by intro h; injection h with hx _; norm_num at hx) (by norm_num) (by norm_num)
    (by norm_num)
    (by norm_num [geometry_unfold.2.1.2.1, geometry_unfold.2.1.2.2.1, geometry_unfold.1.2.1,
          geometry_unfold.1.2.2.2.2.2.1])

/-! ## Scenario 1: two agents head-on (C10) -/

/-- C1 fails on the code: with `H = [HalfPlane((6, 0), (1, 0)), HalfPlane((15, 0), (-1, -1))]`,
`vPref = (0, 10)` and `R = 10` the solver returns `(6, 10)`, which the second half-plane does
not contain; it does so when the shuffle leaves `H` as it is, and also when it swaps the two
half-planes.  The vertical bounding line `x = 6` moves the solution out of the disk (the
tests of lines 311-320 read `projection.x()`); the bounding line of the other half-plane
misses the disk, so lines 118-124 take that half-plane for redundant. -/
theorem ORCA.solveLinearProgram_violates_halfPlane :
    (⟨0, 10⟩ : Vector).norm ≤ 10 ∧
      ORCA.solveLinearProgram id [HalfPlane.new ⟨6, 0⟩ ⟨1, 0⟩, HalfPlane.new ⟨15, 0⟩ ⟨-1, -1⟩]
        ⟨0, 10⟩ 10 = .ok ⟨6, 10⟩ ∧
      ORCA.solveShuffled [HalfPlane.new ⟨15, 0⟩ ⟨-1, -1⟩, HalfPlane.new ⟨6, 0⟩ ⟨1, 0⟩]
        ⟨0, 10⟩ 10 = .ok ⟨6, 10⟩ ∧
      ¬ (HalfPlane.new ⟨15, 0⟩ ⟨-1, -1⟩).contains ⟨6, 10⟩ := by
  have h2 : HalfPlane.new ⟨15, 0⟩ ⟨-1, -1⟩
      = ⟨⟨15, 0⟩, ⟨-1, -1⟩, ⟨((-1 : ℝ) : EReal), 15, 15⟩⟩ := by
    rw [norm_facts.2.2.2.2.2.2.1.2.1 _ _ (by norm_num)]
    norm_num
  have hc : ¬ (HalfPlane.new ⟨15, 0⟩ ⟨-1, -1⟩).contains ⟨6, 10⟩ := by
    rw [h2]
    norm_num [geometry_unfold.2.2.2.1.1, geometry_unfold.1.2.2.2.2.2.2.2,
        geometry_unfold.1.2.2.2.2.2.1, geometry_unfold.1.2.1, geometry_unfold.2.1.2.2.1]
  refine ⟨?_, ?_, solver_facts.2.2.2.2.1.2.2.2.2.1, hc⟩
  · rw [norm_facts.1.2.2.1 _ (by norm_num)]; norm_num
  · unfold ORCA.solveLinearProgram ORCA.solveShuffled
    simp only [id]
    rw [solver_facts.1.2.2.2.2.2.2.1 _ _ _ _ _ _ _ ⟨6, 10⟩]
    · apply solver_facts.1.2.2.2.2.1
      apply solver_facts.1.2.2.2.2.2.1
      · rw [h2]
        simp only [geometry_unfold.2.2.2.1.2.1, geometry_unfold.2.1.2.2.2.2.2.1, EReal.coe_ne_top, if_false,
          EReal.toReal_coe]
        norm_num
      · rw [h2]
        norm_num [geometry_unfold.1.2.2.2.2.2.2.2, geometry_unfold.1.2.2.2.2.2.1,
            geometry_unfold.1.2.1, geometry_unfold.2.1.2.2.1, geometry_unfold.1.2.2.2.1]
    · rw [solver_facts.2.2.2.2.1.1 _ ⟨6, 0⟩ ⟨1, 0⟩ ⟨0, 10⟩ 10 8 _ rfl
        (by norm_num) (by norm_num [geometry_unfold.1.2.2.1]) (by norm_num [abs_of_pos])
        (norm_facts.1.2.2.2.2.2.2.2.1 _ _ _ (by norm_num) (by norm_num))]
      rw [if_neg (by norm_num), if_neg (by norm_num)]

/-! ## The engine: `converged` (C16) and `moveAgents` (C15) -/

/-- C16: `ORCA::converged()` is true if and only if every registered agent satisfies
`|destination - position| ≤ arrivalThreshold`; it is true when no agent is registered. -/
theorem ORCA.converged_iff (S : ORCA) :
    (S.converged = true ↔
      ∀ agent ∈ S.agents, (agent.destination.from agent.position).norm ≤ S.arrivalThreshold) ∧
    (S.agents = [] → S.converged = true) := by
  constructor
  · exact norm_facts.2.1.2.2.2.2.2.2.1 _ _
  · intro h
    unfold ORCA.converged
    rw [h]
    rfl

/-- Witness of C16: the engine state with no agent. -/
theorem ORCA.converged_iff_witness :
    (⟨[], 2, 1 / 10, 1 / 2⟩ : ORCA).agents = [] ∧ (⟨[], 2, 1 / 10,
        1 / 2⟩ : ORCA).converged = true :=
  ⟨rfl, (ORCA.converged_iff ⟨[], 2, 1 / 10, 1 / 2⟩).2 rfl⟩

/-- C15: after `ORCA::moveAgents(DELTA_T)` the agents are as many as before and in the same
order; the position of each is its old position plus `velocity * DELTA_T`, its preferred
velocity is `destination - position` (the new position) clamped to norm `maxSpeed`, and its
velocity, destination, radius, maximum speed and id are unchanged, as are `tau`, `deltaT` and
the arrival threshold. -/
theorem ORCA.moveAgents_effect (S : ORCA) (DELTA_T : ℝ) :
    (S.moveAgents DELTA_T).tau = S.tau ∧ (S.moveAgents DELTA_T).deltaT = S.deltaT ∧
    (S.moveAgents DELTA_T).arrivalThreshold = S.arrivalThreshold ∧
    (S.moveAgents DELTA_T).agents.length = S.agents.length ∧
    ∀ (i : ℕ) (h : i < S.agents.length) (h1 : i < (S.moveAgents DELTA_T).agents.length),
      ((S.moveAgents DELTA_T).agents.get ⟨i, h1⟩).position
        = ⟨(S.agents.get ⟨i, h⟩).position.x + (S.agents.get ⟨i, h⟩).velocity.x * DELTA_T,
          (S.agents.get ⟨i, h⟩).position.y + (S.agents.get ⟨i, h⟩).velocity.y * DELTA_T⟩ ∧
      ((S.moveAgents DELTA_T).agents.get ⟨i, h1⟩).prefVelocity
        = ((S.agents.get ⟨i, h⟩).destination.from
            ((S.moveAgents DELTA_T).agents.get ⟨i, h1⟩).position).limitNorm
          (S.agents.get ⟨i, h⟩).maxSpeed ∧
      ((S.moveAgents DELTA_T).agents.get ⟨i, h1⟩).velocity = (S.agents.get ⟨i, h⟩).velocity ∧
      ((S.moveAgents DELTA_T).agents.get ⟨i, h1⟩).destination
        = (S.agents.get ⟨i, h⟩).destination ∧
      ((S.moveAgents DELTA_T).agents.get ⟨i, h1⟩).radius = (S.agents.get ⟨i, h⟩).radius ∧
      ((S.moveAgents DELTA_T).agents.get ⟨i, h1⟩).maxSpeed = (S.agents.get ⟨i, h⟩).maxSpeed ∧
      ((S.moveAgents DELTA_T).agents.get ⟨i, h1⟩).id = (S.agents.get ⟨i, h⟩).id := by
  refine ⟨rfl, rfl, rfl, by simp [norm_unfold.1.2.2.2.2.1], ?_⟩
  intro i h h1
  have hget : (S.moveAgents DELTA_T).agents.get ⟨i, h1⟩ = (S.agents.get ⟨i, h⟩).move DELTA_T := by
    simp [norm_unfold.1.2.2.2.2.1]
  rw [hget]
  exact ⟨rfl, rfl, rfl, rfl, rfl, rfl, rfl⟩

/-- Witness of C15: the first agent of scenario 1, moving with velocity `(-1, 0)` for `0.1`. -/
theorem ORCA.moveAgents_effect_witness :
    ∃ (h : 0 < (scenario1State 10 ⟨-1, 0⟩ ⟨1, 0⟩).agents.length)
      (h1 : 0 < ((scenario1State 10 ⟨-1, 0⟩ ⟨1, 0⟩).moveAgents (1 / 10)).agents.length),
      (((scenario1State 10 ⟨-1, 0⟩ ⟨1, 0⟩).moveAgents (1 / 10)).agents.get ⟨0, h1⟩).position
        = ⟨((scenario1State 10 ⟨-1, 0⟩ ⟨1, 0⟩).agents.get ⟨0, h⟩).position.x
            + ((scenario1State 10 ⟨-1, 0⟩ ⟨1, 0⟩).agents.get ⟨0, h⟩).velocity.x * (1 / 10),
          ((scenario1State 10 ⟨-1, 0⟩ ⟨1, 0⟩).agents.get ⟨0, h⟩).position.y
            + ((scenario1State 10 ⟨-1, 0⟩ ⟨1, 0⟩).agents.get ⟨0, h⟩).velocity.y * (1 / 10)⟩ :=
  ⟨by simp [geometry_unfold.2.2.2.1.2.2.2.2.2.2.2], by simp [geometry_unfold.2.2.2.1.2.2.2.2.2.2.2,
                                                         norm_unfold.1.2.2.2.2.1],
    ((ORCA.moveAgents_effect (scenario1State 10 ⟨-1, 0⟩ ⟨1, 0⟩) (1 / 10)).2.2.2.2 0 _ _).1⟩

/-! ## Scenario 1 never converges (C11) -/

/-- C12: for an agent with `maxSpeed ≥ 0` that was built by a constructor and changed by
`move` and `updateVelocity` only, the agent after `updateVelocity(V)` satisfies
`|velocity| ≤ |prefVelocity| ≤ maxSpeed`, for every `V`. -/
theorem Agent.updateVelocity_bounds (A : Agent) (hA : A.Reachable) (hM : 0 ≤ A.maxSpeed)
    (V : Vector) :
    (A.updateVelocity V).velocity.norm ≤ (A.updateVelocity V).prefVelocity.norm ∧
      (A.updateVelocity V).prefVelocity.norm ≤ (A.updateVelocity V).maxSpeed :=
  ⟨norm_facts.2.2.2.2.2.2.2.2.1.2.2.1 V _ (norm_facts.1.2.1 A.prefVelocity),
    norm_facts.2.2.2.2.2.2.2.2.2.1 A hA hM⟩

/-- Witness of C12: agent `A` of scenario 1 after one `move(0.1)`, asked for the velocity
`(3, 4)`. -/
theorem Agent.updateVelocity_bounds_witness :
    ((Agent.new 0 ⟨10, 0⟩ ⟨-10, 0⟩ 1 1).move (1 / 10)).Reachable ∧
    0 ≤ ((Agent.new 0 ⟨10, 0⟩ ⟨-10, 0⟩ 1 1).move (1 / 10)).maxSpeed ∧
    ((((Agent.new 0 ⟨10, 0⟩ ⟨-10, 0⟩ 1 1).move (1 / 10)).updateVelocity ⟨3, 4⟩).velocity.norm
      ≤ (((Agent.new 0 ⟨10, 0⟩ ⟨-10, 0⟩ 1 1).move (1 / 10)).updateVelocity
        ⟨3, 4⟩).prefVelocity.norm ∧
    (((Agent.new 0 ⟨10, 0⟩ ⟨-10, 0⟩ 1 1).move (1 / 10)).updateVelocity ⟨3, 4⟩).prefVelocity.norm
      ≤ (((Agent.new 0 ⟨10, 0⟩ ⟨-10, 0⟩ 1 1).move (1 / 10)).updateVelocity ⟨3, 4⟩).maxSpeed) :=
  ⟨Agent.Reachable.move _ _ (Agent.Reachable.new 0 ⟨10, 0⟩ ⟨-10, 0⟩ 1 1), by
      show (0 : ℝ) ≤ 1
      norm_num,
    Agent.updateVelocity_bounds _
      (Agent.Reachable.move _ _ (Agent.Reachable.new 0 ⟨10, 0⟩ ⟨-10, 0⟩ 1 1))
      (by show (0 : ℝ) ≤ 1; norm_num) ⟨3, 4⟩⟩

/-! ## The half-planes of an agent: `orca_A` (C13) -/

/-- C13: `A.orca_A(agents, TAU)` is the list of the half-planes `A.orca_A_B(B, TAU)` of those
`B` in `agents`, in the order of `agents`, whose id differs from that of `A` and for which
`|p_A - p_B| ≤ 2 * maxSpeed_A` (an exception of one of these calls is the exception of
`orca_A`); when it returns, its result has one half-plane for each such `B` and none for any
other agent. -/
theorem Agent.orca_A_is_filtered_pairs (A : Agent) (agents : List Agent) (TAU : ℝ) :
    A.orca_A agents TAU = A.orca_A_spec agents TAU ∧
      ∀ hs : List HalfPlane, A.orca_A agents TAU = .ok hs →
        (agents.filter (fun B => decide (A.id ≠ B.id ∧
            (A.position.from B.position).norm ≤ 2 * A.maxSpeed))).map
          (fun B => A.orca_A_B B TAU) = hs.map Except.ok := by
  refine ⟨solver_facts.2.1.2.2.2.2.2.2.2.2.1 A TAU agents, fun hs h => ?_⟩
  rw [solver_facts.2.1.2.2.2.2.2.2.2.2.1] at h
  unfold Agent.orca_A_spec at h
  exact geometry_facts.1.2.2.2.2.2.2.2.1 _ hs h

/-- Witness of C13: the two agents of scenario 1 at their start, `20` apart: no half-plane. -/
theorem Agent.orca_A_is_filtered_pairs_witness :
    Agent.orca_A ⟨0, ⟨10, 0⟩, ⟨-10, 0⟩, ⟨0, 0⟩, ⟨-1, 0⟩, 1, 1⟩
        [⟨0, ⟨10, 0⟩, ⟨-10, 0⟩, ⟨0, 0⟩, ⟨-1, 0⟩, 1, 1⟩,
          ⟨1, ⟨-10, 0⟩, ⟨10, 0⟩, ⟨0, 0⟩, ⟨1, 0⟩, 1, 1⟩] 2 = .ok [] ∧
      (([⟨0, ⟨10, 0⟩, ⟨-10, 0⟩, ⟨0, 0⟩, ⟨-1, 0⟩, 1, 1⟩,
          ⟨1, ⟨-10, 0⟩, ⟨10, 0⟩, ⟨0, 0⟩, ⟨1, 0⟩, 1, 1⟩] : List Agent).filter
        (fun B => decide ((0 : ℤ) ≠ B.id ∧
          ((⟨10, 0⟩ : Point).from B.position).norm ≤ 2 * 1))).map
        (fun B => Agent.orca_A_B ⟨0, ⟨10, 0⟩, ⟨-10, 0⟩, ⟨0, 0⟩, ⟨-1, 0⟩, 1, 1⟩ B 2)
        = ([] : List HalfPlane).map Except.ok := by
  have hfar : ¬ (((⟨10, 0⟩ : Point).from ⟨-10, 0⟩).norm ≤ 2 * 1) := by
    simp only [geometry_unfold.1.2.2.2.2.2.2.2, geometry_unfold.1.2.2.2.2.2.1,
        geometry_unfold.1.2.1, sub_self]
    rw [norm_facts.1.2.2.2.1]
    norm_num [abs_of_pos]
  have h : Agent.orca_A ⟨0, ⟨10, 0⟩, ⟨-10, 0⟩, ⟨0, 0⟩, ⟨-1, 0⟩, 1, 1⟩
        [⟨0, ⟨10, 0⟩, ⟨-10, 0⟩, ⟨0, 0⟩, ⟨-1, 0⟩, 1, 1⟩,
          ⟨1, ⟨-10, 0⟩, ⟨10, 0⟩, ⟨0, 0⟩, ⟨1, 0⟩, 1, 1⟩] 2 = .ok [] := by
    rw [solver_facts.2.1.2.2.2.2.1 _ _ _ (by norm_num)]
    exact if_neg hfar
  exact ⟨h, (Agent.orca_A_is_filtered_pairs _ _ 2).2 [] h⟩

/-! ## The two passes of `iteration` (C14) -/

/-- C14: when `ORCA::iteration()` returns, the agents are as many as before and in the same
order, and agent `i` differs from what it was only in its velocity, which is the solution of
the linear program for the half-planes `orca_A` computes from the agents as they were before
the call, clamped to the norm of its preferred velocity. -/
theorem ORCA.iteration_two_pass (shuffle : List HalfPlane → List HalfPlane) (S S1 : ORCA)
    (h : ORCA.iteration shuffle S = .ok S1) :
    S1.tau = S.tau ∧ S1.deltaT = S.deltaT ∧ S1.arrivalThreshold = S.arrivalThreshold ∧
    S1.agents.length = S.agents.length ∧
    ∀ (i : ℕ) (hi : i < S.agents.length) (hi1 : i < S1.agents.length),
      ∃ (halfPlanes : List HalfPlane) (p : Point),
        (S.agents.get ⟨i, hi⟩).orca_A S.agents S.tau = .ok halfPlanes ∧
        ORCA.solveLinearProgram shuffle halfPlanes (S.agents.get ⟨i, hi⟩).prefVelocity
          (S.agents.get ⟨i, hi⟩).maxSpeed = .ok p ∧
        S1.agents.get ⟨i, hi1⟩ =
          { S.agents.get ⟨i, hi⟩ with
            velocity := (Vector.ofPoint p).limitNorm (S.agents.get ⟨i,
                hi⟩).prefVelocity.norm } := by
  unfold ORCA.iteration at h
  cases hv : ORCA.newVelocities shuffle S.agents S.tau S.agents with
  | error e => rw [hv] at h; cases h
  | ok vs =>
    rw [hv] at h
    injection h with h
    subst h
    have hF := norm_facts.2.1.2.2.2.2.2.2.2.1 _ _ _
      (solver_facts.2.1.2.2.2.2.2.2.2.2.2 shuffle S.agents S.tau S.agents vs hv)
    refine ⟨rfl, rfl, rfl, hF.length_eq.symm, ?_⟩
    intro i hi hi1
    obtain ⟨v, ⟨halfPlanes, p, h1, h2, h3⟩, h4⟩ := hF.get hi hi1
    refine ⟨halfPlanes, p, h1, h2, ?_⟩
    rw [h4, h3]
    rfl

/-- Witness of C14: the first iteration of scenario 1. -/
theorem ORCA.iteration_two_pass_witness :
    ORCA.iteration id (scenario1State 10 ⟨0, 0⟩ ⟨0, 0⟩)
      = .ok (scenario1State 10 ⟨-1, 0⟩ ⟨1, 0⟩) ∧
    (scenario1State 10 ⟨-1, 0⟩ ⟨1, 0⟩).agents.length
      = (scenario1State 10 ⟨0, 0⟩ ⟨0, 0⟩).agents.length ∧
    ∃ (halfPlanes : List HalfPlane) (p : Point),
      Agent.orca_A ⟨0, ⟨10, 0⟩, ⟨-10, 0⟩, ⟨0, 0⟩, ⟨-1, 0⟩, 1, 1⟩
        (scenario1State 10 ⟨0, 0⟩ ⟨0, 0⟩).agents 2 = .ok halfPlanes ∧
      ORCA.solveLinearProgram id halfPlanes ⟨-1, 0⟩ 1 = .ok p ∧
      (⟨0, ⟨10, 0⟩, ⟨-10, 0⟩, ⟨-1, 0⟩, ⟨-1, 0⟩, 1, 1⟩ : Agent) =
        { (⟨0, ⟨10, 0⟩, ⟨-10, 0⟩, ⟨0, 0⟩, ⟨-1, 0⟩, 1, 1⟩ : Agent) with
          velocity := (Vector.ofPoint p).limitNorm (⟨-1, 0⟩ : Vector).norm } := by
  have h := solver_facts.2.2.2.2.1.2.2.2.2.2.1 id geometry_facts.1.2.2.1 10 (by norm_num) ⟨0, 0⟩ ⟨0, 0⟩
  have h2 := ORCA.iteration_two_pass id _ _ h
  exact ⟨h, h2.2.2.2.1,
    h2.2.2.2.2 0 (by simp [geometry_unfold.2.2.2.1.2.2.2.2.2.2.2]) (by simp
                                                                         [geometry_unfold.2.2.2.1.2.2.2.2.2.2.2])⟩

/-! ## Lines: `intersect`, `getPointAtX`, `getPointAtY` (C18, C19, C20) -/

/-- C18: `L1.intersect(L2)` fails with `LinesParallel` if and only if the two slopes are
equal; when they differ it returns a point, so that no exception (in particular no
`LineVertical`) is raised. -/
theorem Line.intersect_fails_iff (L1 L2 : Line) :
    (L1.intersect L2 = .error .LinesParallel ↔ L1.slope = L2.slope) ∧
      (L1.slope ≠ L2.slope → ∃ Q : Point, L1.intersect L2 = .ok Q) := by
  by_cases hs : L1.slope = L2.slope
  · refine ⟨⟨fun _ => hs, fun _ => ?_⟩, fun h => absurd hs h⟩
    unfold Line.intersect Line.parallel
    rw [if_pos hs]
  · have hex : ∃ Q : Point, L1.intersect L2 = .ok Q := by
      unfold Line.intersect Line.parallel
      rw [if_neg hs]
      by_cases hv1 : L1.isVertical
      · have hv2 : ¬ L2.isVertical := fun hv2 => hs (hv1.trans hv2.symm)
        rw [if_pos hv1]
        unfold Line.getPointAtX
        rw [if_neg hv2]
        exact ⟨_, rfl⟩
      · rw [if_neg hv1]
        unfold Line.getPointAtX
        rw [if_neg hv1]
        split_ifs <;> exact ⟨_, rfl⟩
    refine ⟨⟨fun h => ?_, fun h => absurd h hs⟩, fun _ => hex⟩
    obtain ⟨Q, hQ⟩ := hex
    rw [hQ] at h
    cases h

/-- Witness of C18: the vertical line `x = 3` and the diagonal `y = x`. -/
theorem Line.intersect_fails_iff_witness :
    (⟨⊤, 0, 3⟩ : Line).slope ≠ (⟨((1 : ℝ) : EReal), 0, 0⟩ : Line).slope ∧
      ∃ Q : Point, Line.intersect ⟨⊤, 0, 3⟩ ⟨((1 : ℝ) : EReal), 0, 0⟩ = .ok Q :=
  ⟨(EReal.coe_ne_top 1).symm,
    (Line.intersect_fails_iff ⟨⊤, 0, 3⟩ ⟨((1 : ℝ) : EReal), 0, 0⟩).2 (EReal.coe_ne_top 1).symm⟩

/-- C19: for two lines that satisfy the invariant of `Line` and have different slopes,
`L1.intersect(L2)` returns a point that lies on both lines. -/
theorem Line.intersect_on_both (L1 L2 : Line) (h1 : L1.Invariant) (h2 : L2.Invariant)
    (hs : L1.slope ≠ L2.slope) :
    ∃ Q : Point, L1.intersect L2 = .ok Q ∧ L1.passesThrough Q ∧ L2.passesThrough Q := by
  unfold Line.intersect Line.parallel
  rw [if_neg hs]
  by_cases hv1 : L1.isVertical
  · have hv2 : ¬ L2.isVertical := fun hv2 => hs (hv1.trans hv2.symm)
    rw [if_pos hv1]
    unfold Line.getPointAtX
    rw [if_neg hv2]
    refine ⟨_, rfl, ?_, ?_⟩
    · unfold Line.passesThrough
      rw [if_pos hv1]
    · unfold Line.passesThrough
      rw [if_neg hv2]
  · rw [if_neg hv1]
    unfold Line.getPointAtX
    simp only [if_neg hv1]
    by_cases hv2 : L2.isVertical
    · rw [if_pos hv2]
      refine ⟨_, rfl, ?_, ?_⟩
      · unfold Line.passesThrough
        rw [if_neg hv1]
      · unfold Line.passesThrough
        rw [if_pos hv2]
    · rw [if_neg hv2]
      refine ⟨_, rfl, ?_, ?_⟩
      · unfold Line.passesThrough
        rw [if_neg hv1]
      · unfold Line.passesThrough
        rw [if_neg hv2]
        have hne := geometry_facts.2.2.2.1.1 L1 L2 hv1 hv2 h1.1 h2.1 hs
        have hsub : L1.slope.toReal - L2.slope.toReal ≠ 0 := sub_ne_zero.mpr hne
        simp only
        field_simp
        ring

/-- Witness of C19: the vertical line `x = 3` and the line `y = 2 x + 1`. -/
theorem Line.intersect_on_both_witness :
    ∃ Q : Point, Line.intersect ⟨⊤, 0, 3⟩ ⟨((2 : ℝ) : EReal), 1, -1 / 2⟩ = .ok Q ∧
      (⟨⊤, 0, 3⟩ : Line).passesThrough Q ∧
      (⟨((2 : ℝ) : EReal), 1, -1 / 2⟩ : Line).passesThrough Q :=
  Line.intersect_on_both ⟨⊤, 0, 3⟩ ⟨((2 : ℝ) : EReal), 1,
      -1 / 2⟩ (geometry_facts.1.2.2.2.2.2.2.2.2.2 3)
    (geometry_facts.2.1.1 2 1 (by norm_num)) (EReal.coe_ne_top 2).symm

/-- C20: `getPointAtX(t)` fails with `LineVertical` exactly for a vertical line and returns
`(t, slope * t + yIntercept)` otherwise; `getPointAtY(t)` fails with `LineHorizontal` exactly
for a horizontal line and otherwise returns a point with `y = t`, which is `(xIntercept, t)`
for a vertical line and lies on the line (whose slope is not `-∞`). -/
theorem Line.getPoint_fails_iff (L : Line) (t : ℝ) :
    (L.getPointAtX t = .error .LineVertical ↔ L.isVertical) ∧
    (¬ L.isVertical → L.getPointAtX t = .ok ⟨t, L.slope.toReal * t + L.yIntercept⟩) ∧
    (L.getPointAtY t = .error .LineHorizontal ↔ L.isHorizontal) ∧
    (¬ L.isHorizontal → ∃ Q : Point, L.getPointAtY t = .ok Q ∧ Q.y = t ∧
      (L.isVertical → Q = ⟨L.xIntercept, t⟩) ∧ (L.slope ≠ ⊥ → L.passesThrough Q)) := by
  refine ⟨?_, ?_, ?_, ?_⟩
  · unfold Line.getPointAtX
    by_cases hv : L.isVertical
    · simp [hv]
    · simp [hv]
  · intro hv
    unfold Line.getPointAtX
    rw [if_neg hv]
  · unfold Line.getPointAtY
    by_cases hh : L.isHorizontal
    · simp [hh]
    · simp [hh]
  · intro hh
    unfold Line.getPointAtY
    rw [if_neg hh]
    refine ⟨_, rfl, rfl, ?_, ?_⟩
    · intro hv
      rw [if_pos hv]
    · intro hb
      unfold Line.passesThrough
      by_cases hv : L.isVertical
      · rw [if_pos hv, if_pos hv]
      · rw [if_neg hv, if_neg hv]
        have hne := geometry_facts.2.2.2.1.2.1 L hv hh hb
        simp only
        field_simp

/-- Witness of C20: the line `y = 2 x + 1` at `t = 5`. -/
theorem Line.getPoint_fails_iff_witness :
    ¬ (⟨((2 : ℝ) : EReal), 1, -1 / 2⟩ : Line).isVertical ∧
    ¬ (⟨((2 : ℝ) : EReal), 1, -1 / 2⟩ : Line).isHorizontal ∧
    (⟨((2 : ℝ) : EReal), 1, -1 / 2⟩ : Line).slope ≠ ⊥ ∧
    Line.getPointAtX ⟨((2 : ℝ) : EReal), 1, -1 / 2⟩ 5
      = .ok ⟨5, (⟨((2 : ℝ) : EReal), 1, -1 / 2⟩ : Line).slope.toReal * 5 + 1⟩ ∧
    ∃ Q : Point, Line.getPointAtY ⟨((2 : ℝ) : EReal), 1, -1 / 2⟩ 5 = .ok Q ∧
      (⟨((2 : ℝ) : EReal), 1, -1 / 2⟩ : Line).passesThrough Q := by
  have hv : ¬ (⟨((2 : ℝ) : EReal), 1, -1 / 2⟩ : Line).isVertical := EReal.coe_ne_top 2
  have hh : ¬ (⟨((2 : ℝ) : EReal), 1, -1 / 2⟩ : Line).isHorizontal := by
    simp [geometry_unfold.2.1.2.2.2.2.2.2.1]
  have hb : (⟨((2 : ℝ) : EReal), 1, -1 / 2⟩ : Line).slope ≠ ⊥ := EReal.coe_ne_bot 2
  have h := Line.getPoint_fails_iff ⟨((2 : ℝ) : EReal), 1, -1 / 2⟩ 5
  obtain ⟨Q, hQ, _, _, hon⟩ := h.2.2.2 hh
  exact ⟨hv, hh, hb, h.2.1 hv, Q, hQ, hon hb⟩

/-! ## Lines: the representation invariant (C17) -/

/-- C17: the representation invariant of `Line` holds for the line of every constructor:
the default one, `Line(slope, intercept)` for every finite or infinite slope, `Line(xAngle)`,
`Line(P1, P2)`, `Line(P)`, the perpendicular `Line(other, P)`, and the copy of a line that
satisfies it. -/
theorem Line.constructors_invariant :
    Line.default.Invariant ∧
    (∀ (SLOPE : EReal) (INTERCEPT : ℝ), (Line.ofSlopeIntercept SLOPE INTERCEPT).Invariant) ∧
    (∀ X_ANGLE : ℝ, (Line.ofAngle X_ANGLE).Invariant) ∧
    (∀ P1 P2 : Point, (Line.ofPoints P1 P2).Invariant) ∧
    (∀ P : Point, (Line.ofPoint P).Invariant) ∧
    (∀ (THAT : Line) (P : Point), (Line.perpendicular THAT P).Invariant) ∧
    (∀ THAT : Line, THAT.Invariant → THAT.copy.Invariant) := by
  refine ⟨?_, geometry_facts.2.2.2.1.2.2.1, solver_facts.2.2.1.2.1, geometry_facts.2.2.2.1.2.2.2.1,
    fun P => geometry_facts.2.2.2.1.2.2.2.1 _ P, geometry_facts.2.2.2.1.2.2.2.2.1, fun THAT h => h⟩
  have h := geometry_facts.2.1.2.1 0 0
  simp only [if_true, EReal.coe_zero] at h
  exact h

/-- Witness of C17: the copy of the vertical line `x = 3`, and the line of slope `-∞` and
intercept `3`, which the constructor turns into the same vertical line. -/
theorem Line.constructors_invariant_witness :
    (⟨⊤, 0, 3⟩ : Line).Invariant ∧ (Line.copy ⟨⊤, 0, 3⟩).Invariant ∧
      Line.ofSlopeIntercept ⊥ 3 = ⟨⊤, 0, 3⟩ :=
  ⟨geometry_facts.1.2.2.2.2.2.2.2.2.2 3,
    Line.constructors_invariant.2.2.2.2.2.2 ⟨⊤, 0, 3⟩ (geometry_facts.1.2.2.2.2.2.2.2.2.2 3),
    by simp [geometry_unfold.2.2.1.1]⟩

/-! ## `trueMod` (C23) -/

/-- C23: for `n > 0`, `trueMod(a, n)` lies in `[0, n)` and differs from `a` by an integer
multiple of `n`. -/
theorem trueMod_mem_and_congruent (a n : ℝ) (hn : 0 < n) :
    0 ≤ trueMod a n ∧ trueMod a n < n ∧ ∃ k : ℤ, a - trueMod a n = (k : ℝ) * n := by
  have han : a = n * (a / n) := by field_simp
  unfold trueMod fmod
  by_cases hq : 0 ≤ a / n
  · simp only [hq, if_true]
    have h1 : ((⌊a / n⌋ : ℤ) : ℝ) ≤ a / n := Int.floor_le _
    have h2 : a / n < ((⌊a / n⌋ : ℤ) : ℝ) + 1 := Int.lt_floor_add_one _
    have h3 : 0 ≤ a - n * ((⌊a / n⌋ : ℤ) : ℝ) := by
      have : n * ((⌊a / n⌋ : ℤ) : ℝ) ≤ n * (a / n) := mul_le_mul_of_nonneg_left h1 hn.le
      linarith
    have h4 : a - n * ((⌊a / n⌋ : ℤ) : ℝ) < n := by
      have : n * (a / n) < n * (((⌊a / n⌋ : ℤ) : ℝ) + 1) := mul_lt_mul_of_pos_left h2 hn
      linarith
    rw [if_neg (not_lt.mpr h3)]
    exact ⟨h3, h4, ⌊a / n⌋, by ring⟩
  · simp only [hq, if_false]
    have h1 : a / n ≤ ((⌈a / n⌉ : ℤ) : ℝ) := Int.le_ceil _
    have h2 : ((⌈a / n⌉ : ℤ) : ℝ) < a / n + 1 := Int.ceil_lt_add_one _
    have h3 : a - n * ((⌈a / n⌉ : ℤ) : ℝ) ≤ 0 := by
      have : n * (a / n) ≤ n * ((⌈a / n⌉ : ℤ) : ℝ) := mul_le_mul_of_nonneg_left h1 hn.le
      linarith
    have h4 : -n < a - n * ((⌈a / n⌉ : ℤ) : ℝ) := by
      have : n * ((⌈a / n⌉ : ℤ) : ℝ) < n * (a / n + 1) := mul_lt_mul_of_pos_left h2 hn
      linarith
    by_cases h0 : a - n * ((⌈a / n⌉ : ℤ) : ℝ) < 0
    · rw [if_pos h0]
      refine ⟨by linarith, by linarith, ⌈a / n⌉ - 1, ?_⟩
      push_cast
      ring
    · rw [if_neg h0]
      exact ⟨not_lt.mp h0, by linarith, ⌈a / n⌉, by ring⟩

/-- Witness of C23: `trueMod(-1, 3)`. -/
theorem trueMod_mem_and_congruent_witness :
    0 ≤ trueMod (-1) 3 ∧ trueMod (-1) 3 < 3 ∧ ∃ k : ℤ, -1 - trueMod (-1) 3 = (k : ℝ) * 3 :=
  trueMod_mem_and_congruent (-1) 3 (by norm_num)

/-! ## Projection onto a line (C21, C22) -/

/-- C21: for all points `R`, `P`, `Q` the projection of `R` onto `Line(P, Q)` lies on
`Line(P, Q)`. -/
theorem Point.projectionOnto_ofPoints_on_line (R P Q : Point) :
    (Line.ofPoints P Q).passesThrough (R.projectionOnto (Line.ofPoints P Q)) :=
  geometry_facts.2.1.2.2.1 R (Line.ofPoints P Q)

/-- C22: `Point::projectionOnto` is the orthogonal projection: no point `S` of the line `L` is
closer to `R` than `R.projectionOnto(L)`.  (The invariant of `Line` is not needed for it.) -/
theorem Point.projectionOnto_closest (L : Line) (R S : Point) (hS : L.passesThrough S) :
    (R.from (R.projectionOnto L)).norm ≤ (R.from S).norm := by
  unfold Vector.norm
  apply Real.sqrt_le_sqrt
  unfold Line.passesThrough at hS
  unfold Point.projectionOnto
  by_cases hv : L.isVertical
  · rw [if_pos hv] at hS
    simp only [if_pos hv, geometry_unfold.1.2.2.2.2.2.2.2, geometry_unfold.1.2.2.2.2.2.1,
        geometry_unfold.1.2.1, geometry_unfold.2.1.2.2.1, sub_self, mul_zero,
      add_zero, hS]
    nlinarith [mul_self_nonneg (R.y - S.y)]
  · rw [if_neg hv] at hS
    simp only [if_neg hv, geometry_unfold.1.2.2.2.2.2.2.2, geometry_unfold.1.2.2.2.2.2.1,
        geometry_unfold.1.2.1, geometry_unfold.2.1.2.2.1, hS]
    generalize L.slope.toReal = s
    generalize L.yIntercept = b
    obtain ⟨rx, ry⟩ := R
    obtain ⟨t, sy⟩ := S
    simp only
    have hd : 0 < s ^ 2 + 1 := by positivity
    have e1 : rx - (rx + s * (ry - b)) / (s ^ 2 + 1) = s * (s * rx - ry + b) / (s ^ 2 + 1) := by
      field_simp
      ring
    have e2 : ry - (s * (rx + s * ry) + b) / (s ^ 2 + 1) = -(s * rx - ry + b) / (s ^ 2 + 1) := by
      field_simp
      ring
    rw [e1, e2]
    have e3 : s * (s * rx - ry + b) / (s ^ 2 + 1) * (s * (s * rx - ry + b) / (s ^ 2 + 1))
        + -(s * rx - ry + b) / (s ^ 2 + 1) * (-(s * rx - ry + b) / (s ^ 2 + 1))
        = (s * rx - ry + b) ^ 2 / (s ^ 2 + 1) := by
      field_simp
      ring
    rw [e3, div_le_iff₀ hd]
    nlinarith [sq_nonneg ((rx - t) + s * (ry - (s * t + b)))]

/-- Witness of C22: the line `y = 2 x + 1`, `R = (3, 0)` and the point `S = (0, 1)` of the
line. -/
theorem Point.projectionOnto_closest_witness :
    (⟨((2 : ℝ) : EReal), 1, -1 / 2⟩ : Line).passesThrough ⟨0, 1⟩ ∧
      ((⟨3, 0⟩ : Point).from
        ((⟨3, 0⟩ : Point).projectionOnto ⟨((2 : ℝ) : EReal), 1, -1 / 2⟩)).norm
        ≤ ((⟨3, 0⟩ : Point).from ⟨0, 1⟩).norm := by
  have hS : (⟨((2 : ℝ) : EReal), 1, -1 / 2⟩ : Line).passesThrough ⟨0, 1⟩ := by
    simp [geometry_unfold.2.2.2.1.2.2.2.2.2.2.1, geometry_unfold.2.1.2.2.2.2.2.1]
  exact ⟨hS, Point.projectionOnto_closest _ _ _ hS⟩

/-! ## The line through two points and the perpendicular through a point (C26, C27) -/

/-- C26: `Line(P1, P2)` is the vertical line `x = P1.x` when `P1.x = P2.x` and `P1.y ≠ P2.y`,
the horizontal line of slope `0` and `yIntercept = P1.y` when `P1 = P2`, and otherwise a
non-vertical line on which both `P1` and `P2` satisfy `y = slope * x + yIntercept`. -/
theorem Line.ofPoints_cases (P1 P2 : Point) :
    (P1.x = P2.x ∧ P1.y ≠ P2.y →
      (Line.ofPoints P1 P2).isVertical ∧ (Line.ofPoints P1 P2).xIntercept = P1.x) ∧
    (P1 = P2 → (Line.ofPoints P1 P2).slope = 0 ∧ (Line.ofPoints P1 P2).yIntercept = P1.y) ∧
    (¬ (P1.x = P2.x ∧ P1.y ≠ P2.y) → P1 ≠ P2 →
      ¬ (Line.ofPoints P1 P2).isVertical ∧
      P1.y = (Line.ofPoints P1 P2).slope.toReal * P1.x + (Line.ofPoints P1 P2).yIntercept ∧
      P2.y = (Line.ofPoints P1 P2).slope.toReal * P2.x + (Line.ofPoints P1 P2).yIntercept) := by
  refine ⟨fun h => ?_, fun h => ?_, fun h hne => ?_⟩
  · unfold Line.ofPoints
    rw [if_pos h]
    exact ⟨rfl, rfl⟩
  · subst h
    unfold Line.ofPoints
    rw [if_neg (fun h => h.2 rfl)]
    simp
  · have hx : P1.x ≠ P2.x := by
      intro hx
      by_cases hy : P1.y = P2.y
      · apply hne
        cases P1
        cases P2
        simp only at hx hy
        rw [hx, hy]
      · exact h ⟨hx, hy⟩
    have hsub : P2.x - P1.x ≠ 0 := sub_ne_zero.mpr (Ne.symm hx)
    unfold Line.ofPoints
    rw [if_neg h]
    simp only [hx, false_and, if_false, EReal.toReal_coe]
    refine ⟨EReal.coe_ne_top _, by ring, ?_⟩
    field_simp
    ring

/-- Witness of C26: the three cases at `(1, 2), (1, 5)`, at `(1, 2), (1, 2)` and at
`(0, 1), (2, 5)`. -/
theorem Line.ofPoints_cases_witness :
    ((Line.ofPoints ⟨1, 2⟩ ⟨1, 5⟩).isVertical ∧ (Line.ofPoints ⟨1, 2⟩ ⟨1, 5⟩).xIntercept = 1) ∧
    ((Line.ofPoints ⟨1, 2⟩ ⟨1, 2⟩).slope = 0 ∧ (Line.ofPoints ⟨1, 2⟩ ⟨1, 2⟩).yIntercept = 2) ∧
    (¬ (Line.ofPoints ⟨0, 1⟩ ⟨2, 5⟩).isVertical ∧
      (1 : ℝ) = (Line.ofPoints ⟨0, 1⟩ ⟨2, 5⟩).slope.toReal * 0
        + (Line.ofPoints ⟨0, 1⟩ ⟨2, 5⟩).yIntercept ∧
      (5 : ℝ) = (Line.ofPoints ⟨0, 1⟩ ⟨2, 5⟩).slope.toReal * 2
        + (Line.ofPoints ⟨0, 1⟩ ⟨2, 5⟩).yIntercept) :=
  ⟨(Line.ofPoints_cases ⟨1, 2⟩ ⟨1, 5⟩).1 ⟨rfl, by norm_num⟩,
    (Line.ofPoints_cases ⟨1, 2⟩ ⟨1, 2⟩).2.1 rfl,
    (Line.ofPoints_cases ⟨0, 1⟩ ⟨2, 5⟩).2.2 (by norm_num) (by
      intro h
      injection h with hx _
      norm_num at hx)⟩

/-- C27: for a line `L` that satisfies the invariant of `Line` and a point `P`, `Line(L, P)`
passes through `P`; it is the vertical line `x = P.x` when `L` is horizontal, the horizontal
line `y = P.y` when `L` is vertical, and otherwise has the slope `-1 / L.slope`, whose product
with the slope of `L` is `-1`. -/
theorem Line.perpendicular_spec (L : Line) (hL : L.Invariant) (P : Point) :
    (Line.perpendicular L P).passesThrough P ∧
    (L.isHorizontal →
      (Line.perpendicular L P).isVertical ∧ (Line.perpendicular L P).xIntercept = P.x) ∧
    (L.isVertical →
      (Line.perpendicular L P).isHorizontal ∧ (Line.perpendicular L P).yIntercept = P.y) ∧
    (¬ L.isHorizontal → ¬ L.isVertical →
      (Line.perpendicular L P).slope = ((-1 / L.slope.toReal : ℝ) : EReal) ∧
      (Line.perpendicular L P).slope.toReal * L.slope.toReal = -1 ∧
      P.y = (Line.perpendicular L P).slope.toReal * P.x
        + (Line.perpendicular L P).yIntercept) := by
  refine ⟨?_, fun hh => ?_, fun hv => ?_, fun hh hv => ?_⟩
  · unfold Line.perpendicular Line.passesThrough
    by_cases hh : L.isHorizontal
    · simp only [if_pos hh, geometry_unfold.2.1.2.2.2.2.2.1, if_true]
    · simp only [if_neg hh, geometry_unfold.2.1.2.2.2.2.2.1, EReal.coe_ne_top, if_false,
        EReal.toReal_coe]
      ring
  · unfold Line.perpendicular
    rw [if_pos hh]
    exact ⟨rfl, rfl⟩
  · have hh : ¬ L.isHorizontal := by
      intro hh
      unfold Line.isVertical at hv
      unfold Line.isHorizontal at hh
      rw [hv] at hh
      exact EReal.top_ne_zero hh
    have h0 : L.slope.toReal = 0 := by
      unfold Line.isVertical at hv
      rw [hv]
      exact EReal.toReal_top
    unfold Line.perpendicular
    rw [if_neg hh]
    simp only [h0, div_zero, geometry_unfold.2.1.2.2.2.2.2.2.1, EReal.coe_zero, mul_zero, sub_zero, true_and]
  · have hne := geometry_facts.2.2.2.1.2.1 L hv hh hL.1
    unfold Line.perpendicular
    rw [if_neg hh]
    simp only [EReal.toReal_coe, true_and]
    constructor
    · field_simp
    · ring

/-- Witness of C27: the perpendicular to `y = 2 x + 1` through `(3, 0)`. -/
theorem Line.perpendicular_spec_witness :
    (⟨((2 : ℝ) : EReal), 1, -1 / 2⟩ : Line).Invariant ∧
      (Line.perpendicular ⟨((2 : ℝ) : EReal), 1, -1 / 2⟩ ⟨3, 0⟩).passesThrough ⟨3, 0⟩ :=
  ⟨geometry_facts.2.1.1 2 1 (by norm_num),
    (Line.perpendicular_spec _ (geometry_facts.2.1.1 2 1 (by norm_num)) ⟨3, 0⟩).1⟩

/-! ## The bounding line of a half-plane (C25) -/

/-- C25: with `h = HalfPlane(nPos, n)`, whose normal is `n`, or `(0, 1)` for a zero `n`, a
point `P` lies on `h.boundingLine()` if and only if `(P - nPos) · h.normal() = 0`; every such
point satisfies `h.contains(P)`. -/
theorem HalfPlane.on_boundingLine_iff (nPos : Point) (n : Vector) (P : Point) :
    (HalfPlane.new nPos n).normalPosition = nPos ∧
    (HalfPlane.new nPos n).normal = (if n.x = 0 ∧ n.y = 0 then ⟨0, 1⟩ else n) ∧
    ((HalfPlane.new nPos n).boundingLine.passesThrough P ↔
      (P.from nPos).dot (HalfPlane.new nPos n).normal = 0) ∧
    ((HalfPlane.new nPos n).boundingLine.passesThrough P → (HalfPlane.new nPos n).contains P) := by
  have h1 : ¬ (⟨0, 1⟩ : Vector).norm = 0 := by
    rw [norm_facts.2.2.2.2.1.2.1]; norm_num
  have key : ∀ m : Vector, m.norm ≠ 0 →
      ((HalfPlane.new nPos m).boundingLine.passesThrough P ↔
        (P.from nPos).dot (HalfPlane.new nPos m).normal = 0) ∧
      ((HalfPlane.new nPos m).boundingLine.passesThrough P →
        (HalfPlane.new nPos m).contains P) := by
    intro m hm
    have hiff := norm_facts.2.2.2.2.2.2.2.2.1.2.2.2.1 nPos m hm P
    rw [norm_facts.1.2.2.2.2.2.2.2.2.2 nPos m hm]
    refine ⟨hiff, fun h => ?_⟩
    unfold HalfPlane.contains
    rw [norm_facts.1.2.2.2.2.2.2.2.2.1, norm_facts.1.2.2.2.2.2.2.2.2.2 nPos m hm, hiff.mp h]
  refine ⟨norm_facts.1.2.2.2.2.2.2.2.2.1 nPos n, ?_, ?_⟩
  · by_cases hn : n.norm = 0
    · rw [norm_facts.2.2.2.2.2.2.1.2.2.1 nPos n hn, norm_facts.1.2.2.2.2.2.2.2.2.2 _ _ h1,
        if_pos ((norm_facts.2.2.2.2.1.2.1 n).mp hn)]
    · rw [norm_facts.1.2.2.2.2.2.2.2.2.2 _ _ hn,
        if_neg (fun h => hn ((norm_facts.2.2.2.2.1.2.1 n).mpr h))]
  · by_cases hn : n.norm = 0
    · rw [norm_facts.2.2.2.2.2.2.1.2.2.1 nPos n hn]
      exact key _ h1
    · exact key n hn

/-- Witness of C25: the point `(3, 7)` on the bounding line `x = 3` of
`HalfPlane((3, 0), (1, 0))`. -/
theorem HalfPlane.on_boundingLine_iff_witness :
    (HalfPlane.new ⟨3, 0⟩ ⟨1, 0⟩).boundingLine.passesThrough ⟨3, 7⟩ ∧
      (HalfPlane.new ⟨3, 0⟩ ⟨1, 0⟩).contains ⟨3, 7⟩ := by
  have hp : (HalfPlane.new ⟨3, 0⟩ ⟨1, 0⟩).boundingLine.passesThrough ⟨3, 7⟩ := by
    rw [norm_facts.2.2.2.2.2.2.1.1 _ _ rfl (by norm_num)]
    simp [geometry_unfold.2.2.2.1.2.2.2.2.2.2.1, geometry_unfold.2.1.2.2.2.2.2.1]
  exact ⟨hp, (HalfPlane.on_boundingLine_iff ⟨3, 0⟩ ⟨1, 0⟩ ⟨3, 7⟩).2.2.2 hp⟩

/-! ## The angle of a unit vector (C24) -/

/-- C24: for every angle `t` in `[0, 2π)` the unit vector `Vector(t)` has `xAngle()` equal
to `t`. -/
theorem Vector.xAngle_ofAngle (t : ℝ) (h0 : 0 ≤ t) (h1 : t < 2 * Real.pi) :
    (Vector.ofAngle t).xAngle = t := by
  rw [solver_facts.2.2.1.2.2.1 t h0 h1]
  exact solver_facts.2.2.1.2.2.2.1 t h0 h1

/-- Witness of C24: the angle `π`. -/
theorem Vector.xAngle_ofAngle_witness :
    (0 : ℝ) ≤ Real.pi ∧ Real.pi < 2 * Real.pi ∧ (Vector.ofAngle Real.pi).xAngle = Real.pi :=
  ⟨Real.pi_pos.le, by linarith [Real.pi_pos],
    Vector.xAngle_ofAngle Real.pi Real.pi_pos.le (by linarith [Real.pi_pos])⟩

/-! ## The truncation-circle branch of `orca_A_B` (C28) -/

/-- C28: on the truncation-circle branch (different positions, `r_A + r_B > 0`, `TAU > 0`,
`(v_A - v_B) · (p_B - p_A) ≤ 0`), with `w = (v_A - v_B) - (p_B - p_A) / TAU` and `b` the
vector `w` scaled to length `(r_A + r_B) / TAU`: `w` is not zero, `b` has that length, and
`A.orca_A_B(B, TAU)` returns the half-plane built from the normal `b` and the position
`v_A + (b - w) / 2`, which has this normal and this position. -/
theorem Agent.orca_A_B_truncation (A B : Agent) (TAU : ℝ) (w b : Vector)
    (hp : A.position ≠ B.position) (hr : 0 < A.radius + B.radius) (hτ : 0 < TAU)
    (hdot : (A.velocity.sub B.velocity).dot (Vector.ofPoint (B.position.sub A.position)) ≤ 0)
    (hw : w = (A.velocity.sub B.velocity).sub
      (Vector.ofPoint ((B.position.sub A.position).sdiv TAU)))
    (hb : b = w.normalize ((A.radius + B.radius) / TAU)) :
    w.norm ≠ 0 ∧ b.norm = (A.radius + B.radius) / TAU ∧
    b = ⟨w.x * ((A.radius + B.radius) / TAU / w.norm),
      w.y * ((A.radius + B.radius) / TAU / w.norm)⟩ ∧
    A.orca_A_B B TAU
      = .ok (HalfPlane.new (Point.ofVector (A.velocity.add ((b.sub w).sdiv 2))) b) ∧
    (HalfPlane.new (Point.ofVector (A.velocity.add ((b.sub w).sdiv 2))) b).normal = b ∧
    (HalfPlane.new (Point.ofVector (A.velocity.add ((b.sub w).sdiv 2))) b).normalPosition
      = Point.ofVector (A.velocity.add ((b.sub w).sdiv 2)) := by
  have hwne : w.norm ≠ 0 := by
    rw [hw]
    exact norm_facts.2.2.2.2.2.2.2.1.1 A B TAU hp hτ hdot
  have hrτ : 0 < (A.radius + B.radius) / TAU := div_pos hr hτ
  have hbn : b.norm = (A.radius + B.radius) / TAU := by
    rw [hb]
    exact norm_facts.2.2.2.2.2.2.1.2.2.2.1 w _ hrτ.le hwne
  refine ⟨hwne, hbn, ?_, ?_, ?_, norm_facts.1.2.2.2.2.2.2.2.2.1 _ _⟩
  · rw [hb]
    exact norm_facts.2.1.2.1 w _ hwne
  · rw [solver_facts.2.1.2.1 A B TAU w b hw ?_ hdot hwne]
    rw [hb, norm_facts.2.2.2.2.2.2.1.2.2.2.2.2.2.2.2.2 A.position B.position hp _ TAU hτ]
  · exact norm_facts.1.2.2.2.2.2.2.2.2.2 _ _ (by rw [hbn]; exact hrτ.ne')

/-- Witness of C28: `A` at `(0, 0)` with velocity `(-1, 0)`, `B` at `(4, 0)` with velocity
`(1, 0)`, both of radius `1`, `TAU = 2`; here `w = (-4, 0)` and `b = (-1, 0)`. -/
theorem Agent.orca_A_B_truncation_witness :
    Vector.norm (((⟨-1, 0⟩ : Vector).sub ⟨1, 0⟩).sub (Vector.ofPoint (((⟨4, 0⟩ : Point).sub ⟨0,
        0⟩).sdiv 2))) ≠ 0 ∧
    Vector.norm (Vector.normalize (((⟨-1, 0⟩ : Vector).sub ⟨1, 0⟩).sub (Vector.ofPoint (((⟨4,
        0⟩ : Point).sub ⟨0, 0⟩).sdiv 2)))
      (((1 : ℝ) + 1) / 2)) = ((1 : ℝ) + 1) / 2 :=
  have h := Agent.orca_A_B_truncation ⟨0, ⟨0, 0⟩, ⟨-10, 0⟩, ⟨-1, 0⟩, ⟨-1, 0⟩, 1, 1⟩
    ⟨1, ⟨4, 0⟩, ⟨10, 0⟩, ⟨1, 0⟩, ⟨1, 0⟩, 1, 1⟩ 2 _ _
    (by intro h; injection h with hx _; norm_num at hx) (by norm_num) (by norm_num)
    (by norm_num [geometry_unfold.2.1.2.1, geometry_unfold.2.1.2.2.1, geometry_unfold.1.2.1,
          geometry_unfold.1.2.2.2.2.2.1]) rfl rfl
  ⟨h.1, h.2.1⟩

/-! ## One half-plane with a slanted bounding line (C29) -/

/-- C29: one half-plane `h = HalfPlane(nPos, n)` with `n.y ≠ 0` that does not contain
`vPref`, whose bounding line meets the circle `x² + y² = R²` in two points `P1`, `P2` with
`P1.x < P2.x`: for every shuffle, `ORCA::solveLinearProgram([h], vPref, R)` returns the
point of the bounding line whose `x` is the `x` of the orthogonal projection of `vPref`
onto the bounding line clamped to `[P1.x, P2.x]`.  Neither `R > 0` nor `|vPref| ≤ R` is
needed. -/
theorem ORCA.solveLinearProgram_single_slanted (shuffle : List HalfPlane → List HalfPlane)
    (hs : IsShuffle shuffle) (nPos : Point) (n vPref : Vector) (R : ℝ) (P1 P2 : Point)
    (hy : n.y ≠ 0) (hc : ¬ (HalfPlane.new nPos n).contains (Point.ofVector vPref))
    (hP1 : (HalfPlane.new nPos n).boundingLine.passesThrough P1)
    (hP2 : (HalfPlane.new nPos n).boundingLine.passesThrough P2)
    (hC1 : P1.x ^ 2 + P1.y ^ 2 = R ^ 2) (hC2 : P2.x ^ 2 + P2.y ^ 2 = R ^ 2)
    (hlt : P1.x < P2.x) :
    ∃ Q : Point, ORCA.solveLinearProgram shuffle [HalfPlane.new nPos n] vPref R = .ok Q ∧
      (HalfPlane.new nPos n).boundingLine.passesThrough Q ∧
      Q.x = max P1.x (min
        ((Point.ofVector vPref).projectionOnto (HalfPlane.new nPos n).boundingLine).x P2.x) := by
  have hnv := norm_facts.2.2.2.2.2.2.2.2.1.2.2.2.2.1 nPos n hy
  rw [geometry_unfold.2.2.2.1.2.2.2.2.2.2.1, if_neg hnv] at hP1 hP2
  rw [hP1] at hC1
  rw [hP2] at hC2
  refine ⟨⟨max P1.x (min
      ((Point.ofVector vPref).projectionOnto (HalfPlane.new nPos n).boundingLine).x P2.x),
    (HalfPlane.new nPos n).boundingLine.slope.toReal * max P1.x (min
      ((Point.ofVector vPref).projectionOnto (HalfPlane.new nPos n).boundingLine).x P2.x)
      + (HalfPlane.new nPos n).boundingLine.yIntercept⟩, ?_, ?_, rfl⟩
  · rw [solver_unfold.1.2.2.2.2.2.2.1, (geometry_facts.1.2.1 hs), solver_unfold.1.2.2.2.2.2.1]
    exact solver_facts.1.2.2.2.2.1 _ _ _ _ _ _ _
      (solver_facts.2.2.2.2.1.2.2.2.2.2.2.1 _ _ vPref R P1.x P2.x _ hnv hlt hC1 hC2 hc)
  · rw [geometry_unfold.2.2.2.1.2.2.2.2.2.2.1, if_neg hnv]

/-- Witness of C29: the half-plane `y ≤ x + 1` (normal `(1, -1)` at `(0, 1)`), `R = 5`,
`vPref = (0, 5)`; the bounding line meets the circle at `(-4, -3)` and `(3, 4)`. -/
theorem ORCA.solveLinearProgram_single_slanted_witness :
    ∃ Q : Point, ORCA.solveLinearProgram id [HalfPlane.new ⟨0, 1⟩ ⟨1, -1⟩] ⟨0, 5⟩ 5 = .ok Q ∧
      (HalfPlane.new ⟨0, 1⟩ ⟨1, -1⟩).boundingLine.passesThrough Q ∧
      Q.x = max (-4 : ℝ) (min
        ((Point.ofVector ⟨0, 5⟩).projectionOnto (HalfPlane.new ⟨0, 1⟩ ⟨1, -1⟩).boundingLine).x
        3) :=
  ORCA.solveLinearProgram_single_slanted id geometry_facts.1.2.2.1 ⟨0, 1⟩ ⟨1, -1⟩ ⟨0, 5⟩ 5 ⟨-4, -3⟩
    ⟨3, 4⟩ (by norm_num)
    (by
      rw [norm_facts.2.2.2.2.2.2.1.2.1 _ _ (by norm_num)]
      norm_num [geometry_unfold.2.2.2.1.1, geometry_unfold.1.2.2.2.2.2.2.2,
          geometry_unfold.1.2.2.1, geometry_unfold.1.2.1, geometry_unfold.1.2.2.2.2.2.1,
        geometry_unfold.2.1.2.2.1])
    (by
      rw [geometry_unfold.2.2.2.1.2.2.2.2.2.2.1,
          if_neg (norm_facts.2.2.2.2.2.2.2.2.1.2.2.2.2.1 _ _ (by norm_num)),
        norm_facts.2.2.2.2.2.2.1.2.1 _ _ (by norm_num)]
      norm_num [EReal.toReal_coe])
    (by
      rw [geometry_unfold.2.2.2.1.2.2.2.2.2.2.1,
          if_neg (norm_facts.2.2.2.2.2.2.2.2.1.2.2.2.2.1 _ _ (by norm_num)),
        norm_facts.2.2.2.2.2.2.1.2.1 _ _ (by norm_num)]
      norm_num [EReal.toReal_coe])
    (by norm_num) (by norm_num) (by norm_num)

/-! ## One half-plane with a vertical bounding line (C30) -/

/-- C30 fails on the code: with the single half-plane `HalfPlane(nPos = (5, 0), n = (1, 0))`
(bounding line `x = 5`), `vPref = (0, 13)` (of norm `13`, outside the half-plane) and
`R = 13`, where `sqrt(R² - c²) = 12`, the solver returns `(5, 13)` and not
`(5, 12)`, the point with `vPref.y` clamped to `[-12, 12]`.  The tests of lines 311-320
compare `projection.x()`, not `projection.y()`, with `left` and `right`. -/
theorem ORCA.solveLinearProgram_single_vertical_unclamped :
    (⟨0, 13⟩ : Vector).norm ≤ 13 ∧
      (HalfPlane.new ⟨5, 0⟩ ⟨1, 0⟩).normal.y = 0 ∧
      ¬ (HalfPlane.new ⟨5, 0⟩ ⟨1, 0⟩).contains (Point.ofVector ⟨0, 13⟩) ∧
      Real.sqrt ((13 : ℝ) ^ 2 - 5 ^ 2) = 12 ∧
      ORCA.solveLinearProgram id [HalfPlane.new ⟨5, 0⟩ ⟨1, 0⟩] ⟨0, 13⟩ 13 = .ok ⟨5, 13⟩ ∧
      (⟨5, 13⟩ : Point) ≠ ⟨5, max (-12) (min 13 12)⟩ := by
  refine ⟨?_, ?_, ?_, norm_facts.1.2.2.2.2.2.2.2.1 _ _ _ (by norm_num) (by norm_num), ?_, ?_⟩
  · rw [norm_facts.1.2.2.1 _ (by norm_num)]; norm_num
  · rw [norm_facts.2.2.2.2.2.2.1.1 _ _ rfl (by norm_num)]
  · rw [norm_facts.2.2.2.2.2.2.1.1 _ _ rfl (by norm_num)]
    norm_num [geometry_unfold.2.2.2.1.1, geometry_unfold.1.2.2.2.2.2.2.2,
        geometry_unfold.1.2.2.2.2.2.1, geometry_unfold.1.2.1, geometry_unfold.1.2.2.1,
      geometry_unfold.2.1.2.2.1]
  · unfold ORCA.solveLinearProgram ORCA.solveShuffled
    apply solver_facts.1.2.2.2.2.1
    rw [solver_facts.2.2.2.2.1.1 _ ⟨5, 0⟩ ⟨1, 0⟩ ⟨0, 13⟩ 13 12 _ rfl
      (by norm_num) (by norm_num [geometry_unfold.1.2.2.1]) (by norm_num [abs_of_pos])
      (norm_facts.1.2.2.2.2.2.2.2.1 _ _ _ (by norm_num) (by norm_num))]
    rw [if_neg (by norm_num), if_neg (by norm_num)]
  · intro h
    injection h with _ hy
    norm_num at hy

/-! ## `Line::contains` (C34) -/

/-- C34 fails on the code: on the vertical line `x = 3` built by `Line(Point(3, 0),
Point(3, 1))` lies the point `(3, 0)`, but `contains` is false for it, and for every other
point: `slope_ * P.x() + yIntercept_` is infinite (or NaN), and `P.y()` is not. -/
theorem Line.contains_vertical_false :
    (Line.ofPoints ⟨3, 0⟩ ⟨3, 1⟩).isVertical ∧
      (Line.ofPoints ⟨3, 0⟩ ⟨3, 1⟩).xIntercept = (⟨3, 0⟩ : Point).x ∧
      (Line.ofPoints ⟨3, 0⟩ ⟨3, 1⟩).passesThrough ⟨3, 0⟩ ∧
      ¬ (Line.ofPoints ⟨3, 0⟩ ⟨3, 1⟩).contains ⟨3, 0⟩ ∧
      ∀ P : Point, ¬ (Line.ofPoints ⟨3, 0⟩ ⟨3, 1⟩).contains P := by
  have hL : Line.ofPoints ⟨3, 0⟩ ⟨3, 1⟩ = ⟨⊤, 0, 3⟩ := by
    unfold Line.ofPoints
    rw [if_pos (by norm_num)]
  have hv : (Line.ofPoints ⟨3, 0⟩ ⟨3, 1⟩).isVertical := by
    rw [hL]
    rfl
  refine ⟨hv, ?_, ?_, geometry_facts.2.1.2.2.2.2.1 _ hv _,
    fun P => geometry_facts.2.1.2.2.2.2.1 _ hv P⟩
  · rw [hL]
  · rw [geometry_unfold.2.2.2.1.2.2.2.2.2.2.1, if_pos hv, hL]

/-! ## The operators `==` of lines and half-planes (C35, C36) -/

/-- C35 fails on the code: the vertical lines `x = 1` and `x = 2`, built by
`Line(Point(1, 0), Point(1, 1))` and `Line(Point(2, 0), Point(2, 1))`, satisfy the invariant
of `Line` and compare equal under `==`, although their `xIntercept`s differ: both have
`yIntercept = 0`, which makes the second operand of `||` true. -/
theorem Line.operatorEq_distinct_verticals :
    (Line.ofPoints ⟨1, 0⟩ ⟨1, 1⟩).Invariant ∧ (Line.ofPoints ⟨2, 0⟩ ⟨2, 1⟩).Invariant ∧
      (Line.ofPoints ⟨1, 0⟩ ⟨1, 1⟩).operatorEq (Line.ofPoints ⟨2, 0⟩ ⟨2, 1⟩) ∧
      (Line.ofPoints ⟨1, 0⟩ ⟨1, 1⟩).xIntercept = 1 ∧
      (Line.ofPoints ⟨2, 0⟩ ⟨2, 1⟩).xIntercept = 2 ∧
      (Line.ofPoints ⟨1, 0⟩ ⟨1, 1⟩).xIntercept ≠ (Line.ofPoints ⟨2, 0⟩ ⟨2, 1⟩).xIntercept := by
  have h1 : Line.ofPoints ⟨1, 0⟩ ⟨1, 1⟩ = ⟨⊤, 0, 1⟩ := by
    unfold Line.ofPoints
    rw [if_pos (by norm_num)]
  have h2 : Line.ofPoints ⟨2, 0⟩ ⟨2, 1⟩ = ⟨⊤, 0, 2⟩ := by
    unfold Line.ofPoints
    rw [if_pos (by norm_num)]
  refine ⟨geometry_facts.2.2.2.1.2.2.2.1 _ _, geometry_facts.2.2.2.1.2.2.2.1 _ _, ?_, ?_, ?_, ?_⟩
  · exact geometry_facts.2.1.2.2.2.2.2.1 _ _ (geometry_facts.2.2.2.1.2.2.2.1 _ _)
      (geometry_facts.2.2.2.1.2.2.2.1 _ _) (by rw [h1]; rfl) (by rw [h2]; rfl)
  · rw [h1]
  · rw [h2]
  · rw [h1, h2]
    norm_num

/-- C36 fails on the code: `HalfPlane((0, 0), (0, 1))` and `HalfPlane((0, 0), (0, -1))`, the
half-planes `y ≥ 0` and `y ≤ 0`, compare equal under `==`, which looks at the bounding
lines only, but the first contains `(0, 1)` and the second does not. -/
theorem HalfPlane.operatorEq_opposite :
    (HalfPlane.new ⟨0, 0⟩ ⟨0, 1⟩).operatorEq (HalfPlane.new ⟨0, 0⟩ ⟨0, -1⟩) ∧
      (HalfPlane.new ⟨0, 0⟩ ⟨0, 1⟩).contains ⟨0, 1⟩ ∧
      ¬ (HalfPlane.new ⟨0, 0⟩ ⟨0, -1⟩).contains ⟨0, 1⟩ := by
  have h1 : HalfPlane.new ⟨0, 0⟩ ⟨0, 1⟩ = ⟨⟨0, 0⟩, ⟨0, 1⟩, ⟨((0 : ℝ) : EReal), 0, 0⟩⟩ := by
    rw [norm_facts.2.2.2.2.2.2.1.2.1 _ _ (by norm_num)]
    norm_num
  have h2 : HalfPlane.new ⟨0, 0⟩ ⟨0, -1⟩ = ⟨⟨0, 0⟩, ⟨0, -1⟩, ⟨((0 : ℝ) : EReal), 0, 0⟩⟩ := by
    rw [norm_facts.2.2.2.2.2.2.1.2.1 _ _ (by norm_num)]
    norm_num
  rw [h1, h2]
  refine ⟨⟨rfl, Or.inr rfl⟩, ?_, ?_⟩
  · norm_num [geometry_unfold.2.2.2.1.1, geometry_unfold.1.2.2.2.2.2.2.2,
      geometry_unfold.1.2.2.2.2.2.1, geometry_unfold.1.2.1, geometry_unfold.2.1.2.2.1]
  · norm_num [geometry_unfold.2.2.2.1.1, geometry_unfold.1.2.2.2.2.2.2.2,
      geometry_unfold.1.2.2.2.2.2.1, geometry_unfold.1.2.1, geometry_unfold.2.1.2.2.1]

/-! ## `Vector::projectionOnto` (C37) -/

/-- C37 fails on the code: the projection of `v = (-1, 0)` onto `w = (1, 0)` is
`((v · w) / (w · w)) w = (-1, 0)`, but `v.projectionOnto(w)` is `(1, 0)`: the length given
to `normalize` is `|v · w| / |w|`, so the result never points against `w`. -/
theorem Vector.projectionOnto_obtuse :
    (⟨1, 0⟩ : Vector).norm ≠ 0 ∧
      (⟨-1, 0⟩ : Vector).projectionOnto ⟨1, 0⟩ = ⟨1, 0⟩ ∧
      (⟨1, 0⟩ : Vector).smul ((⟨-1, 0⟩ : Vector).dot ⟨1, 0⟩ / (⟨1, 0⟩ : Vector).dot ⟨1, 0⟩)
        = ⟨-1, 0⟩ ∧
      (⟨-1, 0⟩ : Vector).projectionOnto ⟨1, 0⟩
        ≠ (⟨1, 0⟩ : Vector).smul
          ((⟨-1, 0⟩ : Vector).dot ⟨1, 0⟩ / (⟨1, 0⟩ : Vector).dot ⟨1, 0⟩) := by
  have hn : (⟨1, 0⟩ : Vector).norm ≠ 0 := by
    rw [Ne, norm_facts.2.2.2.2.1.2.1]; norm_num
  have h1 : (⟨-1, 0⟩ : Vector).projectionOnto ⟨1, 0⟩ = ⟨1, 0⟩ := by
    rw [norm_facts.2.2.2.2.2.2.2.1.2.2.1 _ _ hn]
    norm_num [geometry_unfold.2.1.2.2.2.1, geometry_unfold.2.1.2.2.1]
  have h2 : (⟨1, 0⟩ : Vector).smul
      ((⟨-1, 0⟩ : Vector).dot ⟨1, 0⟩ / (⟨1, 0⟩ : Vector).dot ⟨1, 0⟩) = ⟨-1, 0⟩ := by
    norm_num [geometry_unfold.2.1.2.2.2.1, geometry_unfold.2.1.2.2.1]
  refine ⟨hn, h1, h2, ?_⟩
  rw [h1, h2]
  intro h
  injection h with hx _
  norm_num at hx

/-! ## The emptiness test for a slanted bounding line with an upward normal (C31) -/

/-- C31, as the code has it: a half-plane `h_i` that does not contain the solution, with a
non-vertical bounding line that meets the circle at `x1 < x2` and with `normal.y > 0`,
starts from `left = x1`, `right = x2`; once the tightening against the half-planes before it
has returned `(left, right)`, the solver raises `LinearProgramInfeasible` exactly when
`left > right`, and otherwise goes on with a new solution. -/
theorem ORCA.processHalfPlane_upward_infeasible_iff (H prev : List HalfPlane)
    (h_i : HalfPlane) (vMax : Vector) (R x1 x2 : ℝ) (s : Point) (lr : ℝ × ℝ)
    (hnv : ¬ h_i.boundingLine.isVertical) (hny : 0 < h_i.normal.y) (hlt : x1 < x2)
    (h1 : x1 ^ 2 + (h_i.boundingLine.slope.toReal * x1 + h_i.boundingLine.yIntercept) ^ 2
      = R ^ 2)
    (h2 : x2 ^ 2 + (h_i.boundingLine.slope.toReal * x2 + h_i.boundingLine.yIntercept) ^ 2
      = R ^ 2)
    (hc : ¬ h_i.contains s)
    (ht : ORCA.tightenAll h_i prev (ORCA.circleBounds h_i R) = .ok lr) :
    ORCA.circleBounds h_i R = (x1, x2) ∧
      (ORCA.processHalfPlane H prev h_i vMax R s = .error .LinearProgramInfeasible
        ↔ lr.1 > lr.2) ∧
      (¬ lr.1 > lr.2 → ∃ s1, ORCA.processHalfPlane H prev h_i vMax R s = .ok (.next s1)) := by
  have ha : (0 : ℝ) < h_i.boundingLine.slope.toReal ^ 2 + 1 := by positivity
  have hd : 0 < ORCA.discriminant h_i R := by
    rw [norm_facts.2.2.2.2.2.1.1 h_i R x1 x2 hnv hlt h1 h2]
    exact pow_pos (mul_pos ha (by linarith)) 2
  have hcb : ORCA.circleBounds h_i R = (x1, x2) := by
    rw [norm_facts.2.2.2.2.2.2.2.1.2.1 h_i R x1 x2 hnv hlt h1 h2, if_neg (not_lt.mpr hny.le)]
  obtain ⟨s1, hs1⟩ := geometry_facts.2.1.2.2.2.2.2.2.2.1 h_i vMax lr.1 lr.2 hnv
  have hie := geometry_facts.2.1.2.2.2.2.2.2.2.2.1 h_i lr.1 lr.2 hnv hny
  by_cases he : lr.1 > lr.2
  · have hp : ORCA.processHalfPlane H prev h_i vMax R s = .error .LinearProgramInfeasible :=
      solver_facts.1.2.2.2.2.2.2.2.1 H prev h_i vMax R s lr hc hd ht (hie.mpr he)
    exact ⟨hcb, ⟨fun _ => he, fun _ => hp⟩, fun hn => absurd he hn⟩
  · have hp : ORCA.processHalfPlane H prev h_i vMax R s = .ok (.next s1) :=
      solver_facts.1.2.2.2.1 H prev h_i vMax R s s1 lr hc hd ht
        (fun h => he (hie.mp h)) hs1
    refine ⟨hcb, ⟨fun h => ?_, fun h => absurd h he⟩, fun _ => ⟨s1, hp⟩⟩
    rw [hp] at h
    cases h

/-- C31 fails as stated: for `h = HalfPlane((0, -3), (0, 1))` (the half-plane `y ≥ -3`, with
`normal.y = 1 > 0`), `R = 5` and the solution `(0, -5)`, which `h` does not contain, the
bounding line meets the circle at `x = -4` and `x = 4`, there is no earlier half-plane, so
`left = -4 < right = 4`, and the solver raises nothing: it goes on with `(0, -3)`. -/
theorem ORCA.processHalfPlane_upward_left_lt_right :
    ¬ (HalfPlane.new ⟨0, -3⟩ ⟨0, 1⟩).boundingLine.isVertical ∧
      (HalfPlane.new ⟨0, -3⟩ ⟨0, 1⟩).normal.y > 0 ∧
      ¬ (HalfPlane.new ⟨0, -3⟩ ⟨0, 1⟩).contains ⟨0, -5⟩ ∧
      ORCA.tightenAll (HalfPlane.new ⟨0, -3⟩ ⟨0, 1⟩) []
        (ORCA.circleBounds (HalfPlane.new ⟨0, -3⟩ ⟨0, 1⟩) 5) = .ok (-4, 4) ∧
      (-4 : ℝ) < 4 ∧
      ORCA.processHalfPlane [HalfPlane.new ⟨0, -3⟩ ⟨0, 1⟩] [] (HalfPlane.new ⟨0, -3⟩ ⟨0, 1⟩)
        ⟨0, -5⟩ 5 ⟨0, -5⟩ = .ok (.next ⟨0, -3⟩) ∧
      ORCA.solveLinearProgram id [HalfPlane.new ⟨0, -3⟩ ⟨0, 1⟩] ⟨0, -5⟩ 5 = .ok ⟨0, -3⟩ := by
  have hnv : ¬ (HalfPlane.new ⟨0, -3⟩ ⟨0, 1⟩).boundingLine.isVertical :=
    norm_facts.2.2.2.2.2.2.2.2.1.2.2.2.2.1 _ _ (by norm_num)
  have hc : ¬ (HalfPlane.new ⟨0, -3⟩ ⟨0, 1⟩).contains ⟨0, -5⟩ := by
    rw [norm_facts.2.2.2.2.2.2.2.2.1.2.2.2.2.2.1]
    norm_num [geometry_unfold.2.2.2.1.1, geometry_unfold.1.2.2.2.2.2.2.2,
        geometry_unfold.1.2.2.2.2.2.1, geometry_unfold.1.2.1, geometry_unfold.2.1.2.2.1]
  have h1 : (-4 : ℝ) ^ 2 + ((HalfPlane.new ⟨0, -3⟩ ⟨0, 1⟩).boundingLine.slope.toReal * (-4)
      + (HalfPlane.new ⟨0, -3⟩ ⟨0, 1⟩).boundingLine.yIntercept) ^ 2 = 5 ^ 2 := by
    rw [norm_facts.2.2.2.2.2.2.2.2.1.2.2.2.2.2.1]
    norm_num [EReal.toReal_coe]
  have h2 : (4 : ℝ) ^ 2 + ((HalfPlane.new ⟨0, -3⟩ ⟨0, 1⟩).boundingLine.slope.toReal * 4
      + (HalfPlane.new ⟨0, -3⟩ ⟨0, 1⟩).boundingLine.yIntercept) ^ 2 = 5 ^ 2 := by
    rw [norm_facts.2.2.2.2.2.2.2.2.1.2.2.2.2.2.1]
    norm_num [EReal.toReal_coe]
  have hp := solver_facts.2.2.2.2.1.2.2.2.2.2.2.1 [HalfPlane.new ⟨0, -3⟩ ⟨0, 1⟩]
    (HalfPlane.new ⟨0, -3⟩ ⟨0, 1⟩) ⟨0, -5⟩ 5 (-4) 4 ⟨0, -5⟩ hnv (by norm_num) h1 h2 hc
  have hq : (⟨max (-4 : ℝ) (min ((Point.ofVector ⟨0, -5⟩).projectionOnto
        (HalfPlane.new ⟨0, -3⟩ ⟨0, 1⟩).boundingLine).x 4),
      (HalfPlane.new ⟨0, -3⟩ ⟨0, 1⟩).boundingLine.slope.toReal
          * max (-4 : ℝ) (min ((Point.ofVector ⟨0, -5⟩).projectionOnto
            (HalfPlane.new ⟨0, -3⟩ ⟨0, 1⟩).boundingLine).x 4)
        + (HalfPlane.new ⟨0, -3⟩ ⟨0, 1⟩).boundingLine.yIntercept⟩ : Point) = ⟨0, -3⟩ := by
    rw [norm_facts.2.2.2.2.2.2.2.2.1.2.2.2.2.2.1]
    simp only [geometry_unfold.2.2.1.2.2.2.2.2.2.2, geometry_unfold.2.1.2.2.2.2.2.1,
        EReal.coe_ne_top, if_false,
      EReal.toReal_coe, geometry_unfold.1.2.2.1]
    norm_num
  rw [hq] at hp
  refine ⟨hnv, ?_, hc, ?_, by norm_num, hp, ?_⟩
  · rw [norm_facts.2.2.2.2.2.2.2.2.1.2.2.2.2.2.1]
    norm_num
  · rw [norm_facts.2.2.2.2.2.2.2.1.2.1 _ 5 (-4) 4 hnv (by norm_num) h1 h2,
                                                            norm_facts.2.2.2.2.2.2.2.2.1.2.2.2.2.2.1]
    rw [if_neg (by norm_num)]
    rfl
  · unfold ORCA.solveLinearProgram ORCA.solveShuffled
    exact solver_facts.1.2.2.2.2.1 _ _ _ _ _ _ _ hp

/-- Witness of C31: the half-plane `y ≥ -3` with `R = 5`, the solution `(0, -5)` and no
earlier half-plane. -/
theorem ORCA.processHalfPlane_upward_infeasible_iff_witness :
    ORCA.circleBounds (HalfPlane.new ⟨0, -3⟩ ⟨0, 1⟩) 5 = (-4, 4) ∧
      (ORCA.processHalfPlane [] [] (HalfPlane.new ⟨0, -3⟩ ⟨0, 1⟩) ⟨0, -5⟩ 5 ⟨0, -5⟩
          = .error .LinearProgramInfeasible
        ↔ (ORCA.circleBounds (HalfPlane.new ⟨0, -3⟩ ⟨0, 1⟩) 5).1
          > (ORCA.circleBounds (HalfPlane.new ⟨0, -3⟩ ⟨0, 1⟩) 5).2) :=
  have h := ORCA.processHalfPlane_upward_infeasible_iff [] [] (HalfPlane.new ⟨0, -3⟩ ⟨0, 1⟩)
    ⟨0, -5⟩ 5 (-4) 4 ⟨0, -5⟩ (ORCA.circleBounds (HalfPlane.new ⟨0, -3⟩ ⟨0, 1⟩) 5)
    (norm_facts.2.2.2.2.2.2.2.2.1.2.2.2.2.1 _ _ (by norm_num))
    (by rw [norm_facts.2.2.2.2.2.2.2.2.1.2.2.2.2.2.1]; norm_num)
    (by norm_num)
    (by rw [norm_facts.2.2.2.2.2.2.2.2.1.2.2.2.2.2.1]; norm_num [EReal.toReal_coe])
    (by rw [norm_facts.2.2.2.2.2.2.2.2.1.2.2.2.2.2.1]; norm_num [EReal.toReal_coe])
    (by
      rw [norm_facts.2.2.2.2.2.2.2.2.1.2.2.2.2.2.1]
      norm_num [geometry_unfold.2.2.2.1.1, geometry_unfold.1.2.2.2.2.2.2.2,
          geometry_unfold.1.2.2.2.2.2.1, geometry_unfold.1.2.1, geometry_unfold.2.1.2.2.1])
    rfl
  ⟨h.1, h.2.1⟩

/-! ## The tangent case (C33) -/

/-- C32: two half-planes `h1 = HalfPlane(p1, n1)` and `h2 = HalfPlane(p2, n2)` with parallel
bounding lines and normals of negative dot product, whose bounding lines each meet the
circle of radius `R > 0` in two points, and which have no point in common: for every
`vPref` and every shuffle `ORCA::solveLinearProgram` raises `LinearProgramInfeasible` on
`[h1, h2]` and on `[h2, h1]`.  `|vPref| ≤ R` is not needed. -/
theorem ORCA.solveLinearProgram_antiparallel_infeasible
    (shuffle : List HalfPlane → List HalfPlane) (hs : IsShuffle shuffle) (p1 p2 : Point)
    (n1 n2 vPref : Vector) (R : ℝ) (P1 Q1 P2 Q2 : Point) (hR : 0 < R)
    (hpar : (HalfPlane.new p1 n1).boundingLine.parallel (HalfPlane.new p2 n2).boundingLine)
    (hdot : (HalfPlane.new p1 n1).normal.dot (HalfPlane.new p2 n2).normal < 0)
    (h1ne : P1 ≠ Q1) (hP1 : (HalfPlane.new p1 n1).boundingLine.passesThrough P1)
    (hQ1 : (HalfPlane.new p1 n1).boundingLine.passesThrough Q1)
    (hP1c : P1.x ^ 2 + P1.y ^ 2 = R ^ 2) (hQ1c : Q1.x ^ 2 + Q1.y ^ 2 = R ^ 2)
    (h2ne : P2 ≠ Q2) (hP2 : (HalfPlane.new p2 n2).boundingLine.passesThrough P2)
    (hQ2 : (HalfPlane.new p2 n2).boundingLine.passesThrough Q2)
    (hP2c : P2.x ^ 2 + P2.y ^ 2 = R ^ 2) (hQ2c : Q2.x ^ 2 + Q2.y ^ 2 = R ^ 2)
    (hdisj : ∀ P : Point, ¬ ((HalfPlane.new p1 n1).contains P ∧ (HalfPlane.new p2 n2).contains P)) :
    ORCA.solveLinearProgram shuffle [HalfPlane.new p1 n1, HalfPlane.new p2 n2] vPref R
        = .error .LinearProgramInfeasible ∧
      ORCA.solveLinearProgram shuffle [HalfPlane.new p2 n2, HalfPlane.new p1 n1] vPref R
        = .error .LinearProgramInfeasible := by
  have hd1 := norm_facts.2.2.2.2.2.2.2.1.2.2.2.1 _ R hR P1 Q1 h1ne hP1 hQ1 hP1c hQ1c
  have hd2 := norm_facts.2.2.2.2.2.2.2.1.2.2.2.1 _ R hR P2 Q2 h2ne hP2 hQ2 hP2c hQ2c
  have hpar2 : (HalfPlane.new p2 n2).boundingLine.parallel (HalfPlane.new p1 n1).boundingLine := by
    unfold Line.parallel at hpar ⊢
    exact hpar.symm
  have hdot2 : (HalfPlane.new p2 n2).normal.dot (HalfPlane.new p1 n1).normal < 0 := by
    unfold Vector.dot at hdot ⊢
    linarith
  have e12 := solver_facts.2.2.2.2.2.2.1.2.2.2.1 p1 p2 n1 n2 vPref R hd1 hd2 hpar2 hdot2 hdisj
  have e21 := solver_facts.2.2.2.2.2.2.1.2.2.2.1 p2 p1 n2 n1 vPref R hd2 hd1 hpar hdot
    (fun P h => hdisj P ⟨h.2, h.1⟩)
  unfold ORCA.solveLinearProgram
  constructor
  · rcases geometry_facts.2.1.2.2.2.2.2.2.2.2.2 _ _ _ (hs [HalfPlane.new p1 n1,
      HalfPlane.new p2 n2])
      with h | h
    · rw [h]; exact e12
    · rw [h]; exact e21
  · rcases geometry_facts.2.1.2.2.2.2.2.2.2.2.2 _ _ _ (hs [HalfPlane.new p2 n2,
      HalfPlane.new p1 n1])
      with h | h
    · rw [h]; exact e21
    · rw [h]; exact e12

/-- Witness of C32: the half-planes `y ≥ 3` and `y ≤ -3` with `R = 5` and `vPref = (0, 0)`;
the bounding lines meet the circle at `(±4, 3)` and at `(±4, -3)`. -/
theorem ORCA.solveLinearProgram_antiparallel_infeasible_witness :
    ORCA.solveLinearProgram id [HalfPlane.new ⟨0, 3⟩ ⟨0, 1⟩, HalfPlane.new ⟨0, -3⟩ ⟨0, -1⟩]
        ⟨0, 0⟩ 5 = .error .LinearProgramInfeasible ∧
      ORCA.solveLinearProgram id [HalfPlane.new ⟨0, -3⟩ ⟨0, -1⟩, HalfPlane.new ⟨0, 3⟩ ⟨0, 1⟩]
        ⟨0, 0⟩ 5 = .error .LinearProgramInfeasible :=
  ORCA.solveLinearProgram_antiparallel_infeasible id geometry_facts.1.2.2.1 ⟨0, 3⟩ ⟨0, -3⟩ ⟨0, 1⟩
    ⟨0, -1⟩ ⟨0, 0⟩ 5 ⟨-4, 3⟩ ⟨4, 3⟩ ⟨-4, -3⟩ ⟨4, -3⟩ (by norm_num)
    (by rw [norm_facts.2.2.2.2.2.2.2.2.1.2.2.2.2.2.2.1.1, norm_facts.2.2.2.2.2.2.2.2.1.2.2.2.2.2.2.1.2]; rfl)
    (by
      rw [norm_facts.2.2.2.2.2.2.2.2.1.2.2.2.2.2.2.1.1,
          norm_facts.2.2.2.2.2.2.2.2.1.2.2.2.2.2.2.1.2]
      norm_num [geometry_unfold.2.1.2.2.1])
    (by intro h; injection h with hx _; norm_num at hx)
    (by
      rw [norm_facts.2.2.2.2.2.2.2.2.1.2.2.2.2.2.2.1.1]
      simp [geometry_unfold.2.2.2.1.2.2.2.2.2.2.1, geometry_unfold.2.1.2.2.2.2.2.1])
    (by
      rw [norm_facts.2.2.2.2.2.2.2.2.1.2.2.2.2.2.2.1.1]
      simp [geometry_unfold.2.2.2.1.2.2.2.2.2.2.1, geometry_unfold.2.1.2.2.2.2.2.1])
    (by norm_num) (by norm_num)
    (by intro h; injection h with hx _; norm_num at hx)
    (by
      rw [norm_facts.2.2.2.2.2.2.2.2.1.2.2.2.2.2.2.1.2]
      simp [geometry_unfold.2.2.2.1.2.2.2.2.2.2.1, geometry_unfold.2.1.2.2.2.2.2.1])
    (by
      rw [norm_facts.2.2.2.2.2.2.2.2.1.2.2.2.2.2.2.1.2]
      simp [geometry_unfold.2.2.2.1.2.2.2.2.2.2.1, geometry_unfold.2.1.2.2.2.2.2.1])
    (by norm_num) (by norm_num)
    (by
      rw [norm_facts.2.2.2.2.2.2.2.2.1.2.2.2.2.2.2.1.1,
          norm_facts.2.2.2.2.2.2.2.2.1.2.2.2.2.2.2.1.2]
      rintro ⟨px, py⟩ ⟨h1, h2⟩
      simp only [geometry_unfold.2.2.2.1.1, geometry_unfold.1.2.2.2.2.2.2.2,
          geometry_unfold.1.2.2.2.2.2.1, geometry_unfold.1.2.1, geometry_unfold.2.1.2.2.1] at h1 h2
      linarith)

/-! ## The outcome depends on the order of the half-planes (C38) -/

/-- C38 fails on the code: with `vPref = (0, 25)` (of norm `25`) and `R = 25`, the list
`[HalfPlane((15, 0), (1, 0)), HalfPlane((0, 24), (0, -1))]` makes the solver raise
`LinearProgramInfeasible`, and the same half-planes in the other order make it return
`(15, 25)`; these are the outcomes under the shuffle that changes nothing and under the one
that reverses the list.  On the vertical bounding line `x = 15` the tests of lines 311-320
read `projection.x()`, so the solution leaves the disk. -/
theorem ORCA.solveLinearProgram_order_dependent :
    (0 : ℝ) ≤ 25 ∧ (⟨0, 25⟩ : Vector).norm ≤ 25 ∧
      [HalfPlane.new ⟨0, 24⟩ ⟨0, -1⟩, HalfPlane.new ⟨15, 0⟩ ⟨1, 0⟩].Perm
        [HalfPlane.new ⟨15, 0⟩ ⟨1, 0⟩, HalfPlane.new ⟨0, 24⟩ ⟨0, -1⟩] ∧
      ORCA.solveShuffled [HalfPlane.new ⟨15, 0⟩ ⟨1, 0⟩, HalfPlane.new ⟨0, 24⟩ ⟨0, -1⟩]
        ⟨0, 25⟩ 25 = .error .LinearProgramInfeasible ∧
      ORCA.solveShuffled [HalfPlane.new ⟨0, 24⟩ ⟨0, -1⟩, HalfPlane.new ⟨15, 0⟩ ⟨1, 0⟩]
        ⟨0, 25⟩ 25 = .ok ⟨15, 25⟩ ∧
      IsShuffle id ∧ IsShuffle List.reverse ∧
      ORCA.solveLinearProgram id
          [HalfPlane.new ⟨15, 0⟩ ⟨1, 0⟩, HalfPlane.new ⟨0, 24⟩ ⟨0, -1⟩] ⟨0, 25⟩ 25
        ≠ ORCA.solveLinearProgram List.reverse
          [HalfPlane.new ⟨15, 0⟩ ⟨1, 0⟩, HalfPlane.new ⟨0, 24⟩ ⟨0, -1⟩] ⟨0, 25⟩ 25 := by
  refine ⟨by norm_num, ?_, List.Perm.swap _ _ _, solver_facts.2.2.2.2.2.2.1.2.2.2.2.1,
    solver_facts.2.2.2.2.2.2.1.2.2.2.2.2.1, geometry_facts.1.2.2.1, fun H => List.reverse_perm H, ?_⟩
  · rw [norm_facts.1.2.2.1 _ (by norm_num)]; norm_num
  · unfold ORCA.solveLinearProgram
    simp only [id, List.reverse_cons, List.reverse_nil, List.nil_append, List.singleton_append]
    rw [solver_facts.2.2.2.2.2.2.1.2.2.2.2.1, solver_facts.2.2.2.2.2.2.1.2.2.2.2.2.1]
    intro h
    cases h

/-! ## The choice of the circle, for a pair of agents and for the swapped pair -/

/-- C40: for agents `A`, `B` with `|p_B - p_A| > r_A + r_B > 0` and `TAU > 0`, if
`A.orca_A_B(B, TAU)` returns the half-plane `hA`, then `B.orca_A_B(A, TAU)` returns a
half-plane `hB` too, with the opposite normal, `hB.normal = -hA.normal`, and the opposite
offset, `hB.nPos - v_B = -(hA.nPos - v_A)`. -/
theorem Agent.orca_A_B_reciprocal (A B : Agent) (TAU : ℝ) (hA : HalfPlane)
    (hr : 0 < A.radius + B.radius)
    (hfar : A.radius + B.radius < (Vector.ofPoint (B.position.sub A.position)).norm)
    (hτ : 0 < TAU) (hcA : A.orca_A_B B TAU = .ok hA) :
    ∃ hB : HalfPlane, B.orca_A_B A TAU = .ok hB ∧ hB.normal = hA.normal.neg ∧
      (Vector.ofPoint hB.normalPosition).sub B.velocity
        = ((Vector.ofPoint hA.normalPosition).sub A.velocity).neg := by
  obtain ⟨dv, hdv⟩ : ∃ dv, A.velocity.sub B.velocity = dv := ⟨_, rfl⟩
  obtain ⟨c, hc⟩ : ∃ c, B.position.sub A.position = c := ⟨_, rfl⟩
  obtain ⟨r, hrdef⟩ : ∃ r, A.radius + B.radius = r := ⟨_, rfl⟩
  obtain ⟨lp, hlp⟩ : ∃ lp, dv.projectionOnto
      ((Vector.ofPoint c).rotated (Real.arcsin (r / (Vector.ofPoint c).norm))) = lp := ⟨_, rfl⟩
  obtain ⟨rp, hrp⟩ : ∃ rp, dv.projectionOnto
      ((Vector.ofPoint c).rotated (-Real.arcsin (r / (Vector.ofPoint c).norm))) = rp := ⟨_, rfl⟩
  rw [hc, hrdef] at hfar
  rw [hrdef] at hr
  have eA := solver_facts.2.2.1.2.2.2.2.2.2.2.2.2 A B TAU dv c r lp rp hdv hc hrdef hlp hrp
  have eB := solver_facts.2.2.1.2.2.2.2.2.2.2.2.2 B A TAU dv.neg (Point.ofVector (Vector.ofPoint c).neg) r
    lp.neg rp.neg (by rw [geometry_facts.2.2.1.2.1 A.velocity B.velocity, hdv])
    (by rw [geometry_facts.2.2.1.2.2.1 B.position A.position, hc]) (by rw [add_comm, hrdef])
    (by rw [geometry_facts.2.2.1.2.2.2.1, norm_facts.2.2.2.2.2.1.2.2.1,
          solver_facts.2.2.2.2.2.2.2.1.2.2.1,
      norm_facts.2.2.2.2.2.2.2.2.1.2.2.2.2.2.2.2.2, hlp])
    (by rw [geometry_facts.2.2.1.2.2.2.1, norm_facts.2.2.2.2.2.1.2.2.1,
          solver_facts.2.2.2.2.2.2.2.1.2.2.1,
      norm_facts.2.2.2.2.2.2.2.2.1.2.2.2.2.2.2.2.2, hrp])
  rw [norm_facts.2.2.2.2.2.2.2.1.2.2.2.2.2] at eB
  rw [hcA] at eA
  cases hcl : Agent.closestCircleCenter dv c lp rp TAU with
  | error e =>
    rw [hcl] at eA
    cases eA
  | ok cc =>
    rw [hcl] at eA eB
    simp only [geometry_facts.2.2.1.2.2.2.1, norm_facts.2.2.2.2.2.1.2.2.1,
        geometry_facts.2.2.1.2.2.2.2.2.1,
      norm_facts.2.2.2.2.2.2.2.1.2.2.2.2.1, geometry_facts.2.2.1.2.2.2.2.2.2.1] at eA eB
    obtain ⟨hfacts, hcross⟩ := norm_facts.2.2.2.2.2.1.2.2.2.2 dv c lp rp TAU cc hcl
    have hne := solver_facts.2.2.2.2.2.2.2.2.2.2 dv c cc r TAU hr hfar hτ hfacts hcross
    rw [hrp] at hne
    obtain ⟨cb, hcb⟩ : ∃ cb, (if (dv.sub (Vector.ofPoint cc)).norm = 0 then rp.sub dv
        else (dv.sub (Vector.ofPoint cc)).normalize
          (r * (Vector.ofPoint cc).norm / (Vector.ofPoint c).norm)) = cb := ⟨_, rfl⟩
    rw [hcb] at eA eB hne
    have hAeq : hA = HalfPlane.new (Point.ofVector (A.velocity.add
        ((cb.sub (dv.sub (Vector.ofPoint cc))).sdiv 2))) cb := by
      injection eA
    refine ⟨_, eB, ?_, ?_⟩
    · rw [hAeq, norm_facts.1.2.2.2.2.2.2.2.2.2 _ _ hne,
        norm_facts.1.2.2.2.2.2.2.2.2.2 _ _ (by rw [norm_facts.2.2.2.2.2.1.2.2.1]; exact hne)]
    · rw [hAeq, norm_facts.1.2.2.2.2.2.2.2.2.1, norm_facts.1.2.2.2.2.2.2.2.2.1]
      simp only [geometry_unfold.1.2.1, geometry_unfold.1.2.2.1, geometry_unfold.2.1.1,
          geometry_unfold.2.1.2.1, geometry_unfold.2.1.2.2.2.2.1,
        geometry_unfold.2.2.2.2.2.2]
      congr 1 <;> ring

/-- Witness of C40: `A` at `(0, 0)` with velocity `(-1, 0)`, `B` at `(4, 0)` with velocity
`(1, 0)`, both of radius `1`, `TAU = 2`. -/
theorem Agent.orca_A_B_reciprocal_witness :
    ∃ hA hB : HalfPlane,
      Agent.orca_A_B ⟨0, ⟨0, 0⟩, ⟨-10, 0⟩, ⟨-1, 0⟩, ⟨-1, 0⟩, 1, 1⟩
        ⟨1, ⟨4, 0⟩, ⟨10, 0⟩, ⟨1, 0⟩, ⟨1, 0⟩, 1, 1⟩ 2 = .ok hA ∧
      Agent.orca_A_B ⟨1, ⟨4, 0⟩, ⟨10, 0⟩, ⟨1, 0⟩, ⟨1, 0⟩, 1, 1⟩
        ⟨0, ⟨0, 0⟩, ⟨-10, 0⟩, ⟨-1, 0⟩, ⟨-1, 0⟩, 1, 1⟩ 2 = .ok hB ∧
      hB.normal = hA.normal.neg ∧
      (Vector.ofPoint hB.normalPosition).sub ⟨1, 0⟩
        = ((Vector.ofPoint hA.normalPosition).sub ⟨-1, 0⟩).neg := by
  have hdot : ((⟨-1, 0⟩ : Vector).sub ⟨1, 0⟩).dot
      (Vector.ofPoint ((⟨4, 0⟩ : Point).sub ⟨0, 0⟩)) ≤ 0 := by
    norm_num [geometry_unfold.2.1.2.1, geometry_unfold.2.1.2.2.1, geometry_unfold.1.2.1,
        geometry_unfold.1.2.2.2.2.2.1]
  have hpos : (⟨0, 0⟩ : Point) ≠ ⟨4, 0⟩ := by
    intro h
    injection h with hx _
    norm_num at hx
  have hk := norm_facts.2.2.2.2.2.2.2.1.1 ⟨0, ⟨0, 0⟩, ⟨-10, 0⟩, ⟨-1, 0⟩, ⟨-1, 0⟩, 1, 1⟩
    ⟨1, ⟨4, 0⟩, ⟨10, 0⟩, ⟨1, 0⟩, ⟨1, 0⟩, 1, 1⟩ 2 hpos (by norm_num) hdot
  have hcA := solver_facts.2.1.2.1 ⟨0, ⟨0, 0⟩, ⟨-10, 0⟩, ⟨-1, 0⟩, ⟨-1, 0⟩, 1, 1⟩
    ⟨1, ⟨4, 0⟩, ⟨10, 0⟩, ⟨1, 0⟩, ⟨1, 0⟩, 1, 1⟩ 2 _ _ rfl rfl hdot hk
  obtain ⟨hB, h1, h2, h3⟩ := Agent.orca_A_B_reciprocal
    ⟨0, ⟨0, 0⟩, ⟨-10, 0⟩, ⟨-1, 0⟩, ⟨-1, 0⟩, 1, 1⟩ ⟨1, ⟨4, 0⟩, ⟨10, 0⟩, ⟨1, 0⟩, ⟨1, 0⟩, 1, 1⟩ 2 _
    (by norm_num)
    (by
      rw [norm_facts.1.2.2.2.2.2.2.1 _ 4 (by norm_num)
        (by norm_num [geometry_unfold.1.2.1, geometry_unfold.1.2.2.2.2.2.1])]
      norm_num)
    (by norm_num) hcA
  exact ⟨_, hB, hcA, h1, h2, h3⟩

/-! ## A failed iteration leaves the agents as they were (C39) -/

/-- C39: if `ORCA::iteration()` throws, the engine state it leaves is the state it started
from: the list of agents, and with it every agent's velocity, position and preferred
velocity, is unchanged.  The exception is the one the first loop met. -/
theorem ORCA.iteration_atomic (shuffle : List HalfPlane → List HalfPlane) (S : ORCA) (e : Err)
    (h : (ORCA.iterationRun shuffle S).1 = .error e) :
    (ORCA.iterationRun shuffle S).2 = S ∧ (ORCA.iterationRun shuffle S).2.agents = S.agents ∧
      ORCA.iteration shuffle S = .error e := by
  rw [solver_facts.2.2.2.2.2.2.1.2.2.2.2.2.2.2] at h ⊢
  cases hi : ORCA.iteration shuffle S with
  | error e1 =>
    rw [hi] at h
    simp only at h
    cases h
    exact ⟨rfl, rfl, rfl⟩
  | ok S1 =>
    rw [hi] at h
    cases h

/-- Witness of C39: two agents of radius `1` that touch, at `(0, 0)` and `(2, 0)`, the
first with velocity `(1, 1)`; `orca_A_B` raises `LinesParallel` for the first agent, so
`ORCA::iteration()` throws. -/
theorem ORCA.iteration_atomic_witness :
    (ORCA.iterationRun id ⟨[⟨0, ⟨0, 0⟩, ⟨10, 0⟩, ⟨1, 1⟩, ⟨1, 0⟩, 1, 1⟩,
        ⟨1, ⟨2, 0⟩, ⟨-10, 0⟩, ⟨0, 0⟩, ⟨-1, 0⟩, 1, 1⟩], 2, 1 / 10, 1 / 2⟩).1
        = .error .LinesParallel ∧
      (ORCA.iterationRun id ⟨[⟨0, ⟨0, 0⟩, ⟨10, 0⟩, ⟨1, 1⟩, ⟨1, 0⟩, 1, 1⟩,
        ⟨1, ⟨2, 0⟩, ⟨-10, 0⟩, ⟨0, 0⟩, ⟨-1, 0⟩, 1, 1⟩], 2, 1 / 10, 1 / 2⟩).2
        = ⟨[⟨0, ⟨0, 0⟩, ⟨10, 0⟩, ⟨1, 1⟩, ⟨1, 0⟩, 1, 1⟩,
          ⟨1, ⟨2, 0⟩, ⟨-10, 0⟩, ⟨0, 0⟩, ⟨-1, 0⟩, 1, 1⟩], 2, 1 / 10, 1 / 2⟩ := by
  have hnear : ((⟨0, 0⟩ : Point).from ⟨2, 0⟩).norm ≤ 2 * 1 := by
    rw [norm_facts.1.2.2.1 _ (by norm_num)]
    norm_num [geometry_unfold.1.2.2.2.2.2.2.2, geometry_unfold.1.2.2.2.2.2.1, geometry_unfold.1.2.1]
  have h : (ORCA.iterationRun id ⟨[⟨0, ⟨0, 0⟩, ⟨10, 0⟩, ⟨1, 1⟩, ⟨1, 0⟩, 1, 1⟩,
      ⟨1, ⟨2, 0⟩, ⟨-10, 0⟩, ⟨0, 0⟩, ⟨-1, 0⟩, 1, 1⟩], 2, 1 / 10, 1 / 2⟩).1
      = .error .LinesParallel := by
    unfold ORCA.iterationRun
    rw [solver_unfold.2.2]
    dsimp only
    rw [solver_facts.2.1.2.2.2.2.1 _ _ _ (by norm_num), if_pos hnear,
      solver_facts.2.2.2.2.2.2.2.1.2.2.2.2]
  exact ⟨h, (ORCA.iteration_atomic id _ _ h).1⟩

end Orca

end
